import Mathlib

/-! # Online-Voting-System: casting votes and reading results

A shallow embedding of `src/routes/votes.js` (`router.post('/cast')` and
`router.get('/results/:electionId')`), of the listing `router.get('/')` of
`src/routes/elections.js` and of `ApiService.request` of
`src/scripts/api-service.js`, over the relational schema created in
`src/config/database.js`, followed by the register and admin routes and by the
browser scripts for login, registration, the election list and the voting dialog.

The handler of `POST /cast` appears twice: `castVote` takes a body in which every
identifier is present, and `postCast` takes any body, identifiers that are `null`
included; `postCast_toDatabase` shows that the two agree on the bodies of the
first.  Handlers that run at the same time are `Call`s stepped by a schedule.

Modelling conventions.

* A table is the list of its rows, in insertion order.  Only the columns that
  the modelled statements read or write, or that a key refers to, are kept.
  The columns `votes.id` (AUTO_INCREMENT) and `votes.timestamp` are assigned by
  the database and never read back by the route (the pre-check only looks at
  the number of selected rows), so a ballot row is the four submitted columns.
* `db.execute` runs every statement on the pool in autocommit mode: the route
  opens no transaction, so each statement that succeeds is durable at once.
* A statement fails only through a constraint declared in the schema: the four
  foreign keys of `votes` and `UNIQUE KEY unique_vote`.  An `UPDATE` whose
  `WHERE` matches no row succeeds and changes nothing.
* `INT` columns are natural numbers; identifiers compare by equality.
* A column of `votes` may hold NULL; this only matters for `postCast`, where an
  identifier of the body may be `null`.
-/

namespace OnlineVoting

/-! ## Schema (`src/config/database.js`, `initDatabase`) -/

/-- Row of `users`: `id VARCHAR(50) PRIMARY KEY`, `has_voted BOOLEAN DEFAULT FALSE`. -/
structure User where
  id : String
  name : String
  email : String
  has_voted : Bool
  deriving DecidableEq, Repr

/-- Column `elections.status`: `ENUM('active', 'upcoming', 'completed')`. -/
inductive ElectionStatus where
  | active
  | upcoming
  | completed
  deriving DecidableEq, Repr

/-- Row of `elections`. -/
structure Election where
  id : Nat
  title : String
  status : ElectionStatus
  total_voters : Nat
  votes_cast : Nat
  deriving DecidableEq, Repr

/-- Row of `positions`. -/
structure Position where
  id : Nat
  election_id : Nat
  title : String
  max_selections : Nat
  min_selections : Nat
  deriving DecidableEq, Repr

/-- Row of `candidates`. -/
structure Candidate where
  id : Nat
  position_id : Nat
  name : String
  party : String
  votes : Nat
  deriving DecidableEq, Repr

/-- Row of `votes` (a ballot): the four columns written by the `INSERT`. -/
structure Vote where
  user_id : String
  election_id : Nat
  position_id : Nat
  candidate_id : Nat
  deriving DecidableEq, Repr

/-- The database: one list of rows per table. -/
structure Store where
  users : List User
  elections : List Election
  positions : List Position
  candidates : List Candidate
  votes : List Vote
  deriving DecidableEq, Repr

/-- Errors raised by a failing `INSERT INTO votes`. -/
inductive DbError where
  | foreignKey
  | duplicateEntry
  deriving DecidableEq, Repr

/-! ## Statements issued by the route -/

/-- Statement `SELECT id FROM votes WHERE user_id = ? AND election_id = ?` (votes.js 11-14). -/
def selectVotes (s : Store) (userId : String) (electionId : Nat) : List Vote :=
  s.votes.filter (fun v => decide (v.user_id = userId) && decide (v.election_id = electionId))

/-- The four `FOREIGN KEY` clauses of `votes` (database.js 102-105): every
referenced parent row exists. -/
def foreignKeysOk (s : Store) (row : Vote) : Bool :=
  s.users.any (fun u => decide (u.id = row.user_id)) &&
  s.elections.any (fun e => decide (e.id = row.election_id)) &&
  s.positions.any (fun p => decide (p.id = row.position_id)) &&
  s.candidates.any (fun c => decide (c.id = row.candidate_id))

/-- Constraint `UNIQUE KEY unique_vote (user_id, election_id, position_id)` (database.js 106):
some stored row already has the key of `row`. -/
def uniqueVoteTaken (s : Store) (row : Vote) : Bool :=
  s.votes.any (fun v => decide (v.user_id = row.user_id) &&
    decide (v.election_id = row.election_id) && decide (v.position_id = row.position_id))

/-- Statement `INSERT INTO votes (user_id, election_id, position_id, candidate_id) VALUES (?, ?, ?, ?)`
(votes.js 22-25) under the constraints of the table. -/
def insertVote (s : Store) (row : Vote) : Except DbError Store :=
  if foreignKeysOk s row = false then .error .foreignKey
  else if uniqueVoteTaken s row = true then .error .duplicateEntry
  else .ok { s with votes := s.votes ++ [row] }

/-- Statement `UPDATE candidates SET votes = votes + 1 WHERE id = ?` (votes.js 28-31). -/
def updateCandidateVotes (s : Store) (candidateId : Nat) : Store :=
  { s with
    candidates := s.candidates.map
      (fun c => if c.id = candidateId then { c with votes := c.votes + 1 } else c) }

/-- Statement `UPDATE users SET has_voted = TRUE WHERE id = ?` (votes.js 35-38). -/
def updateUserHasVoted (s : Store) (userId : String) : Store :=
  { s with
    users := s.users.map
      (fun u => if u.id = userId then { u with has_voted := true } else u) }

/-- Statement `UPDATE elections SET votes_cast = votes_cast + 1 WHERE id = ?` (votes.js 41-44). -/
def updateElectionVotesCast (s : Store) (electionId : Nat) : Store :=
  { s with
    elections := s.elections.map
      (fun e => if e.id = electionId then { e with votes_cast := e.votes_cast + 1 } else e) }

/-! ## The route `POST /cast` -/

/-- One element of the request body field `votes`: `{positionId, candidateId}`. -/
structure Selection where
  positionId : Nat
  candidateId : Nat
  deriving DecidableEq, Repr

/-- The row that the loop body inserts for one selection. -/
def ballotRow (userId : String) (electionId : Nat) (v : Selection) : Vote :=
  { user_id := userId, election_id := electionId,
    position_id := v.positionId, candidate_id := v.candidateId }

/-- The loop `for (const vote of votes)` (votes.js 21-32): insert the row, then
increment the candidate counter.  A failing `INSERT` throws out of the loop; the
store reached so far is what the database keeps, so it is returned with the error. -/
def recordVotes (userId : String) (electionId : Nat) :
    Store → List Selection → Except (DbError × Store) Store
  | s, [] => .ok s
  | s, v :: rest =>
    match insertVote s (ballotRow userId electionId v) with
    | .error e => .error (e, s)
    | .ok s1 => recordVotes userId electionId (updateCandidateVotes s1 v.candidateId) rest

/-- HTTP response of the route: the status code and the JSON body. -/
inductive Response where
  | success (message : String)
  | error (status : Nat) (error : String)
  deriving DecidableEq, Repr

/-- Status code of a response (`res.json` answers 200). -/
def Response.status : Response → Nat
  | .success _ => 200
  | .error st _ => st

/-- Handler of `router.post('/cast')` (votes.js 6-55) on a body in which every
identifier is present: the response and the store left behind. -/
def castVote (s : Store) (userId : String) (electionId : Nat) (votes : List Selection) :
    Response × Store :=
  let existingVotes := selectVotes s userId electionId
  if existingVotes.length > 0 then
    (.error 400 "You have already voted in this election", s)
  else
    match recordVotes userId electionId s votes with
    | .error (_, s1) => (.error 500 "Failed to cast vote", s1)
    | .ok s1 =>
      let s2 := updateUserHasVoted s1 userId
      let s3 := updateElectionVotesCast s2 electionId
      (.success "Vote cast successfully", s3)

/-- One `POST /cast` request body. -/
structure CastRequest where
  userId : String
  electionId : Nat
  votes : List Selection
  deriving DecidableEq, Repr

/-- The store after serving a sequence of requests, one after the other. -/
def runCasts : Store → List CastRequest → Store
  | s, [] => s
  | s, r :: rest => runCasts (castVote s r.userId r.electionId r.votes).2 rest

/-- Every request of the sequence is answered with status 200. -/
def allSucceed : Store → List CastRequest → Bool
  | _, [] => true
  | s, r :: rest =>
    decide ((castVote s r.userId r.electionId r.votes).1.status = 200) &&
      allSucceed (castVote s r.userId r.electionId r.votes).2 rest

/-! ## Sample stores -/

/-- The scenario of the specification: election 1 with one position and the
candidates A (id 1) and B (id 2), voter V1, no ballots yet. -/
def scenarioStore : Store :=
  { users := [⟨"V1", "Voter One", "v1@example.org", false⟩,
              ⟨"V2", "Voter Two", "v2@example.org", false⟩],
    elections := [⟨1, "E1", .active, 10, 0⟩],
    positions := [⟨1, 1, "President", 1, 1⟩],
    candidates := [⟨1, 1, "A", "", 0⟩, ⟨2, 1, "B", "", 0⟩],
    votes := [] }

/-! ## Closed forms used to state the effect of the loop -/

/-- The store after the selections `vs` were all recorded by the loop: one row per
selection appended in order, and each candidate counter raised by the number of
selections naming that candidate. -/
def applySelections (userId : String) (electionId : Nat) (s : Store) (vs : List Selection) :
    Store :=
  { s with
    votes := s.votes ++ vs.map (ballotRow userId electionId)
    candidates := s.candidates.map
      (fun c => { c with votes := c.votes + vs.countP (fun v => decide (v.candidateId = c.id)) }) }

/-! ## Derived quantities and invariants -/

/-- Number of ballot rows referencing the candidate with identifier `candidateId`. -/
def ballotCount (s : Store) (candidateId : Nat) : Nat :=
  s.votes.countP (fun v => decide (v.candidate_id = candidateId))

/-- Every candidate counter equals the number of ballot rows referencing the candidate. -/
def candidateCountersConsistent (s : Store) : Prop :=
  ∀ c ∈ s.candidates, c.votes = ballotCount s c.id

instance (s : Store) : Decidable (candidateCountersConsistent s) := by
  unfold candidateCountersConsistent
  infer_instance

/-- Number of distinct `user_id` values among the ballot rows of an election. -/
def distinctVoters (s : Store) (electionId : Nat) : Nat :=
  ((s.votes.filter (fun v => decide (v.election_id = electionId))).map Vote.user_id).dedup.length

/-- Every election counter equals the number of distinct voters with a ballot in it. -/
def electionCountersConsistent (s : Store) : Prop :=
  ∀ el ∈ s.elections, el.votes_cast = distinctVoters s el.id

instance (s : Store) : Decidable (electionCountersConsistent s) := by
  unfold electionCountersConsistent
  infer_instance

/-- The pairing rule of the specification: the candidate of a selection belongs to
its position, and the position belongs to the election of the request. -/
def validPairing (s : Store) (electionId : Nat) (v : Selection) : Bool :=
  s.candidates.any (fun c => decide (c.id = v.candidateId) && decide (c.position_id = v.positionId)) &&
  s.positions.any (fun p => decide (p.id = v.positionId) && decide (p.election_id = electionId))

/-- Number of selections of a request that name the position `positionId`. -/
def coverage (vs : List Selection) (positionId : Nat) : Nat :=
  vs.countP (fun v => decide (v.positionId = positionId))

/-- The completeness rule of the specification: every position of the election is
covered at least `min_selections` and at most `max_selections` times. -/
def selectionsComplete (s : Store) (electionId : Nat) (vs : List Selection) : Bool :=
  s.positions.all (fun p => decide (p.election_id = electionId → 
    p.min_selections ≤ coverage vs p.id ∧ coverage vs p.id ≤ p.max_selections))

/-- The same store with the `status` column of every election replaced. -/
def withStatuses (f : Nat → ElectionStatus) (s : Store) : Store :=
  { s with elections := s.elections.map (fun el => { el with status := f el.id }) }

/-- The same store with every election row and every position row rewritten. -/
def mapCatalog (fe : Election → Election) (fp : Position → Position) (s : Store) : Store :=
  { s with elections := s.elections.map fe, positions := s.positions.map fp }

/-- Election 1 with two positions: candidate A (id 1) stands for President
(position 1), candidate B (id 2) for Vice President (position 2). -/
def twoPositionStore : Store :=
  { users := [⟨"V1", "Voter One", "v1@example.org", false⟩],
    elections := [⟨1, "E1", .active, 10, 0⟩],
    positions := [⟨1, 1, "President", 1, 1⟩, ⟨2, 1, "Vice President", 1, 1⟩],
    candidates := [⟨1, 1, "A", "", 0⟩, ⟨2, 2, "B", "", 0⟩],
    votes := [] }

/-- Election 1 with one position that requires exactly two selections among
three candidates. -/
def twoSeatStore : Store :=
  { users := [⟨"V2", "Voter Two", "v2@example.org", false⟩],
    elections := [⟨1, "E1", .active, 10, 0⟩],
    positions := [⟨1, 1, "Council", 2, 2⟩],
    candidates := [⟨1, 1, "A", "", 0⟩, ⟨2, 1, "B", "", 0⟩, ⟨3, 1, "C", "", 0⟩],
    votes := [] }

/-- The scenario store with election 1 not yet open (`status = 'upcoming'`). -/
def upcomingStore : Store :=
  withStatuses (fun _ => .upcoming) scenarioStore

/-! ## The route `GET /results/:electionId` (votes.js 58-84)

SQL `/` on two integer values yields a DECIMAL: MySQL carries the quotient with
nine fractional digits (the scale 0 + `div_precision_increment` = 4 of the result,
rounded up to a whole group of nine digits, the further digits cut off), `* 100`
is exact on it, and the column is sent to the client rounded half up to its scale
of four fractional digits.  A NULL value is `none`. -/

/-- The value sent for `(a / b) * 100` with integer `a` and `b`, `b` not 0: the
quotient cut off after nine fractional digits is `a * 10 ^ 9 / b` billionths, and
the product rounded half up to four fractional digits is a whole number of
ten-thousandths. -/
def decimalPercent (a b : Nat) : ℚ :=
  (((a * 10 ^ 9 / b + 500) / 1000 : Nat) : ℚ) / 10000

/-- SQL `NULLIF(a, b)`: NULL when the two values are equal, `a` otherwise. -/
def nullif (a b : Nat) : Option Nat :=
  if a = b then none else some a

/-- Rows of `FROM positions p JOIN candidates c ON p.id = c.position_id
WHERE p.election_id = ?` (votes.js 69-71). -/
def joinRows (s : Store) (electionId : Nat) : List (Position × Candidate) :=
  (s.positions.filter (fun p => decide (p.election_id = electionId))).flatMap
    (fun p => (s.candidates.filter (fun c => decide (p.id = c.position_id))).map
      (fun c => (p, c)))

/-- Window function `SUM(c.votes) OVER(PARTITION BY p.id)` (votes.js 68), for the
partition of the position id `positionId`. -/
def partitionVotes (rows : List (Position × Candidate)) (positionId : Nat) : Nat :=
  ((rows.filter (fun r => decide (r.1.id = positionId))).map (fun r => r.2.votes)).sum

/-- Column `(c.votes / NULLIF(SUM(c.votes) OVER(PARTITION BY p.id), 0)) * 100 as percentage`
(votes.js 68): NULL when the partition total is 0. -/
def percentage (rows : List (Position × Candidate)) (r : Position × Candidate) : Option ℚ :=
  (nullif (partitionVotes rows r.1.id) 0).map
    (fun total => decimalPercent r.2.votes total)

/-- Clause `ORDER BY p.id, c.votes DESC` (votes.js 72): `a` may precede `b`. -/
def resultOrder (a b : Position × Candidate) : Prop :=
  a.1.id < b.1.id ∨ (a.1.id = b.1.id ∧ b.2.votes ≤ a.2.votes)

instance : DecidableRel resultOrder := fun a b => by
  unfold resultOrder
  infer_instance

instance : IsTotal (Position × Candidate) resultOrder :=
  ⟨fun a b => by unfold resultOrder; omega⟩

instance : IsTrans (Position × Candidate) resultOrder :=
  ⟨fun a b c h1 h2 => by unfold resultOrder at *; omega⟩

/-- One element of `results` in the response of the route. -/
structure ResultRow where
  position : String
  candidate_name : String
  candidate_party : String
  vote_count : Nat
  percentage : Option ℚ
  deriving DecidableEq, Repr

/-- The joined rows in the order of the `ORDER BY` clause.  SQL leaves the order of
rows that tie on both sort keys open; here they keep their join order. -/
def resultsJoin (s : Store) (electionId : Nat) : List (Position × Candidate) :=
  (joinRows s electionId).insertionSort resultOrder

/-- The `SELECT` list of the query (votes.js 63-68) for one joined row. -/
def resultRow (rows : List (Position × Candidate)) (r : Position × Candidate) : ResultRow :=
  { position := r.1.title, candidate_name := r.2.name, candidate_party := r.2.party,
    vote_count := r.2.votes, percentage := percentage rows r }

/-- Handler of `router.get('/results/:electionId')` (votes.js 58-84): the field
`results` of the response. -/
def getResults (s : Store) (electionId : Nat) : List ResultRow :=
  (resultsJoin s electionId).map (resultRow (joinRows s electionId))

/-- Sum of the `votes` counters of the candidates of a position. -/
def positionTotal (s : Store) (positionId : Nat) : Nat :=
  ((s.candidates.filter (fun c => decide (c.position_id = positionId))).map Candidate.votes).sum

/-- The scenario store after three ballots: A has 2 votes and B has 1. -/
def talliedStore : Store :=
  { users := [⟨"V1", "Voter One", "v1@example.org", true⟩,
              ⟨"V2", "Voter Two", "v2@example.org", true⟩,
              ⟨"V3", "Voter Three", "v3@example.org", true⟩],
    elections := [⟨1, "E1", .active, 10, 3⟩],
    positions := [⟨1, 1, "President", 1, 1⟩],
    candidates := [⟨1, 1, "A", "", 2⟩, ⟨2, 1, "B", "", 1⟩],
    votes := [⟨"V1", 1, 1, 1⟩, ⟨"V2", 1, 1, 2⟩, ⟨"V3", 1, 1, 1⟩] }

/-- Election 1 with one position and three candidates that have one vote each. -/
def threeWayStore : Store :=
  { users := [⟨"V1", "Voter One", "v1@example.org", true⟩,
              ⟨"V2", "Voter Two", "v2@example.org", true⟩,
              ⟨"V3", "Voter Three", "v3@example.org", true⟩],
    elections := [⟨1, "E1", .active, 3, 3⟩],
    positions := [⟨1, 1, "President", 1, 1⟩],
    candidates := [⟨1, 1, "A", "", 1⟩, ⟨2, 1, "B", "", 1⟩, ⟨3, 1, "C", "", 1⟩],
    votes := [⟨"V1", 1, 1, 1⟩, ⟨"V2", 1, 1, 2⟩, ⟨"V3", 1, 1, 3⟩] }

/-! ## Sequences of requests to the two routes of `votes.js` -/

/-- A request to one of the two routes of the router. -/
inductive Operation where
  | cast (r : CastRequest)
  | results (electionId : Nat)
  deriving DecidableEq, Repr

/-- What a request is answered with. -/
inductive Reply where
  | cast (r : Response)
  | results (rows : List ResultRow)
  deriving DecidableEq, Repr

/-- Serve one request: `POST /cast` runs `castVote`; `GET /results/:electionId`
only issues a `SELECT`, so it answers from the store and leaves it as it is. -/
def serve (s : Store) : Operation → Reply × Store
  | .cast r => (.cast (castVote s r.userId r.electionId r.votes).1,
      (castVote s r.userId r.electionId r.votes).2)
  | .results electionId => (.results (getResults s electionId), s)

/-- The store after serving a sequence of requests to either route. -/
def runOperations : Store → List Operation → Store
  | s, [] => s
  | s, op :: rest => runOperations (serve s op).2 rest

/-! ## The route `GET /elections` (elections.js 6-27) -/

/-- One element of `elections` in the response of the listing: the columns of
`e.*` kept by the model, with `votes_cast` overwritten by the aggregate of the same
name, and `participation_rate`. -/
structure ElectionListRow where
  id : Nat
  title : String
  status : ElectionStatus
  total_voters : Nat
  votes_cast : Nat
  participation_rate : Option ℚ
  deriving DecidableEq, Repr

/-- Column `(COUNT(DISTINCT v.user_id) / NULLIF(e.total_voters, 0)) * 100 as participation_rate`
(elections.js 11) of the group of one election: NULL when `total_voters` is 0. -/
def participationRate (s : Store) (el : Election) : Option ℚ :=
  (nullif el.total_voters 0).map
    (fun total => decimalPercent (distinctVoters s el.id) total)

/-- The `SELECT` list of the listing (elections.js 9-11) for the group of one
election of `elections e LEFT JOIN votes v ON e.id = v.election_id GROUP BY e.id`. -/
def electionListRow (s : Store) (el : Election) : ElectionListRow :=
  { id := el.id, title := el.title, status := el.status, total_voters := el.total_voters,
    votes_cast := distinctVoters s el.id, participation_rate := participationRate s el }

/-- Handler of `router.get('/')` of `routes/elections.js`: the field `elections` of
the response.  The column `start_date` of `ORDER BY e.start_date DESC` is not part
of the modelled row, so it is taken as the function `startDate`. -/
def listElections (startDate : Election → Nat) (s : Store) : List ElectionListRow :=
  (s.elections.insertionSort (fun a b => startDate b ≤ startDate a)).map (electionListRow s)

/-- Election 1 with three registered voters, one of whom has a ballot row. -/
def oneOfThreeStore : Store :=
  { users := [⟨"V1", "Voter One", "v1@example.org", true⟩,
              ⟨"V2", "Voter Two", "v2@example.org", false⟩,
              ⟨"V3", "Voter Three", "v3@example.org", false⟩],
    elections := [⟨1, "E1", .active, 3, 1⟩],
    positions := [⟨1, 1, "President", 1, 1⟩],
    candidates := [⟨1, 1, "A", "", 1⟩, ⟨2, 1, "B", "", 0⟩],
    votes := [⟨"V1", 1, 1, 1⟩] }

/-- An election for which no voter is registered yet (`total_voters = 0`). -/
def unregisteredStore : Store :=
  { users := [], elections := [⟨1, "E1", .upcoming, 0, 0⟩], positions := [],
    candidates := [], votes := [] }

/-! ## The browser client: `ApiService` (scripts/api-service.js)

Of a JSON body the client only reads the truthiness of `success` and the text of
`message`; a missing `success` is `false` and a missing `message` is the empty
string, which JavaScript treats alike in `result.success` and `result.message || ...`. -/

/-- What `ApiService.request` resolves to, as far as its callers read it. -/
structure ApiResult where
  success : Bool
  message : String
  deriving DecidableEq, Repr

/-- Outcome of `await fetch(url, config)` (api-service.js 58): the promise rejects
with an error message, or a response arrives with its status, whether its
content type is JSON, and its parsed body (`none` when `response.json()` throws). -/
inductive FetchOutcome where
  | rejected (message : String)
  | response (status : Nat) (jsonContentType : Bool) (body : Option ApiResult)
  deriving DecidableEq, Repr

/-- Property `response.ok` of a fetch response: the status is in the range 200-299. -/
def responseOk (status : Nat) : Bool :=
  decide (200 ≤ status) && decide (status ≤ 299)

/-- JavaScript `s.startsWith(p)`. -/
def startsWith (s p : String) : Bool :=
  p.toList.isPrefixOf s.toList

/-- JavaScript `s.includes(p)`. -/
def includes (s p : String) : Bool :=
  decide (p.toList <:+: s.toList)

/-- The constant `fallbackEndpoints` of `shouldUseFallback` (api-service.js 86-94). -/
def fallbackEndpoints : List String :=
  ["/auth/register", "/auth/login", "/auth/verify-face", "/elections", "/elections/",
   "/votes/cast", "/votes/results/"]

/-- Method `shouldUseFallback(endpoint)` (api-service.js 84-97). -/
def shouldUseFallback (endpoint : String) : Bool :=
  fallbackEndpoints.any (fun ep => startsWith endpoint ep)

/-- Method `getMockResponse(endpoint, options)` (api-service.js 112-212), with
`method = options.method || 'GET'`.  The mock election data and the mock results
carry no `success` and no `message` field. -/
def getMockResponse (endpoint method : String) : ApiResult :=
  if startsWith endpoint "/auth/register" then ⟨true, "Registration successful"⟩
  else if startsWith endpoint "/auth/login" then ⟨true, "Login successful"⟩
  else if startsWith endpoint "/auth/verify-face" then ⟨true, "Face verification successful"⟩
  else if startsWith endpoint "/elections" && decide (method = "GET") then ⟨false, ""⟩
  else if startsWith endpoint "/votes/cast" then ⟨true, "Vote cast successfully"⟩
  else if startsWith endpoint "/votes/results/" then ⟨false, ""⟩
  else ⟨true, "Operation completed successfully"⟩

/-- Method `getUserFriendlyError(error)` (api-service.js 326-344) on the message of
the error. -/
def getUserFriendlyError (message : String) : String :=
  if includes message "Failed to fetch" then
    "Cannot connect to server. The system will use demo mode."
  else if includes message "404" then "The requested resource was not found."
  else if includes message "401" then "Please log in to continue."
  else if includes message "500" then "Server error. Please try again later."
  else "An unexpected error occurred. Please try again."

/-- The `try` block of `request` (api-service.js 56-70): the value returned, or the
message of the error thrown inside it. -/
def requestAttempt : FetchOutcome → Except String ApiResult
  | .rejected message => .error message
  | .response status jsonContentType body =>
    if responseOk status = false then
      .error ("HTTP error! status: " ++ toString status)
    else if jsonContentType then
      match body with
      | some r => .ok r
      | none => .error "Unexpected end of JSON input"
    else .ok ⟨true, "Operation completed successfully"⟩

/-- Method `request(endpoint, options)` (api-service.js 37-82) for the state
`this.useFallback` and the outcome of the fetch: the value the promise resolves
to, or the message of the error it rejects with. -/
def request (useFallback : Bool) (endpoint method : String) (fetched : FetchOutcome) :
    Except String ApiResult :=
  if useFallback && shouldUseFallback endpoint then
    .ok (getMockResponse endpoint method)
  else
    match requestAttempt fetched with
    | .ok r => .ok r
    | .error message =>
      if shouldUseFallback endpoint then .ok (getMockResponse endpoint method)
      else .error (getUserFriendlyError message)

/-- Method `ApiService.castVote(voteData)` (api-service.js 378-383). -/
def apiCastVote (useFallback : Bool) (fetched : FetchOutcome) : Except String ApiResult :=
  request useFallback "/votes/cast" "POST" fetched

/-- The fetch outcome that an answer of the server route `POST /votes/cast`
produces in the client: the status, a JSON content type, and the fields
`success` and `message` of the body (an error body has `error` only). -/
def fetchOfResponse : Response → FetchOutcome
  | .success message => .response 200 true (some ⟨true, message⟩)
  | .error status _ => .response status true (some ⟨false, ""⟩)

/-! ## Closed form of the store after a call, used to compare two orders of calls -/

/-- The store after a call of voter `userId` in election `electionId` that recorded
the selections `l` and, when `counted`, went on to set `has_voted` and to raise
`votes_cast`. -/
def commitCall (counted : Bool) (userId : String) (electionId : Nat) (l : List Selection)
    (s : Store) : Store :=
  if counted then
    updateElectionVotesCast (updateUserHasVoted (applySelections userId electionId s l) userId)
      electionId
  else applySelections userId electionId s l

/-- The constraint checks of an `INSERT` of a ballot row of voter `userId` give the
same verdict in the store `t` as in the store `s`. -/
def SameChecks (userId : String) (s t : Store) : Prop :=
  (∀ row, foreignKeysOk t row = foreignKeysOk s row) ∧
  (∀ row, row.user_id = userId → uniqueVoteTaken t row = uniqueVoteTaken s row)

/-! ## Admin roles in the browser: `AuthManager.hasAdminPermission` (scripts/admin/auth.js 876-887)

Indexing an object literal finds the keys it lists and, for any other key, the
member of that name that every object inherits from `Object.prototype`, if there
is one. -/

/-- Names of the members that every object inherits from `Object.prototype`. -/
def objectPrototypeKeys : List String :=
  ["constructor", "__defineGetter__", "__defineSetter__", "hasOwnProperty",
   "__lookupGetter__", "__lookupSetter__", "isPrototypeOf", "propertyIsEnumerable",
   "toString", "valueOf", "__proto__", "toLocaleString"]

/-- The value of `localStorage.currentAdmin` as far as `hasAdminPermission` reads it. -/
structure StoredAdmin where
  username : String
  role : String
  deriving DecidableEq, Repr

/-- The value of `roleHierarchy[role]`: the array listed under the key, a member
inherited from `Object.prototype` (a function, or the prototype itself), or
`undefined`. -/
inductive RoleLookup where
  | covered (roles : List String)
  | inheritedMember
  | undefined
  deriving DecidableEq, Repr

/-- The constant `roleHierarchy` (admin/auth.js 880-884), indexed with `role`. -/
def roleHierarchy (role : String) : RoleLookup :=
  if role = "moderator" then .covered ["moderator"]
  else if role = "admin" then .covered ["moderator", "admin"]
  else if role = "super_admin" then .covered ["moderator", "admin", "super_admin"]
  else if objectPrototypeKeys.contains role then .inheritedMember
  else .undefined

/-- Method `hasAdminPermission(requiredRole)` (admin/auth.js 876-887) for the stored
admin returned by `getCurrentAdmin()` (`none` for `null`): the value returned, or
the message of the error thrown.  In `roleHierarchy[admin.role]?.includes(requiredRole)`
the `?.` only guards against `undefined`; an inherited member has no `includes`,
so calling it throws. -/
def hasAdminPermission (currentAdmin : Option StoredAdmin) (requiredRole : String) :
    Except String Bool :=
  match currentAdmin with
  | none => .ok false
  | some admin =>
    match roleHierarchy admin.role with
    | .covered roles => .ok (roles.contains requiredRole || false)
    | .inheritedMember =>
      .error "TypeError: roleHierarchy[admin.role]?.includes is not a function"
    | .undefined => .ok false

/-- Position of a role in the order moderator < admin < super_admin. -/
def roleRank (role : String) : Option Nat :=
  if role = "moderator" then some 0
  else if role = "admin" then some 1
  else if role = "super_admin" then some 2
  else none

/-! ## Admin routes on the server: `authenticateAdmin` (routes/admin-auth.js 102-117) -/

/-- JavaScript `s.replace(pattern, replacement)` with a non-empty string pattern, on
lists of characters: the first occurrence is replaced. -/
def replaceFirstChars (pattern replacement : List Char) : List Char → List Char
  | [] => []
  | c :: cs =>
    if pattern.isPrefixOf (c :: cs) then replacement ++ (c :: cs).drop pattern.length
    else c :: replaceFirstChars pattern replacement cs

/-- The token read from the request: `req.header('Authorization')?.replace('Bearer ', '')`
(admin-auth.js 103); `none` is `undefined`. -/
def bearerToken (authorization : Option String) : Option String :=
  authorization.map (fun h => String.mk (replaceFirstChars "Bearer ".toList [] h.toList))

/-- What the middleware does with a request: it answers itself, or it sets
`req.admin` and calls `next()`. -/
inductive AdminAuth (α : Type) where
  | denied (status : Nat) (error : String)
  | next (admin : α)
  deriving DecidableEq, Repr

/-- Middleware `authenticateAdmin` (admin-auth.js 102-117).  The library call
`jwt.verify(token, secret)` is the parameter `verify`, `none` when it throws. -/
def authenticateAdmin {α : Type} (verify : String → Option α) (authorization : Option String) :
    AdminAuth α :=
  match bearerToken authorization with
  | none => .denied 401 "Access denied. No token provided."
  | some token =>
    if token = "" then .denied 401 "Access denied. No token provided."
    else
      match verify token with
      | some decoded => .next decoded
      | none => .denied 400 "Invalid token"

/-- A route under `router.use(authenticateAdmin)` (routes/admin.js 6-7): the status
and body of the answer, and whether the route handler was called. -/
def adminRoute {α : Type} (verify : String → Option α) (handler : α → Nat × String)
    (authorization : Option String) : (Nat × String) × Bool :=
  match authenticateAdmin verify authorization with
  | .denied status error => ((status, error), false)
  | .next admin => (handler admin, true)

/-! ## Registration on the server: `POST /register` (routes/auth.js 6-39) -/

/-- Row of `users` with the columns written by the registration route. -/
structure UserRow where
  id : String
  name : String
  email : String
  dob : String
  gender : String
  password_hash : String
  has_voted : Bool
  deriving DecidableEq, Repr

/-- Body of a `POST /register` request. -/
structure RegisterRequest where
  userId : String
  name : String
  email : String
  password : String
  dob : String
  gender : String
  deriving DecidableEq, Repr

/-- Answer of the registration route: status, `success` of the body, and the text
of `message` or `error`. -/
structure RegisterReply where
  status : Nat
  success : Bool
  text : String
  deriving DecidableEq, Repr

/-- Statement `SELECT id FROM users WHERE id = ? OR email = ?` (auth.js 12-15). -/
def selectExistingUser (users : List UserRow) (userId email : String) : List UserRow :=
  users.filter (fun u => decide (u.id = userId) || decide (u.email = email))

/-- Statement `INSERT INTO users (id, name, email, dob, gender, password_hash) VALUES (...)`
(auth.js 25-28); `has_voted` takes its default.  The insert fails when the primary
key or the unique email is taken, or when the engine refuses a column value
(`columnsOk`: the `DATE`, `ENUM` and length checks of the schema). -/
def insertUser (columnsOk : UserRow → Bool) (users : List UserRow) (row : UserRow) :
    Option (List UserRow) :=
  if users.any (fun u => decide (u.id = row.id) || decide (u.email = row.email)) then none
  else if columnsOk row = false then none
  else some (users ++ [row])

/-- Handler of `router.post('/register')` (auth.js 6-39).  The library call
`bcrypt.hash(password, 10)` is the parameter `hash`. -/
def registerUser (hash : String → String) (columnsOk : UserRow → Bool)
    (users : List UserRow) (req : RegisterRequest) : RegisterReply × List UserRow :=
  let existingUser := selectExistingUser users req.userId req.email
  if existingUser.length > 0 then
    (⟨400, false, "User already exists"⟩, users)
  else
    let passwordHash := hash req.password
    match insertUser columnsOk users
        ⟨req.userId, req.name, req.email, req.dob, req.gender, passwordHash, false⟩ with
    | some users1 => (⟨201, true, "User registered successfully"⟩, users1)
    | none => (⟨500, false, "Registration failed"⟩, users)

/-! ## Login lockout in the browser: `AuthManager` of scripts/auth.js (577-629)

The value parsed from `localStorage.loginAttempts` is a plain object:
indexing it with a user id finds the entry stored under that key and, for a key
without an entry, the member of that name inherited from `Object.prototype`.  The
methods then read and write `count` and `lastAttempt` on whatever was found; what
they write on an inherited member stays on it until the page is left, and
`JSON.stringify` does not store it.  `Date.now()` is the parameter `now`, in
milliseconds, and is never 0. -/

/-- One entry of `loginAttempts`: `{ count, lastAttempt }`. -/
structure AttemptRecord where
  count : Nat
  lastAttempt : Int
  deriving DecidableEq, Repr

/-- What the methods work on: the entries of `localStorage.loginAttempts`; for each
function inherited from `Object.prototype` the `lastAttempt` written on it, if any;
and the `lastAttempt` written on `Object.prototype` itself, if any.  A `count`
written on an inherited member is always `NaN`. -/
structure LoginAttempts where
  stored : String → Option AttemptRecord
  members : String → Option Int
  prototype : Option Int

/-- The value of `attempts[userId]`, as far as the methods read it. -/
inductive AttemptLookup where
  | missing
  | entry (record : AttemptRecord)
  | inheritedMember (lastAttempt : Option Int)
  | number (value : Int)
  deriving DecidableEq, Repr

/-- The expression `attempts[userId]`.  An own entry is found first.  The key
`__proto__` gives `Object.prototype`; the name of an inherited function gives that
function, whose `lastAttempt` is its own or else that of `Object.prototype`; the
keys `lastAttempt` and `count` give what was written on `Object.prototype`, a
number for `lastAttempt` and the falsy `NaN` for `count`. -/
def lookupAttempts (attempts : LoginAttempts) (userId : String) : AttemptLookup :=
  match attempts.stored userId with
  | some record => .entry record
  | none =>
    if userId = "__proto__" then .inheritedMember attempts.prototype
    else if objectPrototypeKeys.contains userId then
      match attempts.members userId with
      | some t => .inheritedMember (some t)
      | none => .inheritedMember attempts.prototype
    else if userId = "lastAttempt" then
      match attempts.prototype with
      | some t => if t = 0 then .missing else .number t
      | none => .missing
    else .missing

/-- Field `this.maxLoginAttempts` (auth.js 10). -/
def maxLoginAttempts : Nat := 3

/-- Field `this.lockoutTime` (auth.js 11): 15 minutes in milliseconds. -/
def lockoutTime : Int := 15 * 60 * 1000

/-- Method `recordFailedAttempt(userId)` (auth.js 578-587).  On an inherited member
`count++` yields `NaN` and `lastAttempt` is set on the member; assigning the member
back into `attempts` adds nothing that `JSON.stringify` stores.  On a number the
assignment to `count` throws (class bodies are strict code) before anything is
stored. -/
def recordFailedAttempt (attempts : LoginAttempts) (userId : String) (now : Int) :
    LoginAttempts :=
  match lookupAttempts attempts userId with
  | .missing =>
    { attempts with
      stored := fun k => if k = userId then some ⟨0 + 1, now⟩ else attempts.stored k }
  | .entry userAttempts =>
    { attempts with
      stored := fun k =>
        if k = userId then some ⟨userAttempts.count + 1, now⟩ else attempts.stored k }
  | .inheritedMember _ =>
    if userId = "__proto__" then { attempts with prototype := some now }
    else
      { attempts with members := fun k => if k = userId then some now else attempts.members k }
  | .number _ => attempts

/-- Method `resetFailedAttempts(userId)` (auth.js 589-593): `delete` removes an own
entry and nothing else. -/
def resetFailedAttempts (attempts : LoginAttempts) (userId : String) : LoginAttempts :=
  { attempts with stored := fun k => if k = userId then none else attempts.stored k }

/-- Method `isAccountLocked(userId)` (auth.js 595-606).  For an inherited member or
a number, `count` is `undefined` or `NaN`, so `count < this.maxLoginAttempts` is
false; without a `lastAttempt` the difference is `NaN` and the last comparison is
false. -/
def isAccountLocked (attempts : LoginAttempts) (userId : String) (now : Int) : Bool :=
  match lookupAttempts attempts userId with
  | .missing => false
  | .entry userAttempts =>
    if userAttempts.count < maxLoginAttempts then false
    else
      let timeSinceLastAttempt := now - userAttempts.lastAttempt
      decide (timeSinceLastAttempt < lockoutTime)
  | .inheritedMember none => false
  | .inheritedMember (some lastAttempt) => decide (now - lastAttempt < lockoutTime)
  | .number lastAttempt => decide (now - lastAttempt < lockoutTime)

/-- Method `getRemainingAttempts(userId)` (auth.js 620-629); `none` is `NaN`, the
value of `Math.max(0, 3 - undefined)`. -/
def getRemainingAttempts (attempts : LoginAttempts) (userId : String) : Option Int :=
  match lookupAttempts attempts userId with
  | .missing => some maxLoginAttempts
  | .entry userAttempts => some (max 0 ((maxLoginAttempts : Int) - (userAttempts.count : Int)))
  | .inheritedMember _ => none
  | .number _ => none

/-- What `handleLogin` records for a login attempt that was carried out (auth.js
208-209 and 223-224): a success resets the entry, a failure at time `time` is
recorded. -/
inductive LoginEvent where
  | failed (userId : String) (time : Int)
  | succeeded (userId : String)
  deriving DecidableEq, Repr

/-- The attempts after a history of login events within one page, the most recent
event first, starting from an empty storage. -/
def attemptsAfter : List LoginEvent → LoginAttempts
  | [] => ⟨fun _ => none, fun _ => none, none⟩
  | .failed userId time :: earlier => recordFailedAttempt (attemptsAfter earlier) userId time
  | .succeeded userId :: earlier => resetFailedAttempts (attemptsAfter earlier) userId

/-- Number of failed attempts of `userId` since its last successful login, in a
history with the most recent event first. -/
def failuresSinceSuccess (userId : String) : List LoginEvent → Nat
  | [] => 0
  | .failed v _ :: earlier =>
    if v = userId then failuresSinceSuccess userId earlier + 1
    else failuresSinceSuccess userId earlier
  | .succeeded v :: earlier =>
    if v = userId then 0 else failuresSinceSuccess userId earlier

/-- A user id that is not the name of a member inherited from `Object.prototype`
and not `lastAttempt`, so that `attempts[userId]` only finds a stored entry. -/
def plainUserId (userId : String) : Prop :=
  userId ∉ objectPrototypeKeys ∧ userId ≠ "lastAttempt"

instance (userId : String) : Decidable (plainUserId userId) := by
  unfold plainUserId
  infer_instance

/-- Time of the last failed attempt of `userId` in a history with the most recent
event first. -/
def lastFailureTime (userId : String) : List LoginEvent → Option Int
  | [] => none
  | .failed v time :: earlier =>
    if v = userId then some time else lastFailureTime userId earlier
  | .succeeded _ :: earlier => lastFailureTime userId earlier

/-! ## Age checks at registration (scripts/auth.js 523-541, scripts/admin/auth.js 373-422)

A JavaScript `Date` is read through `getFullYear()`, `getMonth()` (0 to 11) and
`getDate()`; `new Date()` is the parameter `today`.  Invalid dates are not modelled. -/

/-- The calendar fields of a `Date`. -/
structure CalendarDate where
  year : Int
  month : Nat
  day : Nat
  deriving DecidableEq, Repr

/-- A validation result `{ isValid, message }`. -/
structure Validation where
  isValid : Bool
  message : String
  deriving DecidableEq, Repr

/-- Method `validateAge(dob)` of scripts/auth.js (523-541), for the parsed date of
birth. -/
def validateAge (today birthDate : CalendarDate) : Validation :=
  let age : Int := today.year - birthDate.year
  let monthDiff : Int := (today.month : Int) - (birthDate.month : Int)
  let isAdult : Bool := decide (age > 18) || (decide (age = 18) && decide (monthDiff ≥ 0))
  if isAdult = false then ⟨false, "You must be 18 years or older to register."⟩
  else if age > 120 then ⟨false, "Please enter a valid date of birth."⟩
  else ⟨true, "Age requirement satisfied."⟩

/-- Age in completed years on the day `today`: the difference of the years, less
one when the birthday of this year is still to come. -/
def completedYears (today birthDate : CalendarDate) : Int :=
  if today.month < birthDate.month ∨
      (today.month = birthDate.month ∧ today.day < birthDate.day) then
    today.year - birthDate.year - 1
  else today.year - birthDate.year

/-- JavaScript `s.length`: the number of UTF-16 code units of the string, two for
a character outside the Basic Multilingual Plane. -/
def utf16Length (s : String) : Nat :=
  (s.data.map (fun c => if c.toNat < 65536 then 1 else 2)).sum

/-- The fields of the registration form read by `validateRegistrationForm`. -/
structure RegistrationForm where
  name : String
  userId : String
  email : String
  password : String
  confirmPassword : String
  dob : String
  gender : String
  deriving DecidableEq, Repr

/-- Method `validateRegistrationForm(formData)` of scripts/admin/auth.js (373-422):
the validation result returned, or the message of the error thrown.  The test of
the e-mail regular expression is the parameter `emailOk` and `new Date(dob)` the
parameter `parseDate`.  The variable `age` is declared `const`, so the statement
`age--` throws when it is reached. -/
def AdminAuthManager.validateRegistrationForm (emailOk : String → Bool)
    (parseDate : String → CalendarDate) (today : CalendarDate) (form : RegistrationForm) :
    Except String Validation :=
  if form.name = "" ∨ form.userId = "" ∨ form.email = "" ∨ form.password = "" ∨
      form.confirmPassword = "" ∨ form.dob = "" ∨ form.gender = "" then
    .ok ⟨false, "All fields are required"⟩
  else if utf16Length form.name < 2 then
    .ok ⟨false, "Name must be at least 2 characters long"⟩
  else if utf16Length form.userId < 4 then
    .ok ⟨false, "User ID must be at least 4 characters long"⟩
  else if emailOk form.email = false then
    .ok ⟨false, "Please enter a valid email address"⟩
  else if utf16Length form.password < 6 then
    .ok ⟨false, "Password must be at least 6 characters long"⟩
  else if form.password ≠ form.confirmPassword then
    .ok ⟨false, "Passwords do not match"⟩
  else
    let birthDate := parseDate form.dob
    let age : Int := today.year - birthDate.year
    let monthDiff : Int := (today.month : Int) - (birthDate.month : Int)
    if monthDiff < 0 ∨ (monthDiff = 0 ∧ today.day < birthDate.day) then
      .error "TypeError: Assignment to constant variable."
    else if age < 18 then
      .ok ⟨false, "You must be at least 18 years old to register"⟩
    else .ok ⟨true, "Validation successful"⟩

/-- The fields of a form pass the checks that precede the age check. -/
def passesEarlierChecks (emailOk : String → Bool) (form : RegistrationForm) : Prop :=
  form.name ≠ "" ∧ form.userId ≠ "" ∧ form.email ≠ "" ∧ form.password ≠ "" ∧
  form.confirmPassword ≠ "" ∧ form.dob ≠ "" ∧ form.gender ≠ "" ∧
  2 ≤ utf16Length form.name ∧ 4 ≤ utf16Length form.userId ∧ emailOk form.email = true ∧
  6 ≤ utf16Length form.password ∧ form.password = form.confirmPassword

instance (emailOk : String → Bool) (form : RegistrationForm) :
    Decidable (passesEarlierChecks emailOk form) := by
  unfold passesEarlierChecks
  infer_instance

/-- A date parser for examples: the date of birth "2000-12-25". -/
def sampleParseDate (_ : String) : CalendarDate := ⟨2000, 11, 25⟩

/-- A form for examples whose fields pass the checks before the age check. -/
def sampleForm : RegistrationForm :=
  ⟨"Ann Lee", "ANN01", "ann@example.org", "secret1", "secret1", "2000-12-25", "female"⟩

/-! ## Elections shown on the public page: `getMockElections` (scripts/main.js 212-259)

A date string is modelled by the instant it parses to, in milliseconds; `new Date()`
is the parameter `now`.  The field `participation_rate`, computed with
`Math.round` on floating-point numbers, is not part of the modelled record. -/

/-- An election object of the browser, with the fields read here. -/
structure ClientElection where
  id : Nat
  title : String
  status : String
  start_date : Int
  end_date : Int
  total_voters : Nat
  votes_cast : Nat
  deriving DecidableEq, Repr

/-- The status computed for an admin election (main.js 225-236). -/
def displayStatus (now : Int) (election : ClientElection) : String :=
  if election.status = "upcoming" ∧ now ≥ election.start_date ∧ now ≤ election.end_date then
    "active"
  else if election.status = "active" ∧ now > election.end_date then "completed"
  else if now < election.start_date then "upcoming"
  else if now > election.end_date then "completed"
  else "active"

/-- The callback of `adminElections.map` (main.js 220-247). -/
def processAdminElection (now : Int) (election : ClientElection) : ClientElection :=
  { election with status := displayStatus now election }

/-- Milliseconds of one day, `24 * 60 * 60 * 1000`. -/
def msPerDay : Int := 24 * 60 * 60 * 1000

/-- The instant denoted by the date string `new Date(t).toISOString().split('T')[0]`:
the start of the UTC day of `t`. -/
def isoDay (t : Int) : Int := t / msPerDay * msPerDay

/-- Method `getDefaultElections()` (main.js 261-331). -/
def getDefaultElections (now : Int) : List ClientElection :=
  [⟨1001, "Student Council Election 2024", "active",
      isoDay (now - 2 * msPerDay), isoDay (now + 7 * msPerDay), 1250, 845⟩,
   ⟨1002, "University President Election", "active",
      isoDay (now - 1 * msPerDay), isoDay (now + 5 * msPerDay), 5000, 3250⟩,
   ⟨1003, "Computer Science Department Election", "active",
      isoDay (now - 3 * msPerDay), isoDay (now + 4 * msPerDay), 350, 280⟩,
   ⟨1004, "Sports Committee Election", "upcoming",
      isoDay (now + 2 * msPerDay), isoDay (now + 12 * msPerDay), 800, 0⟩,
   ⟨1005, "Cultural Festival Committee", "upcoming",
      isoDay (now + 5 * msPerDay), isoDay (now + 15 * msPerDay), 600, 0⟩]

/-- The filter `allElections.filter((election, index, self) =>
index === self.findIndex(e => e.id === election.id))` (main.js 253-255). -/
def uniqueElections (allElections : List ClientElection) : List ClientElection :=
  (allElections.enum.filter
    (fun p => p.1 == allElections.findIdx (fun e => e.id == p.2.id))).map Prod.snd

/-- Method `getMockElections()` (main.js 212-259) for the parsed value of
`localStorage.adminElections`. -/
def getMockElections (now : Int) (adminElections : List ClientElection) :
    List ClientElection :=
  let processedAdminElections := adminElections.map (processAdminElection now)
  let sampleElections := getDefaultElections now
  let allElections := processedAdminElections ++ sampleElections
  uniqueElections allElections

/-! ## The voting dialog in the browser: `VotingSystem` (scripts/voting.js)

The state is the fields of the object together with what the methods read back
from the page and from `localStorage`: the candidate options that carry the class
`selected`, the `disabled` flag of the submit button (`none` while that button is
not in the document) and the stored current user.  An option element is
identified by its attributes `data-position` and `data-candidate`: the election
data lists a candidate once under a position id. -/

/-- One element of `electionData.positions`; an absent `minSelections` or
`maxSelections` is `none`. -/
structure BallotPosition where
  id : Nat
  minSelections : Option Nat
  maxSelections : Option Nat
  candidates : List Nat
  deriving DecidableEq, Repr

/-- The loaded `electionData`. -/
structure ElectionData where
  id : Nat
  positions : List BallotPosition
  deriving DecidableEq, Repr

/-- JavaScript `x || 1` for a count: 1 when `x` is absent or 0. -/
def orOne : Option Nat → Nat
  | none => 1
  | some 0 => 1
  | some (n + 1) => n + 1

/-- One element of `selectedCandidates` (the display fields are left out). -/
structure SelectedCandidate where
  positionId : Nat
  candidateId : Nat
  deriving DecidableEq, Repr

/-- The parsed value of `localStorage.currentUser`. -/
structure ClientUser where
  id : String
  name : String
  hasVoted : Bool
  deriving DecidableEq, Repr

/-- A call of `showNotification(message, type)`. -/
structure Notification where
  message : String
  type : String
  deriving DecidableEq, Repr

/-- State of the voting dialog. -/
structure VotingState where
  selectedCandidates : List SelectedCandidate
  electionData : Option ElectionData
  hasVerifiedFace : Bool
  isSubmittingVote : Bool
  voteInProgress : Bool
  currentUser : Option ClientUser
  selectedOptions : List (Nat × Nat)
  submitDisabled : Option Bool
  voteButtonsDisabled : Bool
  deriving DecidableEq, Repr

/-- Number of entries of `selectedCandidates` for a position:
`selectedCandidates.filter(sc => sc.positionId == positionId).length`. -/
def selectionsForPosition (selected : List SelectedCandidate) (positionId : Nat) : Nat :=
  (selected.filter (fun sc => sc.positionId == positionId)).length

/-- The constant `allPositionsSelected` of `updateSubmitButton` (voting.js 596-602). -/
def allPositionsSelected (data : ElectionData) (selected : List SelectedCandidate) : Bool :=
  data.positions.all (fun position =>
    let selectionsCount := selectionsForPosition selected position.id
    let minSelections := orOne position.minSelections
    let maxSelections := orOne position.maxSelections
    decide (selectionsCount ≥ minSelections) && decide (selectionsCount ≤ maxSelections))

/-- Method `updateSubmitButton()` (voting.js 589-622): nothing happens without the
button, and without election data the method throws before it writes. -/
def updateSubmitButton (st : VotingState) : VotingState :=
  match st.submitDisabled with
  | none => st
  | some _ =>
    match st.electionData with
    | none => st
    | some data =>
      { st with
        submitDisabled :=
          some (!(allPositionsSelected data st.selectedCandidates) || st.isSubmittingVote) }

/-- The click listener of a candidate option (voting.js 495-541) for the option
with the attributes `positionId` and `candidateId`.  `createSelection` throws when
the position found does not list the candidate; the listener then stops after the
writes made so far. -/
def candidateClick (st : VotingState) (positionId candidateId : Nat) : VotingState :=
  if st.isSubmittingVote then st
  else
    match st.electionData with
    | none => st
    | some data =>
      match data.positions.find? (fun p => p.id == positionId) with
      | none => st
      | some position =>
        let maxSelections := orOne position.maxSelections
        let listed := position.candidates.contains candidateId
        if maxSelections = 1 then
          let st1 :=
            { st with
              selectedOptions :=
                st.selectedOptions.filter (fun o => o.1 != positionId)
                  ++ [(positionId, candidateId)]
              selectedCandidates :=
                st.selectedCandidates.filter (fun sc => sc.positionId != positionId) }
          if listed then
            updateSubmitButton
              { st1 with
                selectedCandidates := st1.selectedCandidates ++ [⟨positionId, candidateId⟩] }
          else st1
        else
          let currentSelections := selectionsForPosition st.selectedCandidates positionId
          if st.selectedOptions.contains (positionId, candidateId) then
            updateSubmitButton
              { st with
                selectedOptions :=
                  st.selectedOptions.filter (fun o => o != (positionId, candidateId))
                selectedCandidates :=
                  st.selectedCandidates.filter
                    (fun sc => !(sc.positionId == positionId && sc.candidateId == candidateId)) }
          else if currentSelections < maxSelections then
            let st1 :=
              { st with selectedOptions := st.selectedOptions ++ [(positionId, candidateId)] }
            if listed then
              updateSubmitButton
                { st1 with
                  selectedCandidates := st1.selectedCandidates ++ [⟨positionId, candidateId⟩] }
            else st1
          else updateSubmitButton st

/-- The state after a sequence of clicks on candidate options, in order. -/
def clickAll : VotingState → List (Nat × Nat) → VotingState
  | st, [] => st
  | st, c :: rest => clickAll (candidateClick st c.1 c.2) rest

/-- Method `closeVotingModal()` (voting.js 100-109). -/
def closeVotingModal (st : VotingState) : VotingState :=
  { st with voteInProgress := false }

/-- Method `showVotingInterface()` (voting.js 402-491): the options are rendered
with the class `selected` where `selectedCandidates` has the pair, the submit
button is rendered disabled, and `updateSubmitButton` runs. -/
def showVotingInterface (st : VotingState) : VotingState :=
  match st.electionData with
  | none => closeVotingModal st
  | some _ =>
    updateSubmitButton
      { st with
        selectedOptions := st.selectedCandidates.map (fun sc => (sc.positionId, sc.candidateId))
        submitDisabled := some true }

/-- Method `openVotingModal(electionId)` (voting.js 60-98): the notification shown,
if any, and the new state.  `loaded` is what `loadElectionData` stores (`none`
when it throws) and `faceShown` whether `showFaceVerification` returns; that
method replaces the body of the dialog, so the candidate options and the submit
button are gone from the page. -/
def openVotingModal (st : VotingState) (_electionId : Nat) (loaded : Option ElectionData)
    (faceShown : Bool) : Option Notification × VotingState :=
  match st.currentUser with
  | none => (some ⟨"Please login to vote.", "error"⟩, st)
  | some user =>
    if user.hasVoted then
      (some ⟨"You have already voted in this election.", "warning"⟩, st)
    else
      let st1 :=
        { st with
          selectedCandidates := [], electionData := loaded, hasVerifiedFace := false,
          voteInProgress := true }
      if loaded.isSome && faceShown then
        (none, { st1 with selectedOptions := [], submitDisabled := none })
      else
        (some ⟨"Failed to load election data. Please try again.", "error"⟩,
          closeVotingModal st1)

/-- How a call of `submitVote()` ends. -/
inductive SubmitOutcome where
  | ignored
  | incomplete
  | cancelled
  | failed (message : String)
  | confirmed
  deriving DecidableEq, Repr

/-- Method `submitVote()` (voting.js 624-699).  `confirmed` is the answer to the
`confirm` dialog and `apiResult` what `apiService.castVote(voteData)` (or
`castVoteFallback`) resolves to, or the message it rejects with.  On success the
confirmation replaces the body of the dialog, so the submit button is gone. -/
def submitVote (st : VotingState) (confirmed : Bool) (apiResult : Except String ApiResult) :
    SubmitOutcome × VotingState :=
  if st.isSubmittingVote then (.ignored, st)
  else
    match st.electionData with
    | none => (.failed "TypeError: Cannot read properties of null", st)
    | some data =>
      let allSelected := data.positions.all (fun position =>
        decide (selectionsForPosition st.selectedCandidates position.id
          ≥ orOne position.minSelections))
      if allSelected = false then (.incomplete, st)
      else if confirmed = false then (.cancelled, st)
      else
        match st.currentUser with
        | none => (.failed "Please login to vote.", updateSubmitButton st)
        | some user =>
          match apiResult with
          | .error message => (.failed message, updateSubmitButton st)
          | .ok result =>
            if result.success then
              (.confirmed,
                { st with
                  currentUser := some { user with hasVoted := true }
                  selectedOptions := [], submitDisabled := none,
                  voteButtonsDisabled := true })
            else
              (.failed (if result.message = "" then "Failed to submit vote"
                else result.message), updateSubmitButton st)

/-- A request made of the dialog after a vote: open it for an election, or close it. -/
inductive ModalOp where
  | openModal (electionId : Nat) (loaded : Option ElectionData) (faceShown : Bool)
  | closeModal
  deriving DecidableEq, Repr

/-- The state after a sequence of requests to open or close the dialog. -/
def runModalOps : VotingState → List ModalOp → VotingState
  | st, [] => st
  | st, .openModal e loaded faceShown :: rest =>
    runModalOps (openVotingModal st e loaded faceShown).2 rest
  | st, .closeModal :: rest => runModalOps (closeVotingModal st) rest

/-- An election with a single-choice position 1 (candidates 1 and 2) and a position 2
with up to two selections (candidates 3, 4 and 5). -/
def sampleElectionData : ElectionData :=
  ⟨1, [⟨1, some 1, some 1, [1, 2]⟩, ⟨2, some 1, some 2, [3, 4, 5]⟩]⟩

/-- The dialog as `showVotingInterface` leaves it for a logged-in user who has not
voted and has selected nothing yet. -/
def sampleVotingState : VotingState :=
  { selectedCandidates := [], electionData := some sampleElectionData,
    hasVerifiedFace := true, isSubmittingVote := false, voteInProgress := true,
    currentUser := some ⟨"ANN01", "Ann Lee", false⟩, selectedOptions := [],
    submitDisabled := some true, voteButtonsDisabled := false }

/-- An election with one position that requires at least 2 and allows at most 3
selections among four candidates. -/
def gatingData : ElectionData :=
  ⟨2, [⟨1, some 2, some 3, [1, 2, 3, 4]⟩]⟩

/-- The dialog for `gatingData` with two candidates of the position selected. -/
def gatingState : VotingState :=
  { selectedCandidates := [⟨1, 1⟩, ⟨1, 2⟩], electionData := some gatingData,
    hasVerifiedFace := true, isSubmittingVote := false, voteInProgress := true,
    currentUser := some ⟨"ANN01", "Ann Lee", false⟩, selectedOptions := [(1, 1), (1, 2)],
    submitDisabled := some true, voteButtonsDisabled := false }

/-- What the click listener keeps true of `selectedCandidates` and of the options
that carry the class `selected`: no pair is selected twice, the option of every
selected pair carries the class, and no position found in the election data has
more entries than its `maxSelections || 1`. -/
def SelectionInvariant (data : ElectionData) (selected : List SelectedCandidate)
    (options : List (Nat × Nat)) : Prop :=
  selected.Nodup ∧
  (∀ sc ∈ selected, (sc.positionId, sc.candidateId) ∈ options) ∧
  (∀ p position, data.positions.find? (fun q => q.id == p) = some position →
    selectionsForPosition selected p ≤ orOne position.maxSelections)

/-! ## The route `POST /cast` on bodies with `null` identifiers

`castVote` above takes a body in which every identifier is present.  The handler
itself does not look at what it forwards: a `null` of the JSON body reaches
`db.execute` as the SQL value NULL, and the four columns of `votes` accept NULL.
The definitions of this section follow the same statements with nullable
identifiers, `none` being NULL: a comparison with NULL in a `WHERE` clause selects
no row, a foreign key does not check a NULL column, and a unique key never takes a
row with a NULL key column for a duplicate.  A body that lacks a field altogether
makes `db.execute` throw on the `undefined` parameter; it is answered 500 like a
failing statement and is not part of the model. -/

/-- SQL `a = b` as a condition: true only when both values are non-NULL and equal. -/
def sqlEq {α : Type} [DecidableEq α] (a b : Option α) : Bool :=
  match a, b with
  | some x, some y => decide (x = y)
  | _, _ => false

/-- Row of `votes` with its nullable columns (database.js 97-100). -/
structure VoteRecord where
  user_id : Option String
  election_id : Option Nat
  position_id : Option Nat
  candidate_id : Option Nat
  deriving DecidableEq, Repr

/-- The database with the nullable `votes` table. -/
structure Database where
  users : List User
  elections : List Election
  positions : List Position
  candidates : List Candidate
  votes : List VoteRecord
  deriving DecidableEq, Repr

/-- Statement `SELECT id FROM votes WHERE user_id = ? AND election_id = ?` (votes.js 11-14). -/
def selectBallots (db : Database) (userId : Option String) (electionId : Option Nat) :
    List VoteRecord :=
  db.votes.filter (fun v => sqlEq v.user_id userId && sqlEq v.election_id electionId)

/-- One `FOREIGN KEY` clause: a NULL value is not checked, any other value must be
the key of a parent row. -/
def referenceOk {α : Type} [DecidableEq α] (parentKeys : List α) (value : Option α) : Bool :=
  match value with
  | none => true
  | some x => parentKeys.contains x

/-- The four `FOREIGN KEY` clauses of `votes` (database.js 102-105). -/
def foreignKeysHold (db : Database) (row : VoteRecord) : Bool :=
  referenceOk (db.users.map User.id) row.user_id &&
  referenceOk (db.elections.map Election.id) row.election_id &&
  referenceOk (db.positions.map Position.id) row.position_id &&
  referenceOk (db.candidates.map Candidate.id) row.candidate_id

/-- Constraint `UNIQUE KEY unique_vote (user_id, election_id, position_id)` (database.js 106):
some stored row has the key of `row`, all three columns being non-NULL. -/
def uniqueVoteViolated (db : Database) (row : VoteRecord) : Bool :=
  db.votes.any (fun v => sqlEq v.user_id row.user_id && sqlEq v.election_id row.election_id &&
    sqlEq v.position_id row.position_id)

/-- Statement `INSERT INTO votes (user_id, election_id, position_id, candidate_id) VALUES (?, ?, ?, ?)`
(votes.js 22-25) under the constraints of the table. -/
def insertRecord (db : Database) (row : VoteRecord) : Except DbError Database :=
  if foreignKeysHold db row = false then .error .foreignKey
  else if uniqueVoteViolated db row = true then .error .duplicateEntry
  else .ok { db with votes := db.votes ++ [row] }

/-- Statement `UPDATE candidates SET votes = votes + 1 WHERE id = ?` (votes.js 28-31). -/
def creditCandidate (db : Database) (candidateId : Option Nat) : Database :=
  { db with
    candidates := db.candidates.map
      (fun c => if sqlEq (some c.id) candidateId = true then { c with votes := c.votes + 1 }
        else c) }

/-- Statement `UPDATE users SET has_voted = TRUE WHERE id = ?` (votes.js 35-38). -/
def markVoted (db : Database) (userId : Option String) : Database :=
  { db with
    users := db.users.map
      (fun u => if sqlEq (some u.id) userId = true then { u with has_voted := true } else u) }

/-- Statement `UPDATE elections SET votes_cast = votes_cast + 1 WHERE id = ?` (votes.js 41-44). -/
def countVoteCast (db : Database) (electionId : Option Nat) : Database :=
  { db with
    elections := db.elections.map
      (fun e => if sqlEq (some e.id) electionId = true then
        { e with votes_cast := e.votes_cast + 1 } else e) }

/-- One element of the body field `votes`, each identifier a number or `null`. -/
structure VoteEntry where
  positionId : Option Nat
  candidateId : Option Nat
  deriving DecidableEq, Repr

/-- A `POST /cast` body, each identifier a value or `null`. -/
structure CastBody where
  userId : Option String
  electionId : Option Nat
  votes : List VoteEntry
  deriving DecidableEq, Repr

/-- The row that the loop body inserts for one entry. -/
def recordOf (userId : Option String) (electionId : Option Nat) (v : VoteEntry) : VoteRecord :=
  { user_id := userId, election_id := electionId,
    position_id := v.positionId, candidate_id := v.candidateId }

/-- The loop `for (const vote of votes)` (votes.js 21-32) on nullable identifiers;
a failing `INSERT` leaves the database reached so far. -/
def recordEntries (userId : Option String) (electionId : Option Nat) :
    Database → List VoteEntry → Except (DbError × Database) Database
  | db, [] => .ok db
  | db, v :: rest =>
    match insertRecord db (recordOf userId electionId v) with
    | .error e => .error (e, db)
    | .ok db1 => recordEntries userId electionId (creditCandidate db1 v.candidateId) rest

/-- Handler of `router.post('/cast')` (votes.js 6-55) on a body whose identifiers
may be `null`: the response and the database left behind. -/
def postCast (db : Database) (body : CastBody) : Response × Database :=
  let existingVotes := selectBallots db body.userId body.electionId
  if existingVotes.length > 0 then
    (.error 400 "You have already voted in this election", db)
  else
    match recordEntries body.userId body.electionId db body.votes with
    | .error (_, db1) => (.error 500 "Failed to cast vote", db1)
    | .ok db1 =>
      let db2 := markVoted db1 body.userId
      let db3 := countVoteCast db2 body.electionId
      (.success "Vote cast successfully", db3)

/-- The entries of a prefix of the list are what a call leaves recorded: one row per
entry, each non-NULL candidate credited once per entry naming it. -/
def recordedPrefix (userId : Option String) (electionId : Option Nat) (db : Database)
    (vs : List VoteEntry) : Database :=
  { db with
    votes := db.votes ++ vs.map (recordOf userId electionId)
    candidates := db.candidates.map
      (fun c => { c with
        votes := c.votes + vs.countP (fun v => sqlEq (some c.id) v.candidateId) }) }

/-- The database after serving a sequence of bodies, one after the other. -/
def runPosts : Database → List CastBody → Database
  | db, [] => db
  | db, body :: rest => runPosts (postCast db body).2 rest

/-- A ballot row of `Store` as a row without NULL. -/
def Vote.toRecord (v : Vote) : VoteRecord :=
  ⟨some v.user_id, some v.election_id, some v.position_id, some v.candidate_id⟩

/-- A store as a database without NULL in `votes`. -/
def Store.toDatabase (s : Store) : Database :=
  { users := s.users, elections := s.elections, positions := s.positions,
    candidates := s.candidates, votes := s.votes.map Vote.toRecord }

/-- A selection as an entry without `null`. -/
def Selection.toEntry (v : Selection) : VoteEntry :=
  ⟨some v.positionId, some v.candidateId⟩

/-- A request as a body without `null`. -/
def CastRequest.toBody (r : CastRequest) : CastBody :=
  ⟨some r.userId, some r.electionId, r.votes.map Selection.toEntry⟩

/-- The same database with the selection bounds of every position replaced: `f`
gives the pair `(min_selections, max_selections)` of the position with a given id. -/
def boundsReplaced (f : Nat → Nat × Nat) (db : Database) : Database :=
  { db with
    positions := db.positions.map
      (fun p => { p with min_selections := (f p.id).1, max_selections := (f p.id).2 }) }

/-- Two rows of `votes` have the same non-NULL values in the three columns of
`unique_vote`. -/
def sameBallotKey (a b : VoteRecord) : Prop :=
  sqlEq a.user_id b.user_id = true ∧ sqlEq a.election_id b.election_id = true ∧
    sqlEq a.position_id b.position_id = true

instance : DecidableRel sameBallotKey := fun a b => by
  unfold sameBallotKey
  infer_instance

/-- No two rows of `votes` have the same non-NULL (user_id, election_id, position_id). -/
def ballotKeysDistinct (db : Database) : Prop :=
  db.votes.Pairwise (fun a b => ¬ sameBallotKey a b)

instance (db : Database) : Decidable (ballotKeysDistinct db) := by
  unfold ballotKeysDistinct
  infer_instance

/-! ## Handlers running at the same time

Every `await db.execute(...)` hands control back to the event loop, so the
statements of handlers that run at the same time interleave statement by statement;
each statement is applied at once (autocommit).  A call is where one handler
stands, and a schedule names, step by step, the call whose next statement runs. -/

/-- The statement a handler runs next. -/
inductive Stage where
  | select
  | loop
  | credit (entry : VoteEntry)
  | countVote
  | answered (response : Response)
  deriving DecidableEq, Repr

/-- A running handler: its body, the entries whose `INSERT` has succeeded, the
entries the loop has still to take, and the statement it runs next.  At `loop` the
next statement is the `INSERT` of the first pending entry or, when none is left,
`UPDATE users`. -/
structure Call where
  body : CastBody
  recorded : List VoteEntry
  pending : List VoteEntry
  stage : Stage
  deriving DecidableEq, Repr

/-- A handler that has just received its body. -/
def Call.start (body : CastBody) : Call :=
  ⟨body, [], body.votes, .select⟩

/-- Run the next statement of a call (votes.js 11-53); a call that has answered
does nothing more. -/
def Call.step (db : Database) (c : Call) : Database × Call :=
  match c.stage with
  | .select =>
    if (selectBallots db c.body.userId c.body.electionId).length > 0 then
      (db, { c with stage := .answered (.error 400 "You have already voted in this election") })
    else (db, { c with stage := .loop })
  | .loop =>
    match c.pending with
    | [] => (markVoted db c.body.userId, { c with stage := .countVote })
    | v :: rest =>
      match insertRecord db (recordOf c.body.userId c.body.electionId v) with
      | .error _ => (db, { c with stage := .answered (.error 500 "Failed to cast vote") })
      | .ok db1 =>
        (db1, { c with recorded := c.recorded ++ [v], pending := rest, stage := .credit v })
  | .credit v => (creditCandidate db v.candidateId, { c with stage := .loop })
  | .countVote =>
    (countVoteCast db c.body.electionId,
      { c with stage := .answered (.success "Vote cast successfully") })
  | .answered _ => (db, c)

/-- The database and the handlers running on it. -/
structure Server where
  db : Database
  calls : List Call
  deriving DecidableEq, Repr

/-- The call at index `i` runs its next statement. -/
def Server.step (srv : Server) (i : Nat) : Server :=
  match srv.calls[i]? with
  | none => srv
  | some c => ⟨(c.step srv.db).1, srv.calls.set i (c.step srv.db).2⟩

/-- Run a schedule: the list of the indices of the calls that step, in order. -/
def runSchedule : Server → List Nat → Server
  | srv, [] => srv
  | srv, i :: rest => runSchedule (srv.step i) rest

/-- One call run alone for `fuel` statements. -/
def Call.run : Nat → Database → Call → Database × Call
  | 0, db, c => (db, c)
  | fuel + 1, db, c => Call.run fuel (c.step db).1 (c.step db).2

/-- The call has answered with the success response (status 200). -/
def Call.succeeded (c : Call) : Bool :=
  match c.stage with
  | .answered (.success _) => true
  | _ => false

/-- The call has recorded an entry for the position `p`. -/
def Call.holds (p : Nat) (c : Call) : Prop :=
  ∃ v ∈ c.recorded, v.positionId = some p

/-- What every schedule keeps true of handlers of voter `u` in election `e` whose
bodies all name the position `p`: each call has its pending entries left of its
body after the recorded ones, none once the loop is over, and answers with one of
the three responses of the route; at most one call has recorded an entry for `p`;
and a call that has done so has its row in the table. -/
def RaceInvariant (u : String) (e p : Nat) (srv : Server) : Prop :=
  (∀ c ∈ srv.calls, c.body.userId = some u ∧ c.body.electionId = some e ∧
    (∃ v ∈ c.body.votes, v.positionId = some p) ∧
    c.body.votes = c.recorded ++ c.pending ∧
    ((c.stage = .countVote ∨ c.succeeded = true) → c.pending = []) ∧
    (∀ r, c.stage = .answered r →
      r = .success "Vote cast successfully" ∨
      r = .error 400 "You have already voted in this election" ∨
      r = .error 500 "Failed to cast vote")) ∧
  (∀ (i j : Nat) (ci cj : Call), srv.calls[i]? = some ci → srv.calls[j]? = some cj →
    ci.holds p → cj.holds p → i = j) ∧
  (∀ c ∈ srv.calls, c.holds p →
    ∃ row ∈ srv.db.votes,
      row.user_id = some u ∧ row.election_id = some e ∧ row.position_id = some p)

/-! ## Basic facts about the statements -/

theorem insertVote_ok_eq {s s1 : Store} {row : Vote} (h : insertVote s row = .ok s1) :
    s1 = { s with votes := s.votes ++ [row] } := by
  unfold insertVote at h
  split at h
  · cases h
  · split at h
    · cases h
    · cases h; rfl

theorem insertVote_ok_iff (s : Store) (row : Vote) :
    (∃ s1, insertVote s row = .ok s1) ↔
      foreignKeysOk s row = true ∧ uniqueVoteTaken s row = false := by
  unfold insertVote
  cases hfk : foreignKeysOk s row <;> cases hu : uniqueVoteTaken s row <;> simp

theorem applySelections_nil (u : String) (e : Nat) (s : Store) :
    applySelections u e s [] = s := by
  cases s
  simp [applySelections]

theorem applySelections_step (u : String) (e : Nat) (s : Store) (v : Selection)
    (rest : List Selection) :
    applySelections u e
        (updateCandidateVotes { s with votes := s.votes ++ [ballotRow u e v] } v.candidateId) rest
      = applySelections u e s (v :: rest) := by
  simp only [applySelections, updateCandidateVotes, List.map_cons, List.append_assoc,
    List.singleton_append, List.map_map, List.countP_cons]
  congr 1
  apply List.map_congr_left
  intro c _
  by_cases hc : c.id = v.candidateId
  · have hc2 : v.candidateId = c.id := hc.symm
    simp [hc]
    omega
  · have hc2 : ¬ v.candidateId = c.id := fun h => hc h.symm
    simp [hc, hc2]

theorem recordVotes_ok_eq (u : String) (e : Nat) :
    ∀ (vs : List Selection) (s s1 : Store),
      recordVotes u e s vs = .ok s1 → s1 = applySelections u e s vs
  | [], s, s1, h => by
    simp only [recordVotes, Except.ok.injEq] at h
    rw [applySelections_nil]; exact h.symm
  | v :: rest, s, s1, h => by
    simp only [recordVotes] at h
    cases hi : insertVote s (ballotRow u e v) with
    | error err => rw [hi] at h; cases h
    | ok s2 =>
      rw [hi] at h
      have h2 := insertVote_ok_eq hi
      subst h2
      have ih := recordVotes_ok_eq u e rest _ _ h
      rw [applySelections_step] at ih
      exact ih

theorem recordVotes_error_eq (u : String) (e : Nat) :
    ∀ (vs : List Selection) (s s1 : Store) (err : DbError),
      recordVotes u e s vs = .error (err, s1) →
        ∃ k, k < vs.length ∧ s1 = applySelections u e s (vs.take k) ∧
          ∀ v, vs[k]? = some v → insertVote s1 (ballotRow u e v) = .error err
  | [], s, s1, err, h => by simp [recordVotes] at h
  | v :: rest, s, s1, err, h => by
    simp only [recordVotes] at h
    cases hi : insertVote s (ballotRow u e v) with
    | error err2 =>
      rw [hi] at h
      simp only [Except.error.injEq, Prod.mk.injEq] at h
      obtain ⟨h1, h2⟩ := h
      subst h1 h2
      refine ⟨0, by simp, by simp [applySelections_nil], ?_⟩
      intro w hw
      simp only [List.getElem?_cons_zero, Option.some.injEq] at hw
      subst hw
      exact hi
    | ok s2 =>
      rw [hi] at h
      have h2 := insertVote_ok_eq hi
      subst h2
      obtain ⟨k, hk, hs, hv⟩ := recordVotes_error_eq u e rest _ _ _ h
      refine ⟨k + 1, by simp [hk], ?_, ?_⟩
      · rw [List.take_succ_cons, ← applySelections_step]; exact hs
      · intro w hw
        rw [List.getElem?_cons_succ] at hw
        exact hv w hw

theorem foreignKeysOk_step (s : Store) (row0 row : Vote) (cid : Nat) :
    foreignKeysOk (updateCandidateVotes { s with votes := s.votes ++ [row0] } cid) row
      = foreignKeysOk s row := by
  simp only [foreignKeysOk, updateCandidateVotes, List.any_map]
  congr 2
  funext c
  simp only [Function.comp]
  split <;> rfl

theorem uniqueVoteTaken_step (s : Store) (row0 row : Vote) (cid : Nat) :
    uniqueVoteTaken (updateCandidateVotes { s with votes := s.votes ++ [row0] } cid) row
      = (uniqueVoteTaken s row ||
          (decide (row0.user_id = row.user_id) && decide (row0.election_id = row.election_id)
            && decide (row0.position_id = row.position_id))) := by
  simp [uniqueVoteTaken, updateCandidateVotes, List.any_append]

theorem recordVotes_ok_iff (u : String) (e : Nat) :
    ∀ (vs : List Selection) (s : Store),
      (∃ s1, recordVotes u e s vs = .ok s1) ↔
        (∀ v ∈ vs, foreignKeysOk s (ballotRow u e v) = true) ∧
        (∀ v ∈ vs, uniqueVoteTaken s (ballotRow u e v) = false) ∧
        (vs.map Selection.positionId).Nodup
  | [], s => by simp [recordVotes]
  | v :: rest, s => by
    simp only [recordVotes]
    cases hi : insertVote s (ballotRow u e v) with
    | error err =>
      have hno : ¬ ∃ s1, insertVote s (ballotRow u e v) = .ok s1 := by
        rw [hi]; simp
      rw [insertVote_ok_iff] at hno
      constructor
      · rintro ⟨s1, h⟩; cases h
      · rintro ⟨h1, h2, _⟩
        exact absurd ⟨h1 v (List.mem_cons_self _ _), h2 v (List.mem_cons_self _ _)⟩ hno
    | ok s2 =>
      have hyes : ∃ s1, insertVote s (ballotRow u e v) = .ok s1 := ⟨s2, hi⟩
      rw [insertVote_ok_iff] at hyes
      have h2 := insertVote_ok_eq hi
      subst h2
      simp only []
      rw [recordVotes_ok_iff u e rest]
      simp only [foreignKeysOk_step, uniqueVoteTaken_step, List.mem_cons, forall_eq_or_imp,
        List.map_cons, List.nodup_cons, List.mem_map, Bool.or_eq_false_iff]
      simp only [ballotRow, decide_True, Bool.true_and, decide_eq_false_iff_not] 
      constructor
      · rintro ⟨h1, h2, h3⟩
        refine ⟨⟨hyes.1, h1⟩, ⟨hyes.2, fun w hw => (h2 w hw).1⟩, ?_, h3⟩
        rintro ⟨w, hw, hweq⟩
        exact (h2 w hw).2 hweq.symm
      · rintro ⟨⟨_, h1⟩, ⟨_, h2⟩, h3, h4⟩
        refine ⟨h1, fun w hw => ⟨h2 w hw, fun hweq => h3 ⟨w, hw, hweq.symm⟩⟩, h4⟩

/-! ## The three outcomes of the handler -/

theorem selectVotes_length_pos_iff (s : Store) (u : String) (e : Nat) :
    0 < (selectVotes s u e).length ↔ ∃ v ∈ s.votes, v.user_id = u ∧ v.election_id = e := by
  simp [selectVotes, List.length_pos, List.filter_eq_nil_iff]

theorem castVote_of_existing (s : Store) (u : String) (e : Nat) (vs : List Selection)
    (h : 0 < (selectVotes s u e).length) :
    castVote s u e vs = (.error 400 "You have already voted in this election", s) := by
  simp [castVote, h]

theorem castVote_of_ok (s s1 : Store) (u : String) (e : Nat) (vs : List Selection)
    (h : ¬ 0 < (selectVotes s u e).length) (hr : recordVotes u e s vs = .ok s1) :
    castVote s u e vs =
      (.success "Vote cast successfully",
        updateElectionVotesCast (updateUserHasVoted (applySelections u e s vs) u) e) := by
  have h1 := recordVotes_ok_eq u e vs s s1 hr
  subst h1
  simp only [castVote, gt_iff_lt, h, if_false, hr]

theorem castVote_of_error (s s1 : Store) (u : String) (e : Nat) (vs : List Selection)
    (err : DbError) (h : ¬ 0 < (selectVotes s u e).length)
    (hr : recordVotes u e s vs = .error (err, s1)) :
    castVote s u e vs = (.error 500 "Failed to cast vote", s1) := by
  simp only [castVote, gt_iff_lt, h, if_false, hr]

/-- Outcome analysis of `castVote`: rejected by the pre-check with the store
untouched; or a failing `INSERT` at some index `k`, the earlier selections
recorded; or success with all selections recorded and both flags updated. -/
theorem castVote_cases (s : Store) (u : String) (e : Nat) (vs : List Selection) :
    (0 < (selectVotes s u e).length ∧
      castVote s u e vs = (.error 400 "You have already voted in this election", s)) ∨
    (¬ 0 < (selectVotes s u e).length ∧ ∃ k err, k < vs.length ∧
      castVote s u e vs = (.error 500 "Failed to cast vote", applySelections u e s (vs.take k)) ∧
      ∀ v, vs[k]? = some v →
        insertVote (applySelections u e s (vs.take k)) (ballotRow u e v) = .error err) ∨
    (¬ 0 < (selectVotes s u e).length ∧ (∃ s1, recordVotes u e s vs = .ok s1) ∧
      castVote s u e vs =
        (.success "Vote cast successfully",
          updateElectionVotesCast (updateUserHasVoted (applySelections u e s vs) u) e)) := by
  by_cases h : 0 < (selectVotes s u e).length
  · exact Or.inl ⟨h, castVote_of_existing s u e vs h⟩
  · cases hr : recordVotes u e s vs with
    | error p =>
      obtain ⟨err, s1⟩ := p
      obtain ⟨k, hk, hs, hv⟩ := recordVotes_error_eq u e vs s s1 err hr
      refine Or.inr (Or.inl ⟨h, k, err, hk, ?_, ?_⟩)
      · rw [castVote_of_error s s1 u e vs err h hr, hs]
      · rw [← hs]; exact hv
    | ok s1 =>
      exact Or.inr (Or.inr ⟨h, ⟨s1, rfl⟩, castVote_of_ok s s1 u e vs h hr⟩)

theorem castVote_status_200_iff (s : Store) (u : String) (e : Nat) (vs : List Selection) :
    (castVote s u e vs).1.status = 200 ↔
      ¬ 0 < (selectVotes s u e).length ∧ ∃ s1, recordVotes u e s vs = .ok s1 := by
  rcases castVote_cases s u e vs with ⟨h, hc⟩ | ⟨h, k, err, hk, hc, hv⟩ | ⟨h, hok, hc⟩
  · rw [hc]; simp [Response.status, h]
  · rw [hc]
    have hno : ¬ ∃ s1, recordVotes u e s vs = .ok s1 := by
      rintro ⟨s1, hs1⟩
      have := castVote_of_ok s s1 u e vs h hs1
      rw [hc] at this
      cases this
    simp [Response.status, hno]
  · rw [hc]; simp [Response.status, h, hok]

theorem castVote_success_rows (s : Store) (u : String) (e : Nat) (vs : List Selection)
    (h : (castVote s u e vs).1.status = 200) :
    (castVote s u e vs).2.votes = s.votes ++ vs.map (ballotRow u e) := by
  rw [castVote_status_200_iff] at h
  obtain ⟨h0, s1, hr⟩ := h
  rw [castVote_of_ok s s1 u e vs h0 hr]
  rfl

/-! ## Effect of a successful call -/

/-- C7. After a successful `castVote`, the `votes` table is the old table followed
by one row `(userId, electionId, positionId, candidateId)` per submitted entry, in
submission order; every candidate counter has grown by the number of submitted
entries naming that candidate; and a candidate named by no entry is unchanged. -/
theorem castVote_success_ballots (s : Store) (u : String) (e : Nat) (vs : List Selection)
    (h : (castVote s u e vs).1.status = 200) :
    (castVote s u e vs).2.votes = s.votes ++ vs.map (fun v => ⟨u, e, v.positionId, v.candidateId⟩) ∧
    (castVote s u e vs).2.candidates = s.candidates.map
      (fun c => { c with votes := c.votes + vs.countP (fun v => decide (v.candidateId = c.id)) }) ∧
    (∀ c ∈ s.candidates, (∀ v ∈ vs, v.candidateId ≠ c.id) →
      c ∈ (castVote s u e vs).2.candidates) := by
  rw [castVote_status_200_iff] at h
  obtain ⟨h0, s1, hr⟩ := h
  rw [castVote_of_ok s s1 u e vs h0 hr]
  refine ⟨rfl, rfl, ?_⟩
  intro c hc hv
  simp only [updateElectionVotesCast, updateUserHasVoted, applySelections, List.mem_map]
  refine ⟨c, hc, ?_⟩
  have : vs.countP (fun v => decide (v.candidateId = c.id)) = 0 := by
    rw [List.countP_eq_zero]
    intro v hvm
    simpa using hv v hvm
  rw [this]
  rfl

theorem castVote_success_ballots_witness :
    (castVote scenarioStore "V1" 1 [⟨1, 1⟩]).1.status = 200 ∧
    (castVote scenarioStore "V1" 1 [⟨1, 1⟩]).2.votes = [⟨"V1", 1, 1, 1⟩] ∧
    (castVote scenarioStore "V1" 1 [⟨1, 1⟩]).2.candidates
      = [⟨1, 1, "A", "", 1⟩, ⟨2, 1, "B", "", 0⟩] :=
  ⟨by decide,
   (castVote_success_ballots scenarioStore "V1" 1 [⟨1, 1⟩] (by decide)).1,
   (castVote_success_ballots scenarioStore "V1" 1 [⟨1, 1⟩] (by decide)).2.1⟩

/-- C8. After a successful `castVote`, every `elections` row with the identifier
of the request has `votes_cast` one higher, whatever the length of the selection
list, and every other election row is unchanged; every `users` row with the
identifier of the request has `has_voted = true`, and every other user row is
unchanged. -/
theorem castVote_success_session (s : Store) (u : String) (e : Nat) (vs : List Selection)
    (h : (castVote s u e vs).1.status = 200) :
    (castVote s u e vs).2.elections = s.elections.map
      (fun el => if el.id = e then { el with votes_cast := el.votes_cast + 1 } else el) ∧
    (castVote s u e vs).2.users = s.users.map
      (fun usr => if usr.id = u then { usr with has_voted := true } else usr) := by
  rw [castVote_status_200_iff] at h
  obtain ⟨h0, s1, hr⟩ := h
  rw [castVote_of_ok s s1 u e vs h0 hr]
  exact ⟨rfl, rfl⟩

theorem castVote_success_session_witness :
    (castVote scenarioStore "V1" 1 [⟨1, 1⟩]).1.status = 200 ∧
    (castVote scenarioStore "V1" 1 [⟨1, 1⟩]).2.elections = [⟨1, "E1", .active, 10, 1⟩] ∧
    (castVote scenarioStore "V1" 1 [⟨1, 1⟩]).2.users
      = [⟨"V1", "Voter One", "v1@example.org", true⟩,
         ⟨"V2", "Voter Two", "v2@example.org", false⟩] :=
  ⟨by decide, castVote_success_session scenarioStore "V1" 1 [⟨1, 1⟩] (by decide)⟩

/-! ## Candidate counters -/

theorem candidateCountersConsistent_applySelections (u : String) (e : Nat) (s : Store)
    (vs : List Selection) (h : candidateCountersConsistent s) :
    candidateCountersConsistent (applySelections u e s vs) := by
  intro c hc
  simp only [applySelections, List.mem_map] at hc
  obtain ⟨c0, hc0, rfl⟩ := hc
  have h0 := h c0 hc0
  simp only [ballotCount] at h0
  simp only [ballotCount, applySelections, List.countP_append, List.countP_map, ← h0]
  rfl

theorem candidateCountersConsistent_castVote (s : Store) (u : String) (e : Nat)
    (vs : List Selection) (h : candidateCountersConsistent s) :
    candidateCountersConsistent (castVote s u e vs).2 := by
  rcases castVote_cases s u e vs with ⟨_, hc⟩ | ⟨_, k, err, _, hc, _⟩ | ⟨_, _, hc⟩
  · rw [hc]; exact h
  · rw [hc]; exact candidateCountersConsistent_applySelections u e s _ h
  · rw [hc]; exact candidateCountersConsistent_applySelections u e s _ h

theorem candidateCountersConsistent_runCasts :
    ∀ (reqs : List CastRequest) (s : Store),
      candidateCountersConsistent s → candidateCountersConsistent (runCasts s reqs)
  | [], _, h => h
  | r :: rest, s, h =>
    candidateCountersConsistent_runCasts rest _
      (candidateCountersConsistent_castVote s r.userId r.electionId r.votes h)

/-- C5. Starting from a store in which every candidate counter equals the number
of ballot rows referencing the candidate, after any sequence of successful
`castVote` calls every candidate counter still equals the number of ballot rows
whose candidate_id is that candidate. -/
theorem candidate_counters_stay_consistent (s : Store) (reqs : List CastRequest)
    (h0 : candidateCountersConsistent s) (_hok : allSucceed s reqs = true) :
    candidateCountersConsistent (runCasts s reqs) :=
  candidateCountersConsistent_runCasts reqs s h0

theorem candidate_counters_stay_consistent_witness :
    candidateCountersConsistent scenarioStore ∧
    allSucceed scenarioStore [⟨"V1", 1, [⟨1, 1⟩]⟩, ⟨"V2", 1, [⟨1, 1⟩]⟩] = true ∧
    candidateCountersConsistent
      (runCasts scenarioStore [⟨"V1", 1, [⟨1, 1⟩]⟩, ⟨"V2", 1, [⟨1, 1⟩]⟩]) :=
  ⟨by decide, by decide,
   candidate_counters_stay_consistent scenarioStore
     [⟨"V1", 1, [⟨1, 1⟩]⟩, ⟨"V2", 1, [⟨1, 1⟩]⟩] (by decide) (by decide)⟩

/-! ## Columns the handler never reads -/

theorem foreignKeysOk_mapCatalog (fe : Election → Election) (fp : Position → Position)
    (hfe : ∀ el, (fe el).id = el.id) (hfp : ∀ p, (fp p).id = p.id) (s : Store) (row : Vote) :
    foreignKeysOk (mapCatalog fe fp s) row = foreignKeysOk s row := by
  have h1 : ((fun el : Election => decide (el.id = row.election_id)) ∘ fe)
      = fun el => decide (el.id = row.election_id) := by
    funext el; simp only [Function.comp, hfe]
  have h2 : ((fun p : Position => decide (p.id = row.position_id)) ∘ fp)
      = fun p => decide (p.id = row.position_id) := by
    funext p; simp only [Function.comp, hfp]
  simp only [foreignKeysOk, mapCatalog, List.any_map, h1, h2]

theorem insertVote_mapCatalog (fe : Election → Election) (fp : Position → Position)
    (hfe : ∀ el, (fe el).id = el.id) (hfp : ∀ p, (fp p).id = p.id) (s : Store) (row : Vote) :
    insertVote (mapCatalog fe fp s) row =
      match insertVote s row with
      | .ok s1 => .ok (mapCatalog fe fp s1)
      | .error err => .error err := by
  unfold insertVote
  rw [foreignKeysOk_mapCatalog fe fp hfe hfp]
  have hu : uniqueVoteTaken (mapCatalog fe fp s) row = uniqueVoteTaken s row := rfl
  rw [hu]
  cases foreignKeysOk s row <;> cases uniqueVoteTaken s row <;> rfl

theorem recordVotes_mapCatalog (fe : Election → Election) (fp : Position → Position)
    (hfe : ∀ el, (fe el).id = el.id) (hfp : ∀ p, (fp p).id = p.id) (u : String) (e : Nat) :
    ∀ (vs : List Selection) (s : Store),
      recordVotes u e (mapCatalog fe fp s) vs =
        match recordVotes u e s vs with
        | .ok s1 => .ok (mapCatalog fe fp s1)
        | .error (err, s1) => .error (err, mapCatalog fe fp s1)
  | [], s => rfl
  | v :: rest, s => by
    simp only [recordVotes]
    rw [insertVote_mapCatalog fe fp hfe hfp]
    cases hi : insertVote s (ballotRow u e v) with
    | error err => rfl
    | ok s2 =>
      simp only []
      exact recordVotes_mapCatalog fe fp hfe hfp u e rest (updateCandidateVotes s2 v.candidateId)

theorem castVote_mapCatalog (fe : Election → Election) (fp : Position → Position)
    (hfe : ∀ el, (fe el).id = el.id) (hfp : ∀ p, (fp p).id = p.id)
    (hcast : ∀ el, fe { el with votes_cast := el.votes_cast + 1 }
      = { fe el with votes_cast := (fe el).votes_cast + 1 })
    (s : Store) (u : String) (e : Nat) (vs : List Selection) :
    castVote (mapCatalog fe fp s) u e vs
      = ((castVote s u e vs).1, mapCatalog fe fp (castVote s u e vs).2) := by
  have hsel : selectVotes (mapCatalog fe fp s) u e = selectVotes s u e := rfl
  unfold castVote
  simp only [hsel]
  split
  · rfl
  · rw [recordVotes_mapCatalog fe fp hfe hfp]
    cases hr : recordVotes u e s vs with
    | error p => rfl
    | ok s1 =>
      simp only [updateElectionVotesCast, updateUserHasVoted, mapCatalog, List.map_map,
        Prod.mk.injEq, true_and, Store.mk.injEq, and_true]
      apply List.map_congr_left
      intro el _
      simp only [Function.comp, hfe]
      split
      · have hc := hcast el
        simp only [hfe] at hc
        exact hc.symm
      · rfl

theorem castVote_withStatuses (f : Nat → ElectionStatus) (s : Store) (u : String) (e : Nat)
    (vs : List Selection) :
    castVote (withStatuses f s) u e vs
      = ((castVote s u e vs).1, withStatuses f (castVote s u e vs).2) := by
  have h := castVote_mapCatalog (fun el => { el with status := f el.id }) id
    (fun _ => rfl) (fun _ => rfl) (fun _ => rfl) s u e vs
  simpa [mapCatalog, withStatuses] using h

theorem castVote_status_200_iff_constraints (s : Store) (u : String) (e : Nat)
    (vs : List Selection) :
    (castVote s u e vs).1.status = 200 ↔
      (¬ ∃ v ∈ s.votes, v.user_id = u ∧ v.election_id = e) ∧
      (∀ v ∈ vs, foreignKeysOk s (ballotRow u e v) = true) ∧
      (vs.map Selection.positionId).Nodup := by
  rw [castVote_status_200_iff, recordVotes_ok_iff, selectVotes_length_pos_iff]
  constructor
  · rintro ⟨h0, h1, _, h3⟩
    exact ⟨h0, h1, h3⟩
  · rintro ⟨h0, h1, h3⟩
    refine ⟨h0, h1, ?_, h3⟩
    intro v _
    cases hu : uniqueVoteTaken s (ballotRow u e v) with
    | false => rfl
    | true =>
      exfalso
      apply h0
      simp only [uniqueVoteTaken, ballotRow, List.any_eq_true, Bool.and_eq_true,
        decide_eq_true_eq] at hu
      obtain ⟨w, hw, ⟨hwu, hwe⟩, _⟩ := hu
      exact ⟨w, hw, hwu, hwe⟩

/-! ## Rejections that the handler does not perform, and what it does instead -/

/-- C3, as stated, fails: in `twoPositionStore` candidate B belongs to position 2,
yet the selection pairing position 1 with candidate B is accepted, its row is
stored and B is credited. -/
theorem invalid_pairing_is_accepted :
    ¬ ∀ (s : Store) (u : String) (e : Nat) (vs : List Selection),
        (∃ v ∈ vs, validPairing s e v = false) →
          (castVote s u e vs).1.status ≠ 200 ∧
          (castVote s u e vs).2.votes = s.votes ∧
          (castVote s u e vs).2.candidates = s.candidates ∧
          (castVote s u e vs).2.elections = s.elections ∧
          (castVote s u e vs).2.users = s.users := by
  intro h
  have h1 := h twoPositionStore "V1" 1 [⟨1, 2⟩] ⟨⟨1, 2⟩, by simp, by decide⟩
  exact h1.1 (by decide)

/-- C3, amended. A call whose selection list contains a pair naming a position id
or a candidate id that does not exist is rejected, and no election row and no
user row changes; what stays stored is the effect of a strict initial segment of
the list (the entries before the failing `INSERT`). -/
theorem castVote_missing_reference_rejected (s : Store) (u : String) (e : Nat)
    (vs : List Selection)
    (h : ∃ v ∈ vs, (∀ p ∈ s.positions, p.id ≠ v.positionId) ∨
      (∀ c ∈ s.candidates, c.id ≠ v.candidateId)) :
    (castVote s u e vs).1.status ≠ 200 ∧
    (castVote s u e vs).2.elections = s.elections ∧
    (castVote s u e vs).2.users = s.users ∧
    ∃ k, k < vs.length ∧
      (castVote s u e vs).2.votes = s.votes ++ (vs.take k).map (ballotRow u e) ∧
      (castVote s u e vs).2.candidates = s.candidates.map (fun c =>
        { c with votes := c.votes + (vs.take k).countP (fun v => decide (v.candidateId = c.id)) })
    := by
  obtain ⟨v, hv, hmiss⟩ := h
  have hfk : foreignKeysOk s (ballotRow u e v) = false := by
    rcases hmiss with hp | hc
    · have : s.positions.any (fun p => decide (p.id = v.positionId)) = false := by
        rw [List.any_eq_false]
        intro p hp2
        simpa using hp p hp2
      simp [foreignKeysOk, ballotRow, this]
    · have : s.candidates.any (fun c => decide (c.id = v.candidateId)) = false := by
        rw [List.any_eq_false]
        intro c hc2
        simpa using hc c hc2
      simp [foreignKeysOk, ballotRow, this]
  have hstatus : (castVote s u e vs).1.status ≠ 200 := by
    rw [Ne, castVote_status_200_iff_constraints]
    rintro ⟨_, h1, _⟩
    rw [h1 v hv] at hfk
    cases hfk
  have hlen : 0 < vs.length := List.length_pos_of_mem hv
  refine ⟨hstatus, ?_⟩
  rcases castVote_cases s u e vs with ⟨_, hc⟩ | ⟨_, k, err, hk, hc, _⟩ | ⟨_, _, hc⟩
  · rw [hc]
    refine ⟨rfl, rfl, 0, hlen, ?_, ?_⟩
    · simp
    · simp
  · rw [hc]
    exact ⟨rfl, rfl, k, hk, rfl, rfl⟩
  · rw [hc] at hstatus
    exact absurd rfl hstatus

theorem castVote_missing_reference_rejected_witness :
    (∃ v ∈ [(⟨1, 1⟩ : Selection), ⟨7, 2⟩],
      (∀ p ∈ scenarioStore.positions, p.id ≠ v.positionId) ∨
      (∀ c ∈ scenarioStore.candidates, c.id ≠ v.candidateId)) ∧
    (castVote scenarioStore "V1" 1 [⟨1, 1⟩, ⟨7, 2⟩]).1.status ≠ 200 ∧
    (castVote scenarioStore "V1" 1 [⟨1, 1⟩, ⟨7, 2⟩]).2.elections = scenarioStore.elections :=
  ⟨⟨⟨7, 2⟩, by simp, Or.inl (by decide)⟩,
   (castVote_missing_reference_rejected scenarioStore "V1" 1 [⟨1, 1⟩, ⟨7, 2⟩]
      ⟨⟨7, 2⟩, by simp, Or.inl (by decide)⟩).1,
   (castVote_missing_reference_rejected scenarioStore "V1" 1 [⟨1, 1⟩, ⟨7, 2⟩]
      ⟨⟨7, 2⟩, by simp, Or.inl (by decide)⟩).2.1⟩

/-- C4, as stated, fails: in `scenarioStore` the second `INSERT` of the request
violates `unique_vote`, the call answers 500, and the first row and the increment
of candidate A remain. -/
theorem failed_call_keeps_partial_ballot :
    ¬ ∀ (s : Store) (u : String) (e : Nat) (vs : List Selection),
        (castVote s u e vs).1.status = 500 → (castVote s u e vs).2 = s := by
  intro h
  have h1 := h scenarioStore "V1" 1 [⟨1, 1⟩, ⟨1, 2⟩] (by decide)
  exact absurd h1 (by decide)

/-- C4, amended. When an `INSERT` of the loop fails, the call answers 500; no user
row and no election row has changed; the ballot rows and candidate increments of
the entries before the failing one remain stored, and the entry at that index is
the one whose `INSERT` is refused by the store reached. -/
theorem castVote_failure_keeps_recorded_entries (s : Store) (u : String) (e : Nat)
    (vs : List Selection) (h : (castVote s u e vs).1.status = 500) :
    (castVote s u e vs).2.users = s.users ∧
    (castVote s u e vs).2.elections = s.elections ∧
    ∃ k, k < vs.length ∧
      (castVote s u e vs).2.votes = s.votes ++ (vs.take k).map (ballotRow u e) ∧
      (castVote s u e vs).2.candidates = s.candidates.map (fun c =>
        { c with votes := c.votes + (vs.take k).countP (fun v => decide (v.candidateId = c.id)) }) ∧
      ∀ v, vs[k]? = some v →
        ∃ err, insertVote (castVote s u e vs).2 (ballotRow u e v) = .error err := by
  rcases castVote_cases s u e vs with ⟨_, hc⟩ | ⟨_, k, err, hk, hc, hv⟩ | ⟨_, _, hc⟩
  · rw [hc] at h; cases h
  · rw [hc]
    exact ⟨rfl, rfl, k, hk, rfl, rfl, fun v hvk => ⟨err, hv v hvk⟩⟩
  · rw [hc] at h; cases h

theorem castVote_failure_keeps_recorded_entries_witness :
    (castVote scenarioStore "V1" 1 [⟨1, 1⟩, ⟨1, 2⟩]).1.status = 500 ∧
    (castVote scenarioStore "V1" 1 [⟨1, 1⟩, ⟨1, 2⟩]).2.users = scenarioStore.users ∧
    (castVote scenarioStore "V1" 1 [⟨1, 1⟩, ⟨1, 2⟩]).2.elections = scenarioStore.elections :=
  ⟨by decide,
   (castVote_failure_keeps_recorded_entries scenarioStore "V1" 1 [⟨1, 1⟩, ⟨1, 2⟩]
      (by decide)).1,
   (castVote_failure_keeps_recorded_entries scenarioStore "V1" 1 [⟨1, 1⟩, ⟨1, 2⟩]
      (by decide)).2.1⟩

/-- C9, as stated, fails: the position of `twoSeatStore` requires two selections,
the request submits one, and the call succeeds and writes the row. -/
theorem incomplete_selection_is_accepted :
    ¬ ∀ (s : Store) (u : String) (e : Nat) (vs : List Selection),
        selectionsComplete s e vs = false →
          (castVote s u e vs).1.status ≠ 200 ∧ (castVote s u e vs).2 = s := by
  intro h
  have h1 := h twoSeatStore "V2" 1 [⟨1, 1⟩] (by decide)
  exact h1.1 (by decide)

/-- C10, as stated, fails: election 1 of `upcomingStore` has status `upcoming`,
and the vote is accepted and stored. -/
theorem vote_in_upcoming_election_is_accepted :
    ¬ ∀ (s : Store) (u : String) (e : Nat) (vs : List Selection),
        (∀ el ∈ s.elections, el.id = e → el.status ≠ ElectionStatus.active) →
          (castVote s u e vs).1.status ≠ 200 ∧ (castVote s u e vs).2 = s := by
  intro h
  have h1 := h upcomingStore "V1" 1 [⟨1, 1⟩] (by decide)
  exact h1.1 (by decide)

/-- C10, amended. The handler never reads `elections.status`: its response and its
writes are the same whatever the status of each election is.  A call with a
non-empty selection list for an election id that does not exist is rejected and
leaves the store unchanged. -/
theorem castVote_ignores_election_status (s : Store) (u : String) (e : Nat)
    (vs : List Selection) :
    (∀ f : Nat → ElectionStatus,
      castVote (withStatuses f s) u e vs
        = ((castVote s u e vs).1, withStatuses f (castVote s u e vs).2)) ∧
    ((∀ el ∈ s.elections, el.id ≠ e) → vs ≠ [] →
      (castVote s u e vs).1.status ≠ 200 ∧ (castVote s u e vs).2 = s) := by
  refine ⟨fun f => castVote_withStatuses f s u e vs, ?_⟩
  intro hel hne
  obtain ⟨v, rest, rfl⟩ := List.exists_cons_of_ne_nil hne
  have hfk : foreignKeysOk s (ballotRow u e v) = false := by
    have : s.elections.any (fun el => decide (el.id = e)) = false := by
      rw [List.any_eq_false]
      intro el hel2
      simpa using hel el hel2
    simp [foreignKeysOk, ballotRow, this]
  by_cases h0 : 0 < (selectVotes s u e).length
  · rw [castVote_of_existing s u e _ h0]
    exact ⟨by simp [Response.status], rfl⟩
  · have hr : recordVotes u e s (v :: rest) = .error (DbError.foreignKey, s) := by
      simp [recordVotes, insertVote, hfk]
    rw [castVote_of_error s s u e _ _ h0 hr]
    exact ⟨by simp [Response.status], rfl⟩

theorem castVote_ignores_election_status_witness :
    castVote upcomingStore "V1" 1 [⟨1, 1⟩]
      = ((castVote scenarioStore "V1" 1 [⟨1, 1⟩]).1,
         withStatuses (fun _ => .upcoming) (castVote scenarioStore "V1" 1 [⟨1, 1⟩]).2) ∧
    (∀ el ∈ scenarioStore.elections, el.id ≠ 9) ∧
    (castVote scenarioStore "V1" 9 [⟨1, 1⟩]).1.status ≠ 200 ∧
    (castVote scenarioStore "V1" 9 [⟨1, 1⟩]).2 = scenarioStore :=
  ⟨(castVote_ignores_election_status scenarioStore "V1" 1 [⟨1, 1⟩]).1 (fun _ => .upcoming),
   by decide,
   (castVote_ignores_election_status scenarioStore "V1" 9 [⟨1, 1⟩]).2
     (by decide) (by simp)⟩

/-! ## Ballot rows are only ever appended -/

theorem castVote_votes_append (s : Store) (u : String) (e : Nat) (vs : List Selection) :
    ∃ l, (castVote s u e vs).2.votes = s.votes ++ l := by
  rcases castVote_cases s u e vs with ⟨_, hc⟩ | ⟨_, k, err, _, hc, _⟩ | ⟨_, _, hc⟩
  · rw [hc]; exact ⟨[], by simp⟩
  · rw [hc]; exact ⟨_, rfl⟩
  · rw [hc]; exact ⟨_, rfl⟩

theorem runCasts_votes_append :
    ∀ (reqs : List CastRequest) (s : Store), ∃ l, (runCasts s reqs).votes = s.votes ++ l
  | [], s => ⟨[], by simp [runCasts]⟩
  | r :: rest, s => by
    obtain ⟨l1, h1⟩ := castVote_votes_append s r.userId r.electionId r.votes
    obtain ⟨l2, h2⟩ := runCasts_votes_append rest (castVote s r.userId r.electionId r.votes).2
    refine ⟨l1 ++ l2, ?_⟩
    simp only [runCasts]
    rw [h2, h1, List.append_assoc]

/-- Once a call with a non-empty selection list has succeeded, every later call of
the same voter in the same election, after any further requests, is answered 400
and leaves the store as it is. -/
theorem castVote_rejected_after_recorded_ballot (s : Store) (u : String) (e : Nat)
    (vs vs2 : List Selection) (reqs : List CastRequest)
    (hok : (castVote s u e vs).1.status = 200) (hne : vs ≠ []) :
    castVote (runCasts (castVote s u e vs).2 reqs) u e vs2 =
      (.error 400 "You have already voted in this election",
        runCasts (castVote s u e vs).2 reqs) := by
  apply castVote_of_existing
  rw [selectVotes_length_pos_iff]
  obtain ⟨v, rest, rfl⟩ := List.exists_cons_of_ne_nil hne
  obtain ⟨l, hl⟩ := runCasts_votes_append reqs (castVote s u e (v :: rest)).2
  have hb := (castVote_success_rows s u e (v :: rest) hok)
  refine ⟨ballotRow u e v, ?_, rfl, rfl⟩
  rw [hl, hb]
  simp

/-! ## Election counters -/

theorem distinctVoters_eq_card (s : Store) (e : Nat) :
    distinctVoters s e =
      ((s.votes.filter (fun v => decide (v.election_id = e))).map Vote.user_id).toFinset.card := by
  rw [List.card_toFinset]; rfl

theorem distinctVoters_applySelections_other (u : String) (e e2 : Nat) (s : Store)
    (vs : List Selection) (h : e ≠ e2) :
    distinctVoters (applySelections u e s vs) e2 = distinctVoters s e2 := by
  have hf : (vs.map (ballotRow u e)).filter (fun v => decide (v.election_id = e2)) = [] := by
    rw [List.filter_eq_nil_iff]
    intro v hv
    simp only [List.mem_map] at hv
    obtain ⟨w, _, rfl⟩ := hv
    simpa [ballotRow] using h
  simp only [distinctVoters, applySelections, List.filter_append, hf, List.append_nil]

theorem distinctVoters_applySelections_same (u : String) (e : Nat) (s : Store)
    (vs : List Selection) (hno : ¬ ∃ v ∈ s.votes, v.user_id = u ∧ v.election_id = e)
    (hne : vs ≠ []) :
    distinctVoters (applySelections u e s vs) e = distinctVoters s e + 1 := by
  have hf : (vs.map (ballotRow u e)).filter (fun v => decide (v.election_id = e))
      = vs.map (ballotRow u e) := by
    rw [List.filter_eq_self]
    intro v hv
    simp only [List.mem_map] at hv
    obtain ⟨w, _, rfl⟩ := hv
    simp [ballotRow]
  have hu : ((vs.map (ballotRow u e)).map Vote.user_id).toFinset = {u} := by
    ext x
    simp only [List.map_map, List.mem_toFinset, List.mem_map, Function.comp, ballotRow,
      Finset.mem_singleton]
    constructor
    · rintro ⟨_, _, rfl⟩; rfl
    · rintro rfl
      obtain ⟨v, rest, rfl⟩ := List.exists_cons_of_ne_nil hne
      exact ⟨v, List.mem_cons_self _ _, rfl⟩
  have hnot : u ∉ ((s.votes.filter (fun v => decide (v.election_id = e))).map
      Vote.user_id).toFinset := by
    simp only [List.mem_toFinset, List.mem_map, List.mem_filter, decide_eq_true_eq]
    rintro ⟨v, ⟨hv, hve⟩, hvu⟩
    exact hno ⟨v, hv, hvu, hve⟩
  rw [distinctVoters_eq_card, distinctVoters_eq_card]
  simp only [applySelections, List.filter_append, hf, List.map_append, List.toFinset_append, hu]
  rw [Finset.union_comm, ← Finset.insert_eq, Finset.card_insert_of_not_mem hnot]

/-- A successful call with a non-empty selection list keeps every election counter
equal to the number of distinct voters with a ballot row in that election. -/
theorem electionCountersConsistent_castVote_nonempty (s : Store) (u : String) (e : Nat)
    (vs : List Selection) (h : electionCountersConsistent s)
    (hok : (castVote s u e vs).1.status = 200) (hne : vs ≠ []) :
    electionCountersConsistent (castVote s u e vs).2 := by
  rw [castVote_status_200_iff] at hok
  obtain ⟨h0, s1, hr⟩ := hok
  rw [castVote_of_ok s s1 u e vs h0 hr]
  rw [selectVotes_length_pos_iff] at h0
  intro el hel
  simp only [updateElectionVotesCast, updateUserHasVoted, applySelections, List.mem_map] at hel
  obtain ⟨el0, hel0, rfl⟩ := hel
  have hd : ∀ e2, distinctVoters
      (updateElectionVotesCast (updateUserHasVoted (applySelections u e s vs) u) e) e2
        = distinctVoters (applySelections u e s vs) e2 := fun _ => rfl
  rw [hd]
  by_cases hid : el0.id = e
  · simp only [hid, if_true]
    rw [distinctVoters_applySelections_same u e s vs h0 hne, ← hid, ← h el0 hel0]
  · simp only [hid, if_false]
    rw [distinctVoters_applySelections_other u e el0.id s vs (fun h2 => hid h2.symm)]
    exact h el0 hel0

/-! ## The empty selection list -/

/-- C1 at its failing input: voter V1 submits the empty selection list, which is
accepted and leaves no ballot row; the pre-check therefore lets the second call of
V1 in the same election through, and it succeeds as well, crediting candidate B
and counting a second vote cast. -/
theorem empty_ballot_allows_second_vote :
    (castVote scenarioStore "V1" 1 []).1.status = 200 ∧
    (castVote scenarioStore "V1" 1 []).2.votes = [] ∧
    (castVote (castVote scenarioStore "V1" 1 []).2 "V1" 1 [⟨1, 2⟩]).1.status = 200 ∧
    (castVote (castVote scenarioStore "V1" 1 []).2 "V1" 1 [⟨1, 2⟩]).2 =
      { users := [⟨"V1", "Voter One", "v1@example.org", true⟩,
                  ⟨"V2", "Voter Two", "v2@example.org", false⟩],
        elections := [⟨1, "E1", .active, 10, 2⟩],
        positions := [⟨1, 1, "President", 1, 1⟩],
        candidates := [⟨1, 1, "A", "", 0⟩, ⟨2, 1, "B", "", 1⟩],
        votes := [⟨"V1", 1, 1, 2⟩] } := by
  decide

/-- C6 at its failing input: from the scenario store (no ballots, all counters 0)
one successful call with the empty selection list raises `votes_cast` of election 1
to 1 while no voter has a ballot row in it. -/
theorem empty_ballot_counts_as_vote_cast :
    electionCountersConsistent scenarioStore ∧
    allSucceed scenarioStore [⟨"V1", 1, []⟩] = true ∧
    (runCasts scenarioStore [⟨"V1", 1, []⟩]).elections = [⟨1, "E1", .active, 10, 1⟩] ∧
    distinctVoters (runCasts scenarioStore [⟨"V1", 1, []⟩]) 1 = 0 ∧
    ¬ electionCountersConsistent (runCasts scenarioStore [⟨"V1", 1, []⟩]) := by
  decide

/-! ## Ballot rows survive every request -/

theorem serve_votes_append (s : Store) (op : Operation) :
    ∃ l, (serve s op).2.votes = s.votes ++ l := by
  cases op with
  | cast r => exact castVote_votes_append s r.userId r.electionId r.votes
  | results e => exact ⟨[], by simp [serve]⟩

theorem runOperations_votes_append :
    ∀ (ops : List Operation) (s : Store), ∃ l, (runOperations s ops).votes = s.votes ++ l
  | [], s => ⟨[], by simp [runOperations]⟩
  | op :: rest, s => by
    obtain ⟨l1, h1⟩ := serve_votes_append s op
    obtain ⟨l2, h2⟩ := runOperations_votes_append rest (serve s op).2
    refine ⟨l1 ++ l2, ?_⟩
    simp only [runOperations]
    rw [h2, h1, List.append_assoc]

/-- C16. Every `castVote` call and every results query leaves the ballot rows that
were stored before it in place, unchanged and in the same order, a `castVote` only
adding rows after them and a results query adding none; so after any sequence of
these requests a (voter, election) pair that had a ballot row still has one. -/
theorem ballots_are_append_only (s : Store) (ops : List Operation) :
    (∀ (r : CastRequest), ∃ l, (serve s (.cast r)).2.votes = s.votes ++ l) ∧
    (∀ (e : Nat), (serve s (.results e)).2 = s) ∧
    (∃ l, (runOperations s ops).votes = s.votes ++ l) ∧
    (∀ (u : String) (e : Nat), selectVotes s u e ≠ [] →
      selectVotes (runOperations s ops) u e ≠ []) := by
  refine ⟨fun r => serve_votes_append s (.cast r), fun _ => rfl,
    runOperations_votes_append ops s, ?_⟩
  intro u e h
  obtain ⟨l, hl⟩ := runOperations_votes_append ops s
  simp only [selectVotes, hl, List.filter_append, ne_eq, List.append_eq_nil, not_and] at h ⊢
  intro h2
  exact absurd h2 h

theorem ballots_are_append_only_witness :
    selectVotes talliedStore "V1" 1 ≠ [] ∧
    selectVotes (runOperations talliedStore
      [.cast ⟨"V1", 1, [⟨1, 2⟩]⟩, .results 1, .cast ⟨"V2", 1, []⟩]) "V1" 1 ≠ [] :=
  ⟨by decide,
   (ballots_are_append_only talliedStore
      [.cast ⟨"V1", 1, [⟨1, 2⟩]⟩, .results 1, .cast ⟨"V2", 1, []⟩]).2.2.2 "V1" 1 (by decide)⟩

/-! ## Two selections for one position -/

/-- C20, as stated, fails: the position of `twoSeatStore` allows two selections,
the first-time request names two different candidates of it, and the call is
answered 500 because the second `INSERT` violates `unique_vote`. -/
theorem two_selections_for_one_position_rejected :
    ¬ ∀ (s : Store) (u : String) (e : Nat) (p : Position) (c1 c2 : Candidate),
        p ∈ s.positions → p.election_id = e → 2 ≤ p.max_selections →
        c1 ∈ s.candidates → c2 ∈ s.candidates →
        c1.position_id = p.id → c2.position_id = p.id → c1.id ≠ c2.id →
        (∃ usr ∈ s.users, usr.id = u) → (∃ el ∈ s.elections, el.id = e) →
        selectVotes s u e = [] →
          (castVote s u e [⟨p.id, c1.id⟩, ⟨p.id, c2.id⟩]).1.status = 200 := by
  intro h
  have h1 := h twoSeatStore "V2" 1 ⟨1, 1, "Council", 2, 2⟩ ⟨1, 1, "A", "", 0⟩ ⟨2, 1, "B", "", 0⟩
    (by decide) rfl (by decide) (by decide) (by decide) rfl rfl (by decide)
    ⟨⟨"V2", "Voter Two", "v2@example.org", false⟩, by decide, rfl⟩
    ⟨⟨1, "E1", .active, 10, 0⟩, by decide, rfl⟩ (by decide)
  exact absurd h1 (by decide)

/-! ## Percentages of the results query -/

/-- The value sent for `(a / b) * 100` differs from the exact quotient times 100 by
at most 0.0000501: less than 0.0000001 is cut off and the rounding moves it by at
most 0.00005. -/
theorem decimalPercent_close (a b : Nat) (hb : 0 < b) :
    |decimalPercent a b - (a : ℚ) / (b : ℚ) * 100| ≤ 501 / 10 ^ 7 := by
  unfold decimalPercent
  have h1 : a * 10 ^ 9 / b * b ≤ a * 10 ^ 9 := Nat.div_mul_le_self _ _
  have h2 : a * 10 ^ 9 < b * (a * 10 ^ 9 / b + 1) := Nat.lt_mul_div_succ _ hb
  have h3 : (a * 10 ^ 9 / b + 500) / 1000 * 1000 ≤ a * 10 ^ 9 / b + 500 :=
    Nat.div_mul_le_self _ _
  have h4 : a * 10 ^ 9 / b + 500 < 1000 * ((a * 10 ^ 9 / b + 500) / 1000 + 1) :=
    Nat.lt_mul_div_succ _ (by norm_num)
  generalize (a * 10 ^ 9 / b + 500) / 1000 = m at h3 h4 ⊢
  generalize a * 10 ^ 9 / b = n at h1 h2 h3 h4
  have hbq : (0 : ℚ) < b := by exact_mod_cast hb
  have q1 : (n : ℚ) * b ≤ a * 10 ^ 9 := by exact_mod_cast h1
  have q2 : (a : ℚ) * 10 ^ 9 < b * (n + 1) := by exact_mod_cast h2
  have q3 : (m : ℚ) * 1000 ≤ n + 500 := by exact_mod_cast h3
  have q4 : (n : ℚ) + 500 < 1000 * (m + 1) := by exact_mod_cast h4
  have hy1 : (n : ℚ) ≤ a / b * 10 ^ 9 := by
    rw [div_mul_eq_mul_div, le_div_iff₀ hbq]; exact q1
  have hy2 : (a : ℚ) / b * 10 ^ 9 < n + 1 := by
    rw [div_mul_eq_mul_div, div_lt_iff₀ hbq]; linarith
  rw [abs_le]
  constructor <;> norm_num at hy1 hy2 ⊢ <;> linarith

theorem partitionVotes_eq_zero (s : Store) (e pid : Nat)
    (hz : ∀ c ∈ s.candidates, c.position_id = pid → c.votes = 0) :
    partitionVotes (joinRows s e) pid = 0 := by
  unfold partitionVotes
  apply List.sum_eq_zero
  intro x hx
  simp only [List.mem_map, List.mem_filter, decide_eq_true_eq, joinRows, List.mem_flatMap] at hx
  obtain ⟨r, ⟨⟨p, _, c, ⟨hc, hpc⟩, rfl⟩, hid⟩, rfl⟩ := hx
  exact hz c hc (by rw [← hpc]; exact hid)

/-- C12, as stated, fails: both candidates of the scenario store have 0 votes, and
the percentage reported for candidate A is NULL, not the number 0. -/
theorem zero_vote_position_reports_null :
    ¬ ∀ (s : Store) (e : Nat) (r : Position × Candidate), r ∈ resultsJoin s e →
        (∀ c ∈ s.candidates, c.position_id = r.1.id → c.votes = 0) →
          (resultRow (joinRows s e) r).percentage = some 0 := by
  intro h
  have h1 := h scenarioStore 1 (⟨1, 1, "President", 1, 1⟩, ⟨1, 1, "A", "", 0⟩)
    (by decide) (by decide)
  exact absurd h1 (by decide)

/-- C12, amended. For every position whose candidates all have 0 votes, the results
query reports the percentage NULL for each of its candidates (the value of
`NULLIF(SUM(c.votes) OVER(PARTITION BY p.id), 0)` is NULL, and so is the quotient). -/
theorem zero_vote_percentage_is_null (s : Store) (e : Nat) (r : Position × Candidate)
    (hz : ∀ c ∈ s.candidates, c.position_id = r.1.id → c.votes = 0) :
    (resultRow (joinRows s e) r).percentage = none := by
  simp [resultRow, percentage, nullif, partitionVotes_eq_zero s e r.1.id hz]

theorem zero_vote_percentage_is_null_witness :
    (∀ c ∈ scenarioStore.candidates, c.position_id = 1 → c.votes = 0) ∧
    getResults scenarioStore 1
      = [⟨"President", "A", "", 0, none⟩, ⟨"President", "B", "", 0, none⟩] ∧
    (resultRow (joinRows scenarioStore 1)
      (⟨1, 1, "President", 1, 1⟩, ⟨1, 1, "A", "", 0⟩)).percentage = none :=
  ⟨by decide, by decide,
   zero_vote_percentage_is_null scenarioStore 1
     (⟨1, 1, "President", 1, 1⟩, ⟨1, 1, "A", "", 0⟩) (by decide)⟩

/-! ## Participation rate of the election listing -/

theorem mem_listElections {startDate : Election → Nat} {s : Store} {row : ElectionListRow}
    (h : row ∈ listElections startDate s) : ∃ el ∈ s.elections, row = electionListRow s el := by
  simp only [listElections, List.mem_map] at h
  obtain ⟨el, hel, rfl⟩ := h
  exact ⟨el, (List.perm_insertionSort _ _).subset hel, rfl⟩

/-- C14, as stated, fails: the election of `unregisteredStore` has
`total_voters = 0`, and the listing reports the participation rate NULL, not 0. -/
theorem participation_rate_null_without_voters :
    ¬ ∀ (startDate : Election → Nat) (s : Store) (row : ElectionListRow),
        row ∈ listElections startDate s → row.total_voters = 0 →
          row.participation_rate = some 0 := by
  intro h
  have h1 := h (fun _ => 0) unregisteredStore ⟨1, "E1", .upcoming, 0, 0, none⟩
    (by decide) rfl
  exact absurd h1 (by decide)

/-- C14, amended. For every election with `total_voters = 0` the participation rate
reported by the listing is NULL, and for `total_voters > 0` it is the DECIMAL value
of the number of distinct voters with a ballot row in the election divided by
`total_voters`, times 100, which is within 0.0000501 of the exact quotient times
100; the divisor is never 0. -/
theorem participation_rate_zero_safe (startDate : Election → Nat) (s : Store)
    (row : ElectionListRow) (h : row ∈ listElections startDate s) :
    (∃ el ∈ s.elections, row.id = el.id ∧ row.total_voters = el.total_voters ∧
      row.votes_cast = distinctVoters s el.id) ∧
    (row.total_voters = 0 → row.participation_rate = none) ∧
    (0 < row.total_voters →
      row.participation_rate = some (decimalPercent row.votes_cast row.total_voters) ∧
      ∃ rate, row.participation_rate = some rate ∧
        |rate - (row.votes_cast : ℚ) / (row.total_voters : ℚ) * 100| ≤ 501 / 10 ^ 7) := by
  obtain ⟨el, hel, rfl⟩ := mem_listElections h
  refine ⟨⟨el, hel, rfl, rfl, rfl⟩, ?_, ?_⟩
  · intro h0
    simp only [electionListRow] at h0
    simp [electionListRow, participationRate, nullif, h0]
  · intro hpos
    simp only [electionListRow] at hpos
    have hne : el.total_voters ≠ 0 := Nat.pos_iff_ne_zero.mp hpos
    have hrate : (electionListRow s el).participation_rate
        = some (decimalPercent (distinctVoters s el.id) el.total_voters) := by
      simp [electionListRow, participationRate, nullif, hne]
    exact ⟨hrate, _, hrate, decimalPercent_close _ _ hpos⟩

theorem participation_rate_zero_safe_witness :
    (listElections (fun _ => 0) oneOfThreeStore).map
        (fun row => (row.total_voters, row.votes_cast, row.participation_rate))
      = [(3, 1, some (333333 / 10000))] ∧
    (electionListRow oneOfThreeStore ⟨1, "E1", .active, 3, 1⟩).participation_rate
      = some (decimalPercent
          (electionListRow oneOfThreeStore ⟨1, "E1", .active, 3, 1⟩).votes_cast
          (electionListRow oneOfThreeStore ⟨1, "E1", .active, 3, 1⟩).total_voters) :=
  ⟨by
    have hd : distinctVoters oneOfThreeStore 1 = 1 := by rfl
    have hl : listElections (fun _ => 0) oneOfThreeStore
        = [electionListRow oneOfThreeStore ⟨1, "E1", .active, 3, 1⟩] := rfl
    rw [hl]
    simp only [List.map_cons, List.map_nil, electionListRow, participationRate, nullif, hd]
    norm_num [decimalPercent],
   ((participation_rate_zero_safe (fun _ => 0) oneOfThreeStore
      (electionListRow oneOfThreeStore ⟨1, "E1", .active, 3, 1⟩)
      (List.mem_map_of_mem _ (by decide))).2.2 (by decide)).1⟩

/-! ## Rows of the results query -/

theorem resultsJoin_perm (s : Store) (e : Nat) : (resultsJoin s e).Perm (joinRows s e) :=
  List.perm_insertionSort _ _

theorem resultsJoin_sorted (s : Store) (e : Nat) : (resultsJoin s e).Sorted resultOrder :=
  List.sorted_insertionSort _ _

theorem mem_joinRows (s : Store) (e : Nat) (r : Position × Candidate) :
    r ∈ joinRows s e ↔
      r.1 ∈ s.positions ∧ r.1.election_id = e ∧ r.2 ∈ s.candidates ∧ r.2.position_id = r.1.id := by
  obtain ⟨p, c⟩ := r
  simp only [joinRows, List.mem_flatMap, List.mem_filter, List.mem_map, decide_eq_true_eq,
    Prod.mk.injEq]
  constructor
  · rintro ⟨q, ⟨hq, hqe⟩, d, ⟨hd, hqd⟩, rfl, rfl⟩
    exact ⟨hq, hqe, hd, hqd.symm⟩
  · rintro ⟨hp, hpe, hc, hcp⟩
    exact ⟨p, ⟨hp, hpe⟩, c, ⟨hc, hcp.symm⟩, rfl, rfl⟩

theorem flatMap_filter_position (g : Position → List (Position × Candidate))
    (hg : ∀ q, ∀ r ∈ g q, r.1 = q) :
    ∀ (ps : List Position), (ps.map Position.id).Nodup → ∀ p ∈ ps,
      (ps.flatMap g).filter (fun r => decide (r.1.id = p.id)) = g p
  | [], _, p, hp => by simp at hp
  | q :: qs, hnd, p, hp => by
    simp only [List.map_cons, List.nodup_cons, List.mem_map, not_exists, not_and] at hnd
    obtain ⟨hq, hqs⟩ := hnd
    simp only [List.flatMap_cons, List.filter_append]
    rcases List.mem_cons.mp hp with rfl | hpq
    · have h1 : (g p).filter (fun r => decide (r.1.id = p.id)) = g p := by
        rw [List.filter_eq_self]
        intro r hr
        simp [hg p r hr]
      have h2 : (qs.flatMap g).filter (fun r => decide (r.1.id = p.id)) = [] := by
        rw [List.filter_eq_nil_iff]
        intro r hr
        obtain ⟨q2, hq2, hr2⟩ := List.mem_flatMap.mp hr
        simp only [decide_eq_true_eq, hg q2 r hr2]
        exact hq q2 hq2
      rw [h1, h2, List.append_nil]
    · have h1 : (g q).filter (fun r => decide (r.1.id = p.id)) = [] := by
        rw [List.filter_eq_nil_iff]
        intro r hr
        simp only [decide_eq_true_eq, hg q r hr]
        exact fun h => hq p hpq h.symm
      rw [h1, List.nil_append]
      exact flatMap_filter_position g hg qs hqs p hpq

theorem joinRows_filter_position (s : Store) (e : Nat) (p : Position)
    (hnd : (s.positions.map Position.id).Nodup) (hp : p ∈ s.positions)
    (hpe : p.election_id = e) :
    (joinRows s e).filter (fun r => decide (r.1.id = p.id))
      = (s.candidates.filter (fun c => decide (p.id = c.position_id))).map (fun c => (p, c)) := by
  unfold joinRows
  apply flatMap_filter_position
    (fun p => (s.candidates.filter (fun c => decide (p.id = c.position_id))).map (fun c => (p, c)))
  · intro q r hr
    simp only [List.mem_map] at hr
    obtain ⟨c, _, rfl⟩ := hr
    rfl
  · exact (List.filter_sublist _).map Position.id |>.nodup hnd
  · exact List.mem_filter.mpr ⟨hp, by simp [hpe]⟩

theorem partitionVotes_joinRows (s : Store) (e : Nat) (p : Position)
    (hnd : (s.positions.map Position.id).Nodup) (hp : p ∈ s.positions)
    (hpe : p.election_id = e) :
    partitionVotes (joinRows s e) p.id = positionTotal s p.id := by
  unfold partitionVotes positionTotal
  rw [joinRows_filter_position s e p hnd hp hpe, List.map_map]
  have hf : (fun c : Candidate => decide (p.id = c.position_id))
      = fun c => decide (c.position_id = p.id) := by
    funext c
    simp only [eq_comm]
  rw [hf]
  rfl

theorem partitionVotes_resultsJoin (s : Store) (e pid : Nat) :
    partitionVotes (resultsJoin s e) pid = partitionVotes (joinRows s e) pid := by
  unfold partitionVotes
  exact (((resultsJoin_perm s e).filter _).map _).sum_eq

theorem sum_percentages (rows : List (Position × Candidate)) (total : ℚ) :
    (rows.map (fun r => (r.2.votes : ℚ) / total * 100)).sum
      = (((rows.map (fun r => r.2.votes)).sum : Nat) : ℚ) / total * 100 := by
  induction rows with
  | nil => simp
  | cons r rest ih =>
    simp only [List.map_cons, List.sum_cons, ih, Nat.cast_add]
    ring


theorem zip_map_self {α β : Type} (f : α → β) :
    ∀ l : List α, l.zip (l.map f) = l.map (fun a => (a, f a))
  | [] => rfl
  | a :: l => by simp [zip_map_self f l]

theorem abs_sum_sub_le (rows : List (Position × Candidate)) (f g : Position × Candidate → ℚ)
    (ε : ℚ) (h : ∀ r ∈ rows, |f r - g r| ≤ ε) :
    |(rows.map f).sum - (rows.map g).sum| ≤ (rows.length : ℚ) * ε := by
  induction rows with
  | nil => simp
  | cons r rest ih =>
    have h1 := h r (List.mem_cons_self _ _)
    have h2 := ih (fun x hx => h x (List.mem_cons_of_mem _ hx))
    simp only [List.map_cons, List.sum_cons, List.length_cons, Nat.cast_add, Nat.cast_one]
    have h3 : f r + (rest.map f).sum - (g r + (rest.map g).sum)
        = (f r - g r) + ((rest.map f).sum - (rest.map g).sum) := by ring
    rw [h3]
    calc |f r - g r + ((rest.map f).sum - (rest.map g).sum)|
        ≤ |f r - g r| + |(rest.map f).sum - (rest.map g).sum| := abs_add _ _
      _ ≤ ε + (rest.length : ℚ) * ε := add_le_add h1 h2
      _ = ((rest.length : ℚ) + 1) * ε := by ring

/-- The rows of the response are the rows of the sorted join, each with the columns
of the `SELECT` list. -/
theorem zip_getResults (s : Store) (e : Nat) :
    (resultsJoin s e).zip (getResults s e)
      = (resultsJoin s e).map (fun r => (r, resultRow (joinRows s e) r)) :=
  zip_map_self _ _

/-- C11, as stated, fails: the three candidates of `threeWayStore` have one vote
each; the query returns 33.3333 for each of them, which is not 1/3 * 100, and the
three percentages sum to 99.9999. -/
theorem equal_thirds_sum_below_100 :
    (getResults threeWayStore 1).map ResultRow.percentage
      = [some (333333 / 10000), some (333333 / 10000), some (333333 / 10000)] ∧
    ((getResults threeWayStore 1).map (fun row => row.percentage.getD 0)).sum
      = 999999 / 10000 ∧
    ((1 : ℚ) / 3 * 100 ≠ 333333 / 10000) := by
  have hj : resultsJoin threeWayStore 1
      = [(⟨1, 1, "President", 1, 1⟩, ⟨1, 1, "A", "", 1⟩),
         (⟨1, 1, "President", 1, 1⟩, ⟨2, 1, "B", "", 1⟩),
         (⟨1, 1, "President", 1, 1⟩, ⟨3, 1, "C", "", 1⟩)] := by decide
  have ht : partitionVotes (joinRows threeWayStore 1) 1 = 3 := by decide
  have hp : decimalPercent 1 3 = 333333 / 10000 := by norm_num [decimalPercent]
  have hr : (getResults threeWayStore 1).map ResultRow.percentage
      = [some (333333 / 10000), some (333333 / 10000), some (333333 / 10000)] := by
    simp only [getResults, hj, List.map_cons, List.map_nil, resultRow, percentage, ht, nullif,
      Nat.succ_ne_zero, if_false, Option.map_some', hp]
  refine ⟨hr, ?_, by norm_num⟩
  have hm : (getResults threeWayStore 1).map (fun row => row.percentage.getD 0)
      = ((getResults threeWayStore 1).map ResultRow.percentage).map (fun x => x.getD 0) := by
    rw [List.map_map]
    rfl
  rw [hm, hr]
  norm_num

/-- C11, amended. For every position of the election whose candidates' votes sum to
at least 1 (position ids being a primary key), the query returns one row per row of
the sorted join, and each row returned for a candidate of the position carries the
candidate's votes and, as percentage, the DECIMAL value of
`candidateVotes / positionTotal * 100`, never NULL and within 0.0000501 of the
exact quotient times 100; the percentages returned for the position sum to 100 up
to 0.0000501 per row. -/
theorem percentages_within_rounding (s : Store) (e : Nat) (p : Position)
    (hnd : (s.positions.map Position.id).Nodup) (hp : p ∈ s.positions)
    (hpe : p.election_id = e) (ht : 1 ≤ positionTotal s p.id) :
    (getResults s e).length = (resultsJoin s e).length ∧
    (∀ x ∈ (resultsJoin s e).zip (getResults s e), x.1.1.id = p.id →
      x.2.vote_count = x.1.2.votes ∧
      x.2.percentage = some (decimalPercent x.1.2.votes (positionTotal s p.id)) ∧
      |decimalPercent x.1.2.votes (positionTotal s p.id)
        - (x.1.2.votes : ℚ) / (positionTotal s p.id : ℚ) * 100| ≤ 501 / 10 ^ 7) ∧
    |((((resultsJoin s e).zip (getResults s e)).filter
          (fun x => decide (x.1.1.id = p.id))).map (fun x => x.2.percentage.getD 0)).sum - 100|
      ≤ ((((resultsJoin s e).zip (getResults s e)).filter
          (fun x => decide (x.1.1.id = p.id))).length : ℚ) * (501 / 10 ^ 7) := by
  have hT := partitionVotes_joinRows s e p hnd hp hpe
  have hne : positionTotal s p.id ≠ 0 := by omega
  have hpos : 0 < positionTotal s p.id := by omega
  have hrow : ∀ r : Position × Candidate, r.1.id = p.id →
      (resultRow (joinRows s e) r).percentage
        = some (decimalPercent r.2.votes (positionTotal s p.id)) := by
    intro r hr
    simp [resultRow, percentage, nullif, hr, hT, hne]
  refine ⟨by simp [getResults], ?_, ?_⟩
  · intro x hx hid
    rw [zip_getResults, List.mem_map] at hx
    obtain ⟨r, _, rfl⟩ := hx
    exact ⟨rfl, hrow r hid, decimalPercent_close _ _ hpos⟩
  · rw [zip_getResults, List.filter_map, List.map_map, List.length_map]
    have hfun : ((fun x : (Position × Candidate) × ResultRow => decide (x.1.1.id = p.id)) ∘
        fun r => (r, resultRow (joinRows s e) r)) = fun r => decide (r.1.id = p.id) := rfl
    rw [hfun]
    have hsum : (((resultsJoin s e).filter (fun r => decide (r.1.id = p.id))).map
        (fun r => r.2.votes)).sum = positionTotal s p.id := by
      rw [← hT, ← partitionVotes_resultsJoin]
      rfl
    have hq : (positionTotal s p.id : ℚ) ≠ 0 := by exact_mod_cast hne
    have hexact : (((resultsJoin s e).filter (fun r => decide (r.1.id = p.id))).map
        (fun r => (r.2.votes : ℚ) / (positionTotal s p.id : ℚ) * 100)).sum = 100 := by
      rw [sum_percentages, hsum]
      field_simp
    have hmap : ((resultsJoin s e).filter (fun r => decide (r.1.id = p.id))).map
        ((fun x : (Position × Candidate) × ResultRow => x.2.percentage.getD 0) ∘
          fun r => (r, resultRow (joinRows s e) r))
        = ((resultsJoin s e).filter (fun r => decide (r.1.id = p.id))).map
            (fun r => decimalPercent r.2.votes (positionTotal s p.id)) := by
      apply List.map_congr_left
      intro r hr
      simp only [List.mem_filter, decide_eq_true_eq] at hr
      simp only [Function.comp, hrow r hr.2, Option.getD_some]
    rw [hmap, ← hexact]
    apply abs_sum_sub_le
    intro r _
    exact decimalPercent_close _ _ hpos

theorem percentages_within_rounding_witness :
    (talliedStore.positions.map Position.id).Nodup ∧
    1 ≤ positionTotal talliedStore 1 ∧
    (getResults talliedStore 1).map ResultRow.percentage
      = [some (666667 / 10000), some (333333 / 10000)] ∧
    |((((resultsJoin talliedStore 1).zip (getResults talliedStore 1)).filter
          (fun x => decide (x.1.1.id = 1))).map (fun x => x.2.percentage.getD 0)).sum - 100|
      ≤ ((((resultsJoin talliedStore 1).zip (getResults talliedStore 1)).filter
          (fun x => decide (x.1.1.id = 1))).length : ℚ) * (501 / 10 ^ 7) := by
  have hj : resultsJoin talliedStore 1
      = [(⟨1, 1, "President", 1, 1⟩, ⟨1, 1, "A", "", 2⟩),
         (⟨1, 1, "President", 1, 1⟩, ⟨2, 1, "B", "", 1⟩)] := by decide
  have ht : partitionVotes (joinRows talliedStore 1) 1 = 3 := by decide
  have h1 : decimalPercent 1 3 = 333333 / 10000 := by norm_num [decimalPercent]
  have h2 : decimalPercent 2 3 = 666667 / 10000 := by norm_num [decimalPercent]
  refine ⟨by decide, by decide, ?_,
    (percentages_within_rounding talliedStore 1 ⟨1, 1, "President", 1, 1⟩
      (by decide) (by decide) rfl (by decide)).2.2⟩
  simp only [getResults, hj, List.map_cons, List.map_nil, resultRow, percentage, ht, nullif,
    Nat.succ_ne_zero, if_false, Option.map_some', h1, h2]


theorem joinRows_nodup (s : Store) (e : Nat)
    (hp : (s.positions.map Position.id).Nodup) (hc : (s.candidates.map Candidate.id).Nodup) :
    (joinRows s e).Nodup := by
  unfold joinRows
  rw [List.nodup_flatMap]
  constructor
  · intro p _
    apply List.Nodup.map
    · intro a b hab
      exact (Prod.mk.inj hab).2
    · exact (List.Nodup.of_map _ hc).filter _
  · have hpos : (s.positions.filter (fun p => decide (p.election_id = e))).Nodup :=
      (List.Nodup.of_map _ hp).filter _
    refine List.Pairwise.imp ?_ hpos
    intro a b hab
    simp only [Function.onFun]
    rw [List.disjoint_left]
    intro r hra hrb
    simp only [List.mem_map] at hra hrb
    obtain ⟨_, _, rfl⟩ := hra
    obtain ⟨_, _, h2⟩ := hrb
    exact hab (Prod.mk.inj h2).1.symm

theorem eq_singleton_of_nodup {α : Type} {l : List α} {a : α} (hnd : l.Nodup)
    (hall : ∀ x ∈ l, x = a) (hmem : a ∈ l) : l = [a] := by
  cases l with
  | nil => simp at hmem
  | cons x xs =>
    have hx : x = a := hall x (List.mem_cons_self _ _)
    subst hx
    cases xs with
    | nil => rfl
    | cons y ys =>
      have hy : y = x := hall y (List.mem_cons_of_mem _ (List.mem_cons_self _ _))
      subst hy
      simp at hnd

/-- C13. For every election (ids being primary keys of `positions` and of
`candidates`), the query returns one row per pair of a position of that election
with a candidate of that position, carrying the title of the position and the name,
party and votes of the candidate; a candidate whose position belongs to the
election has exactly one row and every other candidate none; rows of one position
are contiguous; and within a position the rows returned are in non-increasing
order of `vote_count`. -/
theorem results_cover_and_order (s : Store) (e : Nat)
    (hp : (s.positions.map Position.id).Nodup) (hc : (s.candidates.map Candidate.id).Nodup) :
    (getResults s e).map
        (fun row => (row.position, row.candidate_name, row.candidate_party, row.vote_count))
      = (resultsJoin s e).map (fun r => (r.1.title, r.2.name, r.2.party, r.2.votes)) ∧
    (∀ r, r ∈ resultsJoin s e ↔
      r.1 ∈ s.positions ∧ r.1.election_id = e ∧ r.2 ∈ s.candidates ∧ r.2.position_id = r.1.id) ∧
    (∀ c ∈ s.candidates, (∃ p ∈ s.positions, p.id = c.position_id ∧ p.election_id = e) →
      (resultsJoin s e).countP (fun r => decide (r.2 = c)) = 1) ∧
    (∀ c, (¬ ∃ p ∈ s.positions, p.id = c.position_id ∧ p.election_id = e) →
      (resultsJoin s e).countP (fun r => decide (r.2 = c)) = 0) ∧
    (∀ (i j k : Nat) (a b c : Position × Candidate), i < j → j < k →
      (resultsJoin s e)[i]? = some a → (resultsJoin s e)[j]? = some b →
      (resultsJoin s e)[k]? = some c → a.1.id = c.1.id → b.1.id = a.1.id) ∧
    (∀ (i j : Nat) (a b : Position × Candidate) (rowA rowB : ResultRow), i < j →
      (resultsJoin s e)[i]? = some a → (resultsJoin s e)[j]? = some b →
      (getResults s e)[i]? = some rowA → (getResults s e)[j]? = some rowB →
      a.1.id = b.1.id → rowB.vote_count ≤ rowA.vote_count) := by
  have hperm := resultsJoin_perm s e
  have hmem : ∀ r, r ∈ resultsJoin s e ↔
      r.1 ∈ s.positions ∧ r.1.election_id = e ∧ r.2 ∈ s.candidates ∧ r.2.position_id = r.1.id :=
    fun r => (hperm.mem_iff).trans (mem_joinRows s e r)
  have hord : ∀ (i j : Nat) (a b : Position × Candidate), i < j →
      (resultsJoin s e)[i]? = some a → (resultsJoin s e)[j]? = some b → resultOrder a b := by
    intro i j a b hij ha hb
    obtain ⟨hi, rfl⟩ := List.getElem?_eq_some_iff.mp ha
    obtain ⟨hj, rfl⟩ := List.getElem?_eq_some_iff.mp hb
    exact List.pairwise_iff_getElem.mp (resultsJoin_sorted s e) i j hi hj hij
  refine ⟨by simp [getResults, resultRow], hmem, ?_, ?_, ?_, ?_⟩
  · rintro c hcm ⟨p, hpm, hpc, hpe⟩
    rw [List.countP_eq_length_filter]
    have hnd : ((resultsJoin s e).filter (fun r => decide (r.2 = c))).Nodup :=
      ((hperm.nodup_iff).mpr (joinRows_nodup s e hp hc)).filter _
    have hall : ∀ x ∈ (resultsJoin s e).filter (fun r => decide (r.2 = c)), x = (p, c) := by
      intro x hx
      simp only [List.mem_filter, decide_eq_true_eq] at hx
      obtain ⟨hx1, hx2⟩ := hx
      obtain ⟨h1, _, _, h4⟩ := (hmem x).mp hx1
      have hid : x.1.id = p.id := by rw [← h4, hx2, hpc]
      have hxp : x.1 = p := List.inj_on_of_nodup_map hp h1 hpm hid
      exact Prod.ext hxp hx2
    have hin : (p, c) ∈ (resultsJoin s e).filter (fun r => decide (r.2 = c)) := by
      simp only [List.mem_filter, decide_eq_true_eq, and_true]
      exact (hmem (p, c)).mpr ⟨hpm, hpe, hcm, hpc.symm⟩
    rw [eq_singleton_of_nodup hnd hall hin]
    rfl
  · intro c hno
    rw [List.countP_eq_zero]
    intro r hr
    simp only [decide_eq_true_eq]
    rintro rfl
    obtain ⟨h1, h2, _, h4⟩ := (hmem r).mp hr
    exact hno ⟨r.1, h1, h4.symm, h2⟩
  · intro i j k a b c hij hjk ha hb hc2 hac
    have h1 := hord i j a b hij ha hb
    have h2 := hord j k b c hjk hb hc2
    unfold resultOrder at h1 h2
    omega
  · intro i j a b rowA rowB hij ha hb hra hrb hab
    have h1 := hord i j a b hij ha hb
    simp only [getResults, List.getElem?_map, ha, hb, Option.map_some',
      Option.some.injEq] at hra hrb
    subst hra hrb
    unfold resultOrder at h1
    simp only [resultRow]
    omega

theorem results_cover_and_order_witness :
    (talliedStore.positions.map Position.id).Nodup ∧
    (talliedStore.candidates.map Candidate.id).Nodup ∧
    (getResults talliedStore 1).map
        (fun row => (row.position, row.candidate_name, row.candidate_party, row.vote_count))
      = [("President", "A", "", 2), ("President", "B", "", 1)] ∧
    (resultsJoin talliedStore 1).countP
      (fun r => decide (r.2 = (⟨2, 1, "B", "", 1⟩ : Candidate))) = 1 :=
  ⟨by decide, by decide,
   (results_cover_and_order talliedStore 1 (by decide) (by decide)).1.trans (by decide),
   (results_cover_and_order talliedStore 1 (by decide) (by decide)).2.2.1
     ⟨2, 1, "B", "", 1⟩ (by decide) ⟨⟨1, 1, "President", 1, 1⟩, by decide, rfl, rfl⟩⟩

/-! ## What the client makes of a rejected vote -/

theorem shouldUseFallback_cast : shouldUseFallback "/votes/cast" = true := by decide

theorem getMockResponse_cast (method : String) :
    getMockResponse "/votes/cast" method = ⟨true, "Vote cast successfully"⟩ := by
  have h1 : startsWith "/votes/cast" "/auth/register" = false := by decide
  have h2 : startsWith "/votes/cast" "/auth/login" = false := by decide
  have h3 : startsWith "/votes/cast" "/auth/verify-face" = false := by decide
  have h4 : startsWith "/votes/cast" "/elections" = false := by decide
  have h5 : startsWith "/votes/cast" "/votes/cast" = true := by decide
  simp [getMockResponse, h1, h2, h3, h4, h5]

/-- Whenever the server answers `POST /votes/cast` with a status outside 200-299,
`ApiService.castVote` resolves to the mock success of the fallback. -/
theorem apiCastVote_of_rejection (useFallback : Bool) (status : Nat) (json : Bool)
    (body : Option ApiResult) (h : responseOk status = false) :
    apiCastVote useFallback (.response status json body)
      = .ok ⟨true, "Vote cast successfully"⟩ := by
  cases useFallback <;>
    simp [apiCastVote, request, requestAttempt, h, shouldUseFallback_cast, getMockResponse_cast]

/-- C17 at its failing input: voter V1 has voted, the server answers the second
`POST /votes/cast` of V1 with status 400, and `ApiService.castVote` nevertheless
resolves to a result with `success = true`. -/
theorem rejected_vote_reported_as_success :
    (castVote talliedStore "V1" 1 [⟨1, 2⟩]).1
      = .error 400 "You have already voted in this election" ∧
    apiCastVote false (fetchOfResponse (castVote talliedStore "V1" 1 [⟨1, 2⟩]).1)
      = .ok ⟨true, "Vote cast successfully"⟩ ∧
    apiCastVote false (.response 500 true (some ⟨false, ""⟩))
      = .ok ⟨true, "Vote cast successfully"⟩ :=
  ⟨by decide, apiCastVote_of_rejection false 400 true _ (by decide),
   apiCastVote_of_rejection false 500 true _ (by decide)⟩

/-! ## Calls of different voters -/

theorem insertVote_sameChecks {u : String} {s t : Store} (h : SameChecks u s t) (row : Vote)
    (hrow : row.user_id = u) :
    insertVote t row =
      match insertVote s row with
      | .ok _ => .ok { t with votes := t.votes ++ [row] }
      | .error err => .error err := by
  unfold insertVote
  rw [h.1 row, h.2 row hrow]
  cases foreignKeysOk s row <;> cases uniqueVoteTaken s row <;> rfl

theorem sameChecks_step {u : String} {s t : Store} (h : SameChecks u s t) (row : Vote)
    (cid : Nat) :
    SameChecks u (updateCandidateVotes { s with votes := s.votes ++ [row] } cid)
      (updateCandidateVotes { t with votes := t.votes ++ [row] } cid) := by
  constructor
  · intro r
    rw [foreignKeysOk_step, foreignKeysOk_step, h.1]
  · intro r hr
    rw [uniqueVoteTaken_step, uniqueVoteTaken_step, h.2 r hr]

theorem recordVotes_sameChecks (u : String) (e : Nat) :
    ∀ (vs : List Selection) (s t : Store), SameChecks u s t →
      (∀ s1, recordVotes u e s vs = .ok s1 →
        recordVotes u e t vs = .ok (applySelections u e t vs)) ∧
      (∀ err s1, recordVotes u e s vs = .error (err, s1) →
        ∃ l, s1 = applySelections u e s l ∧
          recordVotes u e t vs = .error (err, applySelections u e t l))
  | [], s, t, _ => by
    constructor
    · intro s1 _
      simp [recordVotes, applySelections_nil]
    · intro err s1 h
      simp [recordVotes] at h
  | v :: rest, s, t, hst => by
    have hins := insertVote_sameChecks hst (ballotRow u e v) rfl
    cases hi : insertVote s (ballotRow u e v) with
    | error err0 =>
      rw [hi] at hins
      constructor
      · intro s1 h
        simp [recordVotes, hi] at h
      · intro err s1 h
        simp only [recordVotes, hi, Except.error.injEq, Prod.mk.injEq] at h
        obtain ⟨rfl, rfl⟩ := h
        refine ⟨[], by rw [applySelections_nil], ?_⟩
        simp only [recordVotes, hins, applySelections_nil]
    | ok s2 =>
      rw [hi] at hins
      have h2 := insertVote_ok_eq hi
      subst h2
      have ih := recordVotes_sameChecks u e rest _ _
        (sameChecks_step hst (ballotRow u e v) v.candidateId)
      constructor
      · intro s1 h
        simp only [recordVotes, hi] at h
        simp only [recordVotes, hins]
        rw [ih.1 s1 h, applySelections_step]
      · intro err s1 h
        simp only [recordVotes, hi] at h
        obtain ⟨l, hl1, hl2⟩ := ih.2 err s1 h
        refine ⟨v :: l, ?_, ?_⟩
        · rw [hl1, applySelections_step]
        · simp only [recordVotes, hins]
          rw [hl2, applySelections_step]

theorem castVote_sameChecks (s t : Store) (u : String) (e : Nat) (vs : List Selection)
    (hst : SameChecks u s t) (hsel : selectVotes t u e = selectVotes s u e) :
    ∃ counted l,
      castVote s u e vs = ((castVote s u e vs).1, commitCall counted u e l s) ∧
      castVote t u e vs = ((castVote s u e vs).1, commitCall counted u e l t) := by
  by_cases h : 0 < (selectVotes s u e).length
  · refine ⟨false, [], ?_, ?_⟩
    · rw [castVote_of_existing s u e vs h]
      simp [commitCall, applySelections_nil]
    · rw [castVote_of_existing s u e vs h, castVote_of_existing t u e vs (by rw [hsel]; exact h)]
      simp [commitCall, applySelections_nil]
  · have ht : ¬ 0 < (selectVotes t u e).length := by rw [hsel]; exact h
    have hrec := recordVotes_sameChecks u e vs s t hst
    cases hr : recordVotes u e s vs with
    | error p =>
      obtain ⟨err, s1⟩ := p
      obtain ⟨l, hl1, hl2⟩ := hrec.2 err s1 hr
      refine ⟨false, l, ?_, ?_⟩
      · rw [castVote_of_error s s1 u e vs err h hr, hl1]
        simp [commitCall]
      · rw [castVote_of_error s s1 u e vs err h hr, castVote_of_error t _ u e vs err ht hl2]
        simp [commitCall]
    | ok s1 =>
      have hl2 := hrec.1 s1 hr
      refine ⟨true, vs, ?_, ?_⟩
      · rw [castVote_of_ok s s1 u e vs h hr]
        simp [commitCall]
      · rw [castVote_of_ok s s1 u e vs h hr, castVote_of_ok t _ u e vs ht hl2]
        simp [commitCall]


theorem foreignKeysOk_commitCall (b : Bool) (u1 : String) (e1 : Nat) (l : List Selection)
    (s : Store) (row : Vote) :
    foreignKeysOk (commitCall b u1 e1 l s) row = foreignKeysOk s row := by
  have hu : ((fun u : User => decide (u.id = row.user_id)) ∘
      fun u => if u.id = u1 then { u with has_voted := true } else u)
      = fun u => decide (u.id = row.user_id) := by
    funext u; simp only [Function.comp]; split <;> rfl
  have he : ((fun el : Election => decide (el.id = row.election_id)) ∘
      fun el => if el.id = e1 then { el with votes_cast := el.votes_cast + 1 } else el)
      = fun el => decide (el.id = row.election_id) := by
    funext el; simp only [Function.comp]; split <;> rfl
  have hc : ((fun c : Candidate => decide (c.id = row.candidate_id)) ∘
      fun c : Candidate =>
        { c with votes := c.votes + l.countP (fun v => decide (v.candidateId = c.id)) })
      = fun c => decide (c.id = row.candidate_id) := by
    funext c; rfl
  cases b <;>
    simp only [commitCall, foreignKeysOk, applySelections, updateUserHasVoted,
      updateElectionVotesCast, List.any_map, hu, he, hc, if_true, if_false,
      Bool.false_eq_true]

theorem sameChecks_commitCall (b : Bool) (u u1 : String) (e1 : Nat) (l : List Selection)
    (s : Store) (h : u1 ≠ u) : SameChecks u s (commitCall b u1 e1 l s) := by
  constructor
  · intro row
    exact foreignKeysOk_commitCall b u1 e1 l s row
  · intro row hrow
    have hnew : (l.map (ballotRow u1 e1)).any (fun v => decide (v.user_id = row.user_id) &&
        decide (v.election_id = row.election_id) && decide (v.position_id = row.position_id))
          = false := by
      rw [List.any_eq_false]
      intro v hv
      simp only [List.mem_map] at hv
      obtain ⟨w, _, rfl⟩ := hv
      simp [ballotRow, hrow, h]
    cases b <;>
      simp [commitCall, uniqueVoteTaken, applySelections, updateUserHasVoted,
        updateElectionVotesCast, List.any_append, hnew]

theorem selectVotes_commitCall (b : Bool) (u u1 : String) (e e1 : Nat) (l : List Selection)
    (s : Store) (h : u1 ≠ u) : selectVotes (commitCall b u1 e1 l s) u e = selectVotes s u e := by
  have hnew : (l.map (ballotRow u1 e1)).filter
      (fun v => decide (v.user_id = u) && decide (v.election_id = e)) = [] := by
    rw [List.filter_eq_nil_iff]
    intro v hv
    simp only [List.mem_map] at hv
    obtain ⟨w, _, rfl⟩ := hv
    simp [ballotRow, h]
  cases b <;>
    simp [commitCall, selectVotes, applySelections, updateUserHasVoted,
      updateElectionVotesCast, List.filter_append, hnew]

theorem bumpVotesCast_comm (e1 e2 : Nat) (el : Election) :
    (fun x : Election => if x.id = e2 then { x with votes_cast := x.votes_cast + 1 } else x)
        ((fun x : Election => if x.id = e1 then { x with votes_cast := x.votes_cast + 1 } else x)
          el)
      = (fun x : Election =>
          if x.id = e1 then { x with votes_cast := x.votes_cast + 1 } else x)
        ((fun x : Election => if x.id = e2 then { x with votes_cast := x.votes_cast + 1 } else x)
          el) := by
  by_cases h1 : el.id = e1 <;> by_cases h2 : el.id = e2
  · simp only [if_pos h1, if_pos h2]
  · simp only [if_pos h1, if_neg h2]
  · simp only [if_neg h1, if_pos h2]
  · simp only [if_neg h1, if_neg h2]

theorem setHasVoted_comm (u1 u2 : String) (usr : User) :
    (fun x : User => if x.id = u2 then { x with has_voted := true } else x)
        ((fun x : User => if x.id = u1 then { x with has_voted := true } else x) usr)
      = (fun x : User => if x.id = u1 then { x with has_voted := true } else x)
        ((fun x : User => if x.id = u2 then { x with has_voted := true } else x) usr) := by
  by_cases h1 : usr.id = u1 <;> by_cases h2 : usr.id = u2
  · simp only [if_pos h1, if_pos h2]
  · simp only [if_pos h1, if_neg h2]
  · simp only [if_neg h1, if_pos h2]
  · simp only [if_neg h1, if_neg h2]

theorem commitCall_comm (b1 b2 : Bool) (u1 u2 : String) (e1 e2 : Nat) (l1 l2 : List Selection)
    (s : Store) :
    (commitCall b2 u2 e2 l2 (commitCall b1 u1 e1 l1 s)).candidates
      = (commitCall b1 u1 e1 l1 (commitCall b2 u2 e2 l2 s)).candidates ∧
    (commitCall b2 u2 e2 l2 (commitCall b1 u1 e1 l1 s)).elections
      = (commitCall b1 u1 e1 l1 (commitCall b2 u2 e2 l2 s)).elections ∧
    (commitCall b2 u2 e2 l2 (commitCall b1 u1 e1 l1 s)).users
      = (commitCall b1 u1 e1 l1 (commitCall b2 u2 e2 l2 s)).users ∧
    (commitCall b2 u2 e2 l2 (commitCall b1 u1 e1 l1 s)).positions
      = (commitCall b1 u1 e1 l1 (commitCall b2 u2 e2 l2 s)).positions ∧
    (commitCall b2 u2 e2 l2 (commitCall b1 u1 e1 l1 s)).votes.Perm
      (commitCall b1 u1 e1 l1 (commitCall b2 u2 e2 l2 s)).votes := by
  have hcand : ∀ c : Candidate,
      ({ ({ c with votes := c.votes + l1.countP (fun v => decide (v.candidateId = c.id)) }
            : Candidate) with
          votes := c.votes + l1.countP (fun v => decide (v.candidateId = c.id))
            + l2.countP (fun v => decide (v.candidateId = c.id)) } : Candidate)
        = { ({ c with votes := c.votes + l2.countP (fun v => decide (v.candidateId = c.id)) }
            : Candidate) with
          votes := c.votes + l2.countP (fun v => decide (v.candidateId = c.id))
            + l1.countP (fun v => decide (v.candidateId = c.id)) } := by
    intro c
    simp only [Candidate.mk.injEq, true_and]
    omega
  have hperm : (s.votes ++ l1.map (ballotRow u1 e1) ++ l2.map (ballotRow u2 e2)).Perm
      (s.votes ++ l2.map (ballotRow u2 e2) ++ l1.map (ballotRow u1 e1)) := by
    rw [List.append_assoc, List.append_assoc]
    exact List.Perm.append_left _ List.perm_append_comm
  refine ⟨?_, ?_, ?_, ?_, ?_⟩
  · cases b1 <;> cases b2 <;>
      simp only [commitCall, applySelections, updateUserHasVoted, updateElectionVotesCast,
        List.map_map, if_true, if_false, Bool.false_eq_true] <;>
      (apply List.map_congr_left; intro c _; exact hcand c)
  · cases b1 <;> cases b2 <;>
      simp only [commitCall, applySelections, updateUserHasVoted, updateElectionVotesCast,
        List.map_map, if_true, if_false, Bool.false_eq_true]
    apply List.map_congr_left
    intro el _
    exact bumpVotesCast_comm e1 e2 el
  · cases b1 <;> cases b2 <;>
      simp only [commitCall, applySelections, updateUserHasVoted, updateElectionVotesCast,
        List.map_map, if_true, if_false, Bool.false_eq_true]
    apply List.map_congr_left
    intro usr _
    exact setHasVoted_comm u1 u2 usr
  · cases b1 <;> cases b2 <;> rfl
  · cases b1 <;> cases b2 <;> exact hperm


/-- C18. For every store and every two `castVote` requests of different userIds,
each request gets the same answer whether or not the other one was served before
it, and serving them in either order leaves the same candidate rows, election
rows, user rows and position rows and the same ballot rows up to their order. -/
theorem votes_of_different_voters_independent (s : Store) (r1 r2 : CastRequest)
    (h : r1.userId ≠ r2.userId) :
    (castVote (castVote s r1.userId r1.electionId r1.votes).2
        r2.userId r2.electionId r2.votes).1
      = (castVote s r2.userId r2.electionId r2.votes).1 ∧
    (castVote (castVote s r2.userId r2.electionId r2.votes).2
        r1.userId r1.electionId r1.votes).1
      = (castVote s r1.userId r1.electionId r1.votes).1 ∧
    (runCasts s [r1, r2]).candidates = (runCasts s [r2, r1]).candidates ∧
    (runCasts s [r1, r2]).elections = (runCasts s [r2, r1]).elections ∧
    (runCasts s [r1, r2]).users = (runCasts s [r2, r1]).users ∧
    (runCasts s [r1, r2]).positions = (runCasts s [r2, r1]).positions ∧
    (runCasts s [r1, r2]).votes.Perm (runCasts s [r2, r1]).votes := by
  obtain ⟨u1, e1, vs1⟩ := r1
  obtain ⟨u2, e2, vs2⟩ := r2
  simp only at h
  simp only [runCasts]
  have refl1 : SameChecks u1 s s := ⟨fun _ => rfl, fun _ _ => rfl⟩
  have refl2 : SameChecks u2 s s := ⟨fun _ => rfl, fun _ _ => rfl⟩
  obtain ⟨c1, l1, hA1, _⟩ := castVote_sameChecks s s u1 e1 vs1 refl1 rfl
  obtain ⟨c2, l2, hA2, _⟩ := castVote_sameChecks s s u2 e2 vs2 refl2 rfl
  have hs1 : (castVote s u1 e1 vs1).2 = commitCall c1 u1 e1 l1 s := by rw [hA1]
  have hs2 : (castVote s u2 e2 vs2).2 = commitCall c2 u2 e2 l2 s := by rw [hA2]
  obtain ⟨d2, m2, hB2, hC2⟩ := castVote_sameChecks s (commitCall c1 u1 e1 l1 s) u2 e2 vs2
    (sameChecks_commitCall c1 u2 u1 e1 l1 s h) (selectVotes_commitCall c1 u2 u1 e2 e1 l1 s h)
  obtain ⟨d1, m1, hB1, hC1⟩ := castVote_sameChecks s (commitCall c2 u2 e2 l2 s) u1 e1 vs1
    (sameChecks_commitCall c2 u1 u2 e2 l2 s (Ne.symm h))
    (selectVotes_commitCall c2 u1 u2 e1 e2 l2 s (Ne.symm h))
  have hd1 : commitCall d1 u1 e1 m1 s = commitCall c1 u1 e1 l1 s := by
    rw [← hs1, hB1]
  have hd2 : commitCall d2 u2 e2 m2 s = commitCall c2 u2 e2 l2 s := by
    rw [← hs2, hB2]
  rw [hs1, hs2, hC2, hC1]
  have hcomm := commitCall_comm d1 d2 u1 u2 e1 e2 m1 m2 s
  rw [hd1, hd2] at hcomm
  exact ⟨rfl, rfl, hcomm⟩

theorem votes_of_different_voters_independent_witness :
    ("V1" : String) ≠ "V2" ∧
    (castVote (castVote scenarioStore "V1" 1 [⟨1, 1⟩]).2 "V2" 1 [⟨1, 2⟩]).1
      = (castVote scenarioStore "V2" 1 [⟨1, 2⟩]).1 ∧
    (runCasts scenarioStore [⟨"V1", 1, [⟨1, 1⟩]⟩, ⟨"V2", 1, [⟨1, 2⟩]⟩]).candidates
      = (runCasts scenarioStore [⟨"V2", 1, [⟨1, 2⟩]⟩, ⟨"V1", 1, [⟨1, 1⟩]⟩]).candidates :=
  ⟨by decide,
   (votes_of_different_voters_independent scenarioStore ⟨"V1", 1, [⟨1, 1⟩]⟩
      ⟨"V2", 1, [⟨1, 2⟩]⟩ (by decide)).1,
   (votes_of_different_voters_independent scenarioStore ⟨"V1", 1, [⟨1, 1⟩]⟩
      ⟨"V2", 1, [⟨1, 2⟩]⟩ (by decide)).2.2.1⟩

/-! ## Admin role hierarchy -/

/-- C30 at its failing input: the stored role `constructor` is none of the three
roles, and `hasAdminPermission` does not return false for it; the lookup finds the
member that `roleHierarchy` inherits under that name, and calling its missing
`includes` throws. -/
theorem hasAdminPermission_inherited_role_throws :
    roleRank "constructor" = none ∧
    hasAdminPermission (some ⟨"root", "constructor"⟩) "admin"
      = .error "TypeError: roleHierarchy[admin.role]?.includes is not a function" ∧
    hasAdminPermission (some ⟨"root", "constructor"⟩) "admin" ≠ .ok false :=
  ⟨by decide, rfl, fun h => by cases h⟩

/-- What `hasAdminPermission` does for every stored role.  For a role `r` and a
required role `q` among moderator, admin and super_admin it returns true exactly
when `q` is at or below `r` in the order moderator < admin < super_admin, and false
otherwise; it returns false when `r` is neither one of the three roles nor the name
of a member inherited from `Object.prototype`, and when no admin is stored; for a
role that is such a name it throws a TypeError. -/
theorem hasAdminPermission_by_role (admin : StoredAdmin) (q : String) :
    (∀ rq rr, roleRank q = some rq → roleRank admin.role = some rr →
      (hasAdminPermission (some admin) q = .ok true ↔ rq ≤ rr) ∧
      (hasAdminPermission (some admin) q = .ok false ↔ rr < rq)) ∧
    (roleRank admin.role = none → admin.role ∉ objectPrototypeKeys →
      hasAdminPermission (some admin) q = .ok false) ∧
    (admin.role ∈ objectPrototypeKeys →
      hasAdminPermission (some admin) q
        = .error "TypeError: roleHierarchy[admin.role]?.includes is not a function") ∧
    hasAdminPermission none q = .ok false := by
  refine ⟨?_, ?_, ?_, rfl⟩
  · intro rq rr hq hr
    unfold roleRank at hq hr
    unfold hasAdminPermission roleHierarchy
    split_ifs at hq hr with h1 h2 h3 h4 h5 h6 h7 h8 h9 <;>
      simp only [Option.some.injEq] at hq hr <;> subst hq hr <;> simp_all
  · intro hr hno
    unfold roleRank at hr
    unfold hasAdminPermission roleHierarchy
    split_ifs at hr with h1 h2 h3
    simp [h1, h2, h3, hno]
  · intro hin
    have hc : objectPrototypeKeys.contains admin.role = true := by
      simpa using hin
    have h1 : ¬ admin.role = "moderator" := by
      intro h; rw [h] at hc; revert hc; decide
    have h2 : ¬ admin.role = "admin" := by
      intro h; rw [h] at hc; revert hc; decide
    have h3 : ¬ admin.role = "super_admin" := by
      intro h; rw [h] at hc; revert hc; decide
    simp [hasAdminPermission, roleHierarchy, h1, h2, h3, hin]

theorem hasAdminPermission_by_role_witness :
    roleRank "admin" = some 1 ∧ roleRank "super_admin" = some 2 ∧
    (hasAdminPermission (some ⟨"root", "super_admin"⟩) "admin" = .ok true ↔ 1 ≤ 2) ∧
    (hasAdminPermission (some ⟨"mod", "moderator"⟩) "admin" = .ok false ↔ 0 < 1) ∧
    hasAdminPermission (some ⟨"guest", "viewer"⟩) "moderator" = .ok false ∧
    hasAdminPermission (some ⟨"root", "toString"⟩) "moderator"
      = .error "TypeError: roleHierarchy[admin.role]?.includes is not a function" :=
  ⟨by decide, by decide,
   ((hasAdminPermission_by_role ⟨"root", "super_admin"⟩ "admin").1 1 2
      (by decide) (by decide)).1,
   ((hasAdminPermission_by_role ⟨"mod", "moderator"⟩ "admin").1 1 0
      (by decide) (by decide)).2,
   (hasAdminPermission_by_role ⟨"guest", "viewer"⟩ "moderator").2.1 (by decide) (by decide),
   (hasAdminPermission_by_role ⟨"root", "toString"⟩ "moderator").2.2.1 (by decide)⟩

/-! ## Admin routes require a token -/

/-- C28. For every request to a route under the admin router: when the
Authorization header is missing or yields an empty token the answer is 401 and
the route handler is not called; when the token is not empty and its verification
fails the answer is 400 and the handler is not called; and the handler is called
exactly when the verification of a non-empty token succeeds, with `req.admin` set
to the decoded payload. -/
theorem adminRoute_requires_token {α : Type} (verify : String → Option α)
    (handler : α → Nat × String) (authorization : Option String) :
    ((bearerToken authorization = none ∨ bearerToken authorization = some "") →
      adminRoute verify handler authorization
        = ((401, "Access denied. No token provided."), false)) ∧
    (∀ token, bearerToken authorization = some token → token ≠ "" → verify token = none →
      adminRoute verify handler authorization = ((400, "Invalid token"), false)) ∧
    (∀ token decoded, bearerToken authorization = some token → token ≠ "" →
      verify token = some decoded →
        authenticateAdmin verify authorization = .next decoded ∧
        adminRoute verify handler authorization = (handler decoded, true)) ∧
    ((adminRoute verify handler authorization).2 = true ↔
      ∃ token decoded, bearerToken authorization = some token ∧ token ≠ "" ∧
        verify token = some decoded) := by
  unfold adminRoute authenticateAdmin
  cases hb : bearerToken authorization with
  | none => simp
  | some token =>
    by_cases ht : token = ""
    · simp only [ht, if_true]
      simp
      rintro t d rfl h
      exact absurd rfl h
    · cases hv : verify token with
      | none =>
        simp [ht, hv]
        rintro t d rfl _
        simp [hv]
      | some decoded =>
        simp [ht, hv]
        rintro t d rfl _ hd
        rw [hv] at hd
        cases hd
        exact ⟨rfl, rfl⟩

theorem adminRoute_requires_token_witness :
    bearerToken (some "Bearer ") = some "" ∧
    adminRoute (fun t => if t = "good" then some "root" else none)
        (fun admin => (200, admin)) (some "Bearer ")
      = ((401, "Access denied. No token provided."), false) ∧
    adminRoute (fun t => if t = "good" then some "root" else none)
        (fun admin => (200, admin)) (some "Bearer bad")
      = ((400, "Invalid token"), false) ∧
    adminRoute (fun t => if t = "good" then some "root" else none)
        (fun admin => (200, admin)) (some "Bearer good")
      = ((200, "root"), true) :=
  ⟨by decide,
   (adminRoute_requires_token _ _ (some "Bearer ")).1 (Or.inr (by decide)),
   (adminRoute_requires_token (fun t => if t = "good" then some "root" else none) _
      (some "Bearer bad")).2.1 "bad" (by decide) (by decide) (by decide),
   ((adminRoute_requires_token (fun t => if t = "good" then some "root" else none)
      (fun admin => (200, admin)) (some "Bearer good")).2.2.1 "good" "root"
      (by decide) (by decide) (by decide)).2⟩

/-! ## Duplicate registration -/

theorem selectExistingUser_length_pos_iff (users : List UserRow) (userId email : String) :
    0 < (selectExistingUser users userId email).length ↔
      ∃ u ∈ users, u.id = userId ∨ u.email = email := by
  simp only [selectExistingUser, List.length_pos, ne_eq, List.filter_eq_nil_iff,
    Bool.or_eq_true, decide_eq_true_eq, not_forall, Classical.not_not, exists_prop]

/-- C27. `POST /register` answers 400 "User already exists" exactly when the
`users` table already holds a row with the same id or the same email, and then it
inserts nothing; otherwise, when the store accepts the column values, it appends
exactly one row with the submitted id, name, email, dob and gender to the
unchanged existing rows and answers 201. -/
theorem registerUser_duplicate_iff (hash : String → String) (columnsOk : UserRow → Bool)
    (users : List UserRow) (req : RegisterRequest) :
    ((registerUser hash columnsOk users req).1.status = 400 ↔
      ∃ u ∈ users, u.id = req.userId ∨ u.email = req.email) ∧
    ((∃ u ∈ users, u.id = req.userId ∨ u.email = req.email) →
      registerUser hash columnsOk users req = (⟨400, false, "User already exists"⟩, users)) ∧
    ((¬ ∃ u ∈ users, u.id = req.userId ∨ u.email = req.email) →
      columnsOk ⟨req.userId, req.name, req.email, req.dob, req.gender, hash req.password,
        false⟩ = true →
      registerUser hash columnsOk users req =
        (⟨201, true, "User registered successfully"⟩,
         users ++ [⟨req.userId, req.name, req.email, req.dob, req.gender, hash req.password,
           false⟩])) := by
  rw [← selectExistingUser_length_pos_iff]
  by_cases h : 0 < (selectExistingUser users req.userId req.email).length
  · simp [registerUser, h]
  · have hany : users.any (fun u => decide (u.id = req.userId) || decide (u.email = req.email))
        = false := by
      rw [selectExistingUser_length_pos_iff] at h
      rw [List.any_eq_false]
      intro u hu
      simp only [Bool.or_eq_true, decide_eq_true_eq]
      exact fun hc => h ⟨u, hu, hc⟩
    refine ⟨?_, fun hc => absurd hc h, ?_⟩
    · simp only [registerUser, gt_iff_lt, h, if_false, insertUser, hany, iff_false]
      cases columnsOk _ <;> simp
    · intro _ hcol
      simp [registerUser, h, insertUser, hany, hcol]

theorem registerUser_duplicate_iff_witness :
    registerUser (fun p => p ++ "#") (fun _ => true)
        [⟨"VOTER1", "Ann", "ann@example.org", "2000-01-01", "female", "x#", false⟩]
        ⟨"VOTER2", "Bob", "ann@example.org", "secret", "1999-05-05", "male"⟩
      = (⟨400, false, "User already exists"⟩,
         [⟨"VOTER1", "Ann", "ann@example.org", "2000-01-01", "female", "x#", false⟩]) ∧
    registerUser (fun p => p ++ "#") (fun _ => true)
        [⟨"VOTER1", "Ann", "ann@example.org", "2000-01-01", "female", "x#", false⟩]
        ⟨"VOTER2", "Bob", "bob@example.org", "secret", "1999-05-05", "male"⟩
      = (⟨201, true, "User registered successfully"⟩,
         [⟨"VOTER1", "Ann", "ann@example.org", "2000-01-01", "female", "x#", false⟩] ++
          [⟨"VOTER2", "Bob", "bob@example.org", "1999-05-05", "male",
            (fun p => p ++ "#") "secret", false⟩]) :=
  ⟨(registerUser_duplicate_iff _ _ _ _).2.1 ⟨_, List.mem_cons_self _ _, Or.inr rfl⟩,
   (registerUser_duplicate_iff (fun p => p ++ "#") (fun _ => true)
      [⟨"VOTER1", "Ann", "ann@example.org", "2000-01-01", "female", "x#", false⟩]
      ⟨"VOTER2", "Bob", "bob@example.org", "secret", "1999-05-05", "male"⟩).2.2
      (by decide) rfl⟩

/-! ## Login lockout -/

theorem lookupAttempts_plain (attempts : LoginAttempts) (u : String) (hu : plainUserId u) :
    lookupAttempts attempts u =
      match attempts.stored u with
      | some record => .entry record
      | none => .missing := by
  obtain ⟨h1, h2⟩ := hu
  have h3 : ¬ u = "__proto__" := by
    intro h
    apply h1
    rw [h]
    decide
  unfold lookupAttempts
  cases attempts.stored u with
  | some record => rfl
  | none => simp [h1, h2, h3]

theorem recordFailedAttempt_stored_other (attempts : LoginAttempts) (u v : String) (now : Int)
    (hv : ¬ u = v) : (recordFailedAttempt attempts v now).stored u = attempts.stored u := by
  unfold recordFailedAttempt
  cases lookupAttempts attempts v with
  | missing => simp [hv]
  | entry r => simp [hv]
  | inheritedMember l => split_ifs <;> rfl
  | number t => rfl

theorem attemptsAfter_eq (u : String) (hu : plainUserId u) :
    ∀ history : List LoginEvent,
      match (attemptsAfter history).stored u with
      | none => failuresSinceSuccess u history = 0
      | some r => r.count = failuresSinceSuccess u history ∧ 0 < r.count ∧
          lastFailureTime u history = some r.lastAttempt
  | [] => by simp [attemptsAfter, failuresSinceSuccess]
  | .failed v time :: earlier => by
    have ih := attemptsAfter_eq u hu earlier
    by_cases hv : v = u
    · subst hv
      simp only [attemptsAfter, recordFailedAttempt, lookupAttempts_plain _ v hu,
        failuresSinceSuccess, lastFailureTime, if_true]
      cases hr : (attemptsAfter earlier).stored v with
      | none =>
        rw [hr] at ih
        simp only at ih
        simp [ih]
      | some r =>
        rw [hr] at ih
        simp only at ih
        simp [ih.1]
    · have huv : ¬ u = v := fun h => hv h.symm
      simp only [attemptsAfter, recordFailedAttempt_stored_other _ u v time huv,
        failuresSinceSuccess, lastFailureTime, hv, if_false]
      exact ih
  | .succeeded v :: earlier => by
    have ih := attemptsAfter_eq u hu earlier
    by_cases hv : v = u
    · subst hv
      simp [attemptsAfter, resetFailedAttempts, failuresSinceSuccess]
    · have huv : ¬ u = v := fun h => hv h.symm
      simp only [attemptsAfter, resetFailedAttempts, failuresSinceSuccess, lastFailureTime,
        hv, huv, if_false]
      exact ih

/-- C24 at its failing input: `constructor` is the name of a member that the parsed
object inherits, so after one failed attempt at time 1000 the account
`constructor` is locked at time 2000 although one failure is recorded, the
remaining attempts are `NaN` even on an empty storage, and `resetFailedAttempts`
does not unlock it. -/
theorem inherited_name_locked_after_one_failure :
    failuresSinceSuccess "constructor" [.failed "constructor" 1000] = 1 ∧
    isAccountLocked (attemptsAfter [.failed "constructor" 1000]) "constructor" 2000 = true ∧
    getRemainingAttempts (attemptsAfter []) "constructor" = none ∧
    isAccountLocked
      (resetFailedAttempts (attemptsAfter [.failed "constructor" 1000]) "constructor")
      "constructor" 2000 = true := by
  decide

/-- The lockout of every other user id.  For every userId that is neither the name
of a member inherited from `Object.prototype` nor `lastAttempt`, and every history
of login attempts of any user ids, `isAccountLocked` at time `t` is true exactly
when the claim says so: at least 3 failed
attempts are recorded for the userId since its last successful login and `t` is
less than 15 minutes after the last recorded failed attempt;
`getRemainingAttempts` returns `max(0, 3 - n)` for the `n` failures recorded; and
after `resetFailedAttempts` the account is unlocked with 3 attempts remaining. -/
theorem login_lockout (history : List LoginEvent) (u : String) (t : Int)
    (hu : plainUserId u) :
    (isAccountLocked (attemptsAfter history) u t = true ↔
      3 ≤ failuresSinceSuccess u history ∧
      ∃ last, lastFailureTime u history = some last ∧ t - last < 15 * 60 * 1000) ∧
    getRemainingAttempts (attemptsAfter history) u
      = some (max 0 (3 - (failuresSinceSuccess u history : Int))) ∧
    isAccountLocked (resetFailedAttempts (attemptsAfter history) u) u t = false ∧
    getRemainingAttempts (resetFailedAttempts (attemptsAfter history) u) u = some 3 := by
  have h := attemptsAfter_eq u hu history
  refine ⟨?_, ?_, ?_, ?_⟩
  · unfold isAccountLocked
    rw [lookupAttempts_plain _ u hu]
    cases hr : (attemptsAfter history).stored u with
    | none =>
      rw [hr] at h
      simp only at h
      simp [h]
    | some r =>
      rw [hr] at h
      simp only at h
      obtain ⟨h1, _, h3⟩ := h
      simp only [maxLoginAttempts, lockoutTime, h3, Option.some.injEq, exists_eq_left', ← h1]
      by_cases hc : r.count < 3
      · simp only [hc, if_true, Bool.false_eq_true, false_iff, not_and]
        omega
      · simp only [hc, if_false, decide_eq_true_eq, iff_and_self]
        omega
  · unfold getRemainingAttempts
    rw [lookupAttempts_plain _ u hu]
    cases hr : (attemptsAfter history).stored u with
    | none =>
      rw [hr] at h
      simp only at h
      simp [h, maxLoginAttempts]
    | some r =>
      rw [hr] at h
      simp only at h
      simp [h.1, maxLoginAttempts]
  · unfold isAccountLocked
    rw [lookupAttempts_plain _ u hu]
    simp [resetFailedAttempts]
  · unfold getRemainingAttempts
    rw [lookupAttempts_plain _ u hu]
    simp [resetFailedAttempts, maxLoginAttempts]

theorem login_lockout_witness :
    plainUserId "VOTER1" ∧
    isAccountLocked
      (attemptsAfter [.failed "VOTER1" 3000, .failed "__proto__" 2500, .failed "VOTER1" 2000,
        .failed "VOTER1" 1000, .succeeded "VOTER1", .failed "VOTER1" 500])
      "VOTER1" 4000 = true ∧
    getRemainingAttempts
      (attemptsAfter [.failed "VOTER1" 2000, .failed "VOTER1" 1000, .succeeded "VOTER1",
        .failed "VOTER1" 500])
      "VOTER1" = some (max 0 (3 - ((2 : Nat) : Int))) :=
  ⟨by decide,
   (login_lockout [.failed "VOTER1" 3000, .failed "__proto__" 2500, .failed "VOTER1" 2000,
      .failed "VOTER1" 1000, .succeeded "VOTER1", .failed "VOTER1" 500] "VOTER1" 4000
      (by decide)).1.2 ⟨by decide, 3000, by decide, by decide⟩,
   (login_lockout [.failed "VOTER1" 2000, .failed "VOTER1" 1000, .succeeded "VOTER1",
      .failed "VOTER1" 500] "VOTER1" 0 (by decide)).2.1⟩

/-! ## Age checks -/

theorem validateAge_isValid_iff (today birthDate : CalendarDate) :
    (validateAge today birthDate).isValid = true ↔
      (today.year - birthDate.year > 18 ∨
        (today.year - birthDate.year = 18 ∧ birthDate.month ≤ today.month)) ∧
      today.year - birthDate.year ≤ 120 := by
  unfold validateAge
  simp only
  split_ifs with h1 h2 <;> simp at h1 ⊢ <;> omega

/-- C25 at its failing input: on 5 November 2026 a person born on 20 November 2008
is 17 years old, and `validateAge` returns `isValid = true`, because it compares
years and months and never the day of the month. -/
theorem validateAge_accepts_seventeen :
    validateAge ⟨2026, 10, 5⟩ ⟨2008, 10, 20⟩ = ⟨true, "Age requirement satisfied."⟩ ∧
    completedYears ⟨2026, 10, 5⟩ ⟨2008, 10, 20⟩ = 17 := by
  decide

theorem adminValidate_of_checks (emailOk : String → Bool) (parseDate : String → CalendarDate)
    (today : CalendarDate) (form : RegistrationForm) (h : passesEarlierChecks emailOk form) :
    AdminAuthManager.validateRegistrationForm emailOk parseDate today form =
      if today.month < (parseDate form.dob).month ∨
          (today.month = (parseDate form.dob).month ∧ today.day < (parseDate form.dob).day) then
        .error "TypeError: Assignment to constant variable."
      else if today.year - (parseDate form.dob).year < 18 then
        .ok ⟨false, "You must be at least 18 years old to register"⟩
      else .ok ⟨true, "Validation successful"⟩ := by
  obtain ⟨h1, h2, h3, h4, h5, h6, h7, h8, h9, h10, h11, h12⟩ := h
  have e0 : ¬ (form.name = "" ∨ form.userId = "" ∨ form.email = "" ∨ form.password = "" ∨
      form.confirmPassword = "" ∨ form.dob = "" ∨ form.gender = "") := by
    simp [h1, h2, h3, h4, h5, h6, h7]
  have e1 : ¬ utf16Length form.name < 2 := by omega
  have e2 : ¬ utf16Length form.userId < 4 := by omega
  have e3 : ¬ utf16Length form.password < 6 := by omega
  have e4 : ¬ (emailOk form.email = false) := by simp [h10]
  have e5 : ¬ (form.password ≠ form.confirmPassword) := not_not.mpr h12
  have c1 : (((today.month : Int) - ((parseDate form.dob).month : Int) < 0 ∨
      ((today.month : Int) - ((parseDate form.dob).month : Int) = 0 ∧
        today.day < (parseDate form.dob).day)) ↔
      (today.month < (parseDate form.dob).month ∨
        (today.month = (parseDate form.dob).month ∧ today.day < (parseDate form.dob).day))) := by
    omega
  unfold AdminAuthManager.validateRegistrationForm
  rw [if_neg e0, if_neg e1, if_neg e2, if_neg e4, if_neg e3, if_neg e5]
  simp only [c1]

/-- C26 at its failing input: on 5 November 2026 an applicant born on 25 December
2000, whose form passes all earlier checks and who is 25 years old, makes
`validateRegistrationForm` throw a TypeError instead of returning a result. -/
theorem admin_age_check_throws :
    passesEarlierChecks (fun _ => true) sampleForm ∧
    completedYears ⟨2026, 10, 5⟩ (sampleParseDate sampleForm.dob) = 25 ∧
    AdminAuthManager.validateRegistrationForm (fun _ => true) sampleParseDate ⟨2026, 10, 5⟩
        sampleForm
      = .error "TypeError: Assignment to constant variable." := by
  exact ⟨by decide, by decide, rfl⟩

/-! ## Elections shown on the public page -/

theorem displayStatus_of_dates (now : Int) (el : ClientElection)
    (h : el.start_date ≤ el.end_date) :
    displayStatus now el =
      if now < el.start_date then "upcoming"
      else if now > el.end_date then "completed"
      else "active" := by
  unfold displayStatus
  split_ifs <;> first | rfl | (exfalso; omega)

theorem mem_uniqueElections (all : List ClientElection) (el : ClientElection) :
    el ∈ uniqueElections all ↔
      all[all.findIdx (fun e => e.id == el.id)]? = some el := by
  simp only [uniqueElections, List.mem_map, List.mem_filter, List.mem_enum_iff_getElem?,
    beq_iff_eq, Prod.exists, exists_eq_right]

theorem uniqueElections_nodup (all : List ClientElection) :
    ((uniqueElections all).map ClientElection.id).Nodup := by
  unfold uniqueElections
  rw [List.map_map]
  apply List.Nodup.map_on
  · intro x hx y hy hxy
    simp only [List.mem_filter, List.mem_enum_iff_getElem?, beq_iff_eq] at hx hy
    simp only [Function.comp] at hxy
    obtain ⟨hx1, hx2⟩ := hx
    obtain ⟨hy1, hy2⟩ := hy
    have hij : x.1 = y.1 := by rw [hx2, hy2, hxy]
    rw [hij, hy1] at hx1
    exact Prod.ext hij (Option.some.inj hx1).symm
  · exact (List.Nodup.of_map Prod.fst (List.nodup_enum_map_fst all)).filter _

theorem mem_of_mem_uniqueElections {all : List ClientElection} {el : ClientElection}
    (h : el ∈ uniqueElections all) : el ∈ all := by
  rw [mem_uniqueElections] at h
  exact List.getElem?_mem h

theorem uniqueElections_covers (all : List ClientElection) (x : ClientElection) (hx : x ∈ all) :
    ∃ el ∈ uniqueElections all, el.id = x.id := by
  have hlt : all.findIdx (fun e => e.id == x.id) < all.length :=
    List.findIdx_lt_length_of_exists ⟨x, hx, by simp⟩
  have hp : (all[all.findIdx (fun e => e.id == x.id)]).id = x.id := by
    have h := @List.findIdx_getElem _ (fun e : ClientElection => e.id == x.id) all hlt
    simpa using h
  refine ⟨all[all.findIdx (fun e => e.id == x.id)], ?_, hp⟩
  rw [mem_uniqueElections, hp]
  exact List.getElem?_eq_getElem hlt

theorem uniqueElections_first_list (l1 l2 : List ClientElection) (el : ClientElection)
    (h : el ∈ uniqueElections (l1 ++ l2)) (hex : ∃ a ∈ l1, a.id = el.id) : el ∈ l1 := by
  rw [mem_uniqueElections] at h
  have hlt : l1.findIdx (fun e => e.id == el.id) < l1.length := by
    obtain ⟨a, ha, hid⟩ := hex
    exact List.findIdx_lt_length_of_exists ⟨a, ha, by simp [hid]⟩
  rw [List.findIdx_append, if_pos hlt, List.getElem?_append_left hlt] at h
  exact List.getElem?_mem h

/-- C29. For every admin election whose start date is not after its end date, and
whatever status is stored, the status shown is `upcoming` when now is before the
start date, `completed` when now is after the end date, and `active` otherwise;
the list returned by `getMockElections` holds no two elections with the same id,
shows every admin id and every sample id, and the election it shows for the id of
an admin election is a processed admin election, not a sample election. -/
theorem getMockElections_status_and_ids (now : Int) (adminElections : List ClientElection) :
    (∀ el : ClientElection, el.start_date ≤ el.end_date →
      (processAdminElection now el).status =
        if now < el.start_date then "upcoming"
        else if now > el.end_date then "completed"
        else "active") ∧
    ((getMockElections now adminElections).map ClientElection.id).Nodup ∧
    (∀ el ∈ getMockElections now adminElections,
      (∃ a ∈ adminElections, el = processAdminElection now a) ∨
        el ∈ getDefaultElections now) ∧
    (∀ el ∈ getMockElections now adminElections, (∃ a ∈ adminElections, a.id = el.id) →
      ∃ a ∈ adminElections, el = processAdminElection now a) ∧
    (∀ a ∈ adminElections, ∃ el ∈ getMockElections now adminElections, el.id = a.id) ∧
    (∀ d ∈ getDefaultElections now, ∃ el ∈ getMockElections now adminElections,
      el.id = d.id) := by
  refine ⟨fun el h => displayStatus_of_dates now el h, uniqueElections_nodup _, ?_, ?_, ?_, ?_⟩
  · intro el hel
    have h := mem_of_mem_uniqueElections hel
    rcases List.mem_append.mp h with h1 | h2
    · obtain ⟨a, ha, rfl⟩ := List.mem_map.mp h1
      exact Or.inl ⟨a, ha, rfl⟩
    · exact Or.inr h2
  · rintro el hel ⟨a, ha, hid⟩
    have h := uniqueElections_first_list _ _ el hel
      ⟨processAdminElection now a, List.mem_map_of_mem _ ha, hid⟩
    obtain ⟨b, hb, rfl⟩ := List.mem_map.mp h
    exact ⟨b, hb, rfl⟩
  · intro a ha
    exact uniqueElections_covers _ (processAdminElection now a)
      (List.mem_append_left _ (List.mem_map_of_mem _ ha))
  · intro d hd
    exact uniqueElections_covers _ d (List.mem_append_right _ hd)

theorem getMockElections_status_and_ids_witness :
    (processAdminElection 500 ⟨1001, "Board Election", "completed", 100, 900, 50, 10⟩).status
      = "active" ∧
    ((getMockElections 500 [⟨1001, "Board Election", "completed", 100, 900, 50, 10⟩]).map
      ClientElection.id).Nodup :=
  ⟨(getMockElections_status_and_ids 500 []).1 ⟨1001, "Board Election", "completed", 100, 900, 50, 10⟩
      (by decide),
   (getMockElections_status_and_ids 500
      [⟨1001, "Board Election", "completed", 100, 900, 50, 10⟩]).2.1⟩

/-! ## The submit button of the voting dialog -/

/-- C22. After `updateSubmitButton` has run on a dialog with its submit button and
its election data, the button is enabled exactly when no submission is in
progress and every position of the loaded election has at least `minSelections`
and at most `maxSelections` entries in `selectedCandidates`, where a bound that
is absent or 0 counts as 1. -/
theorem submit_button_gating (st : VotingState) (data : ElectionData) (b : Bool)
    (hbtn : st.submitDisabled = some b) (hdata : st.electionData = some data) :
    ∃ d, (updateSubmitButton st).submitDisabled = some d ∧
      (d = false ↔
        st.isSubmittingVote = false ∧
        ∀ position ∈ data.positions,
          (if position.minSelections = none ∨ position.minSelections = some 0 then 1
            else position.minSelections.getD 0)
            ≤ (st.selectedCandidates.filter (fun sc => sc.positionId == position.id)).length ∧
          (st.selectedCandidates.filter (fun sc => sc.positionId == position.id)).length
            ≤ (if position.maxSelections = none ∨ position.maxSelections = some 0 then 1
                else position.maxSelections.getD 0)) := by
  have hor : ∀ x : Option Nat,
      orOne x = if x = none ∨ x = some 0 then 1 else x.getD 0 := by
    intro x
    cases x with
    | none => rfl
    | some n => cases n <;> simp [orOne]
  refine ⟨!(allPositionsSelected data st.selectedCandidates) || st.isSubmittingVote, ?_, ?_⟩
  · simp [updateSubmitButton, hbtn, hdata]
  · simp only [allPositionsSelected, selectionsForPosition, hor, Bool.or_eq_false_iff,
      Bool.not_eq_false', List.all_eq_true, Bool.and_eq_true, decide_eq_true_eq, ge_iff_le]
    exact And.comm

theorem submit_button_gating_witness :
    (updateSubmitButton gatingState).submitDisabled = some false ∧
    (updateSubmitButton { gatingState with selectedCandidates := [⟨1, 1⟩] }).submitDisabled
      = some true ∧
    (updateSubmitButton
      { gatingState with selectedCandidates := [⟨1, 1⟩, ⟨1, 2⟩, ⟨1, 3⟩, ⟨1, 4⟩] }).submitDisabled
      = some true ∧
    (gatingState.isSubmittingVote = false ∧
      ∀ position ∈ gatingData.positions,
        (if position.minSelections = none ∨ position.minSelections = some 0 then 1
          else position.minSelections.getD 0)
          ≤ (gatingState.selectedCandidates.filter
              (fun sc => sc.positionId == position.id)).length ∧
        (gatingState.selectedCandidates.filter
            (fun sc => sc.positionId == position.id)).length
          ≤ (if position.maxSelections = none ∨ position.maxSelections = some 0 then 1
              else position.maxSelections.getD 0)) := by
  have h := submit_button_gating gatingState gatingData true rfl rfl
  have h1 : (updateSubmitButton gatingState).submitDisabled = some false := by decide
  refine ⟨h1, by decide, by decide, ?_⟩
  obtain ⟨d, hd, hiff⟩ := h
  rw [h1] at hd
  exact hiff.mp (Option.some.inj hd).symm

/-! ## Selections made by clicking candidate options -/

theorem updateSubmitButton_fields (st : VotingState) :
    (updateSubmitButton st).selectedCandidates = st.selectedCandidates ∧
    (updateSubmitButton st).selectedOptions = st.selectedOptions ∧
    (updateSubmitButton st).electionData = st.electionData ∧
    (updateSubmitButton st).isSubmittingVote = st.isSubmittingVote := by
  obtain ⟨f1, f2, f3, f4, f5, f6, f7, f8, f9⟩ := st
  cases f8 <;> cases f2 <;> exact ⟨rfl, rfl, rfl, rfl⟩

theorem selectionsForPosition_append (l : List SelectedCandidate) (p c q : Nat) :
    selectionsForPosition (l ++ [⟨p, c⟩]) q
      = selectionsForPosition l q + if p = q then 1 else 0 := by
  unfold selectionsForPosition
  by_cases h : p = q <;> simp [List.filter_append, List.filter_cons, h]

theorem selectionsForPosition_filter_le (l : List SelectedCandidate)
    (f : SelectedCandidate → Bool) (q : Nat) :
    selectionsForPosition (l.filter f) q ≤ selectionsForPosition l q := by
  unfold selectionsForPosition
  rw [← List.countP_eq_length_filter, ← List.countP_eq_length_filter]
  exact (List.filter_sublist l).countP_le _

theorem selectionsForPosition_filter_ne (l : List SelectedCandidate) (p : Nat) :
    selectionsForPosition (l.filter (fun sc => sc.positionId != p)) p = 0 := by
  unfold selectionsForPosition
  rw [List.length_eq_zero, List.filter_eq_nil_iff]
  intro sc hsc
  simp only [List.mem_filter, bne_iff_ne, ne_eq] at hsc
  simpa using hsc.2

theorem selectionInvariant_single (data : ElectionData) (selected : List SelectedCandidate)
    (options : List (Nat × Nat)) (p c : Nat) (position : BallotPosition)
    (hfind : data.positions.find? (fun q => q.id == p) = some position)
    (h : SelectionInvariant data selected options) :
    SelectionInvariant data
        (selected.filter (fun sc => sc.positionId != p) ++ [⟨p, c⟩])
        (options.filter (fun o => o.1 != p) ++ [(p, c)]) ∧
    SelectionInvariant data
        (selected.filter (fun sc => sc.positionId != p))
        (options.filter (fun o => o.1 != p) ++ [(p, c)]) := by
  obtain ⟨h1, h2, h3⟩ := h
  have hsub : ∀ sc ∈ selected.filter (fun sc => sc.positionId != p),
      (sc.positionId, sc.candidateId) ∈ options.filter (fun o => o.1 != p) ++ [(p, c)] := by
    intro sc hsc
    simp only [List.mem_filter, bne_iff_ne, ne_eq] at hsc
    simp only [List.mem_append, List.mem_filter, bne_iff_ne, ne_eq, List.mem_singleton]
    exact Or.inl ⟨h2 sc hsc.1, hsc.2⟩
  have hpos : 1 ≤ orOne position.maxSelections := by
    cases hm : position.maxSelections with
    | none => simp [orOne]
    | some n => cases n <;> simp [orOne]
  constructor
  · refine ⟨?_, ?_, ?_⟩
    · rw [List.nodup_append]
      refine ⟨h1.filter _, List.nodup_singleton _, ?_⟩
      intro x hx hy
      simp only [List.mem_singleton] at hy
      subst hy
      simp at hx
    · intro sc hsc
      rcases List.mem_append.mp hsc with h4 | h4
      · exact hsub sc h4
      · simp only [List.mem_singleton] at h4
        subst h4
        simp
    · intro q pos2 hq
      rw [selectionsForPosition_append]
      by_cases hpq : p = q
      · subst hpq
        rw [selectionsForPosition_filter_ne, hfind] at *
        cases hq
        simpa using hpos
      · simp only [hpq, if_false, Nat.add_zero]
        exact Nat.le_trans (selectionsForPosition_filter_le _ _ _) (h3 q pos2 hq)
  · refine ⟨h1.filter _, hsub, ?_⟩
    intro q pos2 hq
    exact Nat.le_trans (selectionsForPosition_filter_le _ _ _) (h3 q pos2 hq)

theorem selectionInvariant_deselect (data : ElectionData) (selected : List SelectedCandidate)
    (options : List (Nat × Nat)) (p c : Nat) (h : SelectionInvariant data selected options) :
    SelectionInvariant data
      (selected.filter (fun sc => !(sc.positionId == p && sc.candidateId == c)))
      (options.filter (fun o => o != (p, c))) := by
  obtain ⟨h1, h2, h3⟩ := h
  refine ⟨h1.filter _, ?_, ?_⟩
  · intro sc hsc
    simp only [List.mem_filter, Bool.not_eq_true', Bool.and_eq_false_iff, beq_eq_false_iff_ne,
      ne_eq] at hsc
    simp only [List.mem_filter, bne_iff_ne, ne_eq, Prod.mk.injEq, not_and]
    refine ⟨h2 sc hsc.1, ?_⟩
    intro hp hc
    rcases hsc.2 with h4 | h4
    · exact h4 hp
    · exact h4 hc
  · intro q pos2 hq
    exact Nat.le_trans (selectionsForPosition_filter_le _ _ _) (h3 q pos2 hq)

theorem selectionInvariant_select (data : ElectionData) (selected : List SelectedCandidate)
    (options : List (Nat × Nat)) (p c : Nat) (position : BallotPosition)
    (hfind : data.positions.find? (fun q => q.id == p) = some position)
    (hnot : (p, c) ∉ options)
    (hlt : selectionsForPosition selected p < orOne position.maxSelections)
    (h : SelectionInvariant data selected options) :
    SelectionInvariant data (selected ++ [⟨p, c⟩]) (options ++ [(p, c)]) ∧
    SelectionInvariant data selected (options ++ [(p, c)]) := by
  obtain ⟨h1, h2, h3⟩ := h
  constructor
  · refine ⟨?_, ?_, ?_⟩
    · rw [List.nodup_append]
      refine ⟨h1, List.nodup_singleton _, ?_⟩
      intro x hx hy
      simp only [List.mem_singleton] at hy
      subst hy
      exact hnot (h2 _ hx)
    · intro sc hsc
      rcases List.mem_append.mp hsc with h4 | h4
      · exact List.mem_append_left _ (h2 sc h4)
      · simp only [List.mem_singleton] at h4
        subst h4
        simp
    · intro q pos2 hq
      rw [selectionsForPosition_append]
      by_cases hpq : p = q
      · subst hpq
        rw [hfind] at hq
        cases hq
        simp only [if_true]
        omega
      · simp only [hpq, if_false, Nat.add_zero]
        exact h3 q pos2 hq
  · exact ⟨h1, fun sc hsc => List.mem_append_left _ (h2 sc hsc), h3⟩


theorem candidateClick_fixed (st : VotingState) (p c : Nat) :
    (candidateClick st p c).electionData = st.electionData ∧
    (candidateClick st p c).isSubmittingVote = st.isSubmittingVote := by
  unfold candidateClick
  by_cases hs : st.isSubmittingVote = true
  · rw [if_pos hs]
    exact ⟨rfl, rfl⟩
  · rw [if_neg hs]
    cases hdata : st.electionData with
    | none => exact ⟨hdata, rfl⟩
    | some data =>
      dsimp only
      cases hfind : data.positions.find? (fun q => q.id == p) with
      | none => exact ⟨hdata, rfl⟩
      | some position =>
        dsimp only
        split_ifs <;>
          first
          | exact ⟨rfl, rfl⟩
          | exact ⟨hdata, rfl⟩
          | exact ⟨(updateSubmitButton_fields _).2.2.1.trans hdata,
              (updateSubmitButton_fields _).2.2.2⟩
          | exact ⟨(updateSubmitButton_fields _).2.2.1, (updateSubmitButton_fields _).2.2.2⟩

theorem candidateClick_invariant (data : ElectionData) (st : VotingState) (p c : Nat)
    (hdata : st.electionData = some data)
    (h : SelectionInvariant data st.selectedCandidates st.selectedOptions) :
    SelectionInvariant data (candidateClick st p c).selectedCandidates
      (candidateClick st p c).selectedOptions := by
  unfold candidateClick
  by_cases hs : st.isSubmittingVote = true
  · rw [if_pos hs]
    exact h
  · rw [if_neg hs]
    simp only [hdata]
    cases hfind : data.positions.find? (fun q => q.id == p) with
    | none => exact h
    | some position =>
      dsimp only
      by_cases hmax : orOne position.maxSelections = 1
      · rw [if_pos hmax]
        by_cases hl : position.candidates.contains c = true
        · rw [if_pos hl, (updateSubmitButton_fields _).1, (updateSubmitButton_fields _).2.1]
          exact (selectionInvariant_single data _ _ p c position hfind h).1
        · rw [if_neg hl]
          exact (selectionInvariant_single data _ _ p c position hfind h).2
      · rw [if_neg hmax]
        by_cases hsel : st.selectedOptions.contains (p, c) = true
        · rw [if_pos hsel, (updateSubmitButton_fields _).1, (updateSubmitButton_fields _).2.1]
          exact selectionInvariant_deselect data _ _ p c h
        · rw [if_neg hsel]
          have hnot : (p, c) ∉ st.selectedOptions := by
            simpa using hsel
          by_cases hlt : selectionsForPosition st.selectedCandidates p
              < orOne position.maxSelections
          · rw [if_pos hlt]
            by_cases hl : position.candidates.contains c = true
            · rw [if_pos hl, (updateSubmitButton_fields _).1, (updateSubmitButton_fields _).2.1]
              exact (selectionInvariant_select data _ _ p c position hfind hnot hlt h).1
            · rw [if_neg hl]
              exact (selectionInvariant_select data _ _ p c position hfind hnot hlt h).2
          · rw [if_neg hlt, (updateSubmitButton_fields _).1, (updateSubmitButton_fields _).2.1]
            exact h

theorem clickAll_invariant (data : ElectionData) :
    ∀ (clicks : List (Nat × Nat)) (st : VotingState), st.electionData = some data →
      SelectionInvariant data st.selectedCandidates st.selectedOptions →
      (clickAll st clicks).electionData = some data ∧
      (clickAll st clicks).isSubmittingVote = st.isSubmittingVote ∧
      SelectionInvariant data (clickAll st clicks).selectedCandidates
        (clickAll st clicks).selectedOptions
  | [], _, hdata, h => ⟨hdata, rfl, h⟩
  | c :: rest, st, hdata, h => by
    have hf := candidateClick_fixed st c.1 c.2
    have ih := clickAll_invariant data rest (candidateClick st c.1 c.2)
      (by rw [hf.1]; exact hdata) (candidateClick_invariant data st c.1 c.2 hdata h)
    simp only [clickAll]
    exact ⟨ih.1, by rw [ih.2.1, hf.2], ih.2.2⟩


theorem clickAll_append :
    ∀ (a b : List (Nat × Nat)) (st : VotingState),
      clickAll st (a ++ b) = clickAll (clickAll st a) b
  | [], _, _ => rfl
  | x :: a, b, st => by
    simp only [List.cons_append, clickAll]
    exact clickAll_append a b _

theorem filter_position_of_filter (l : List SelectedCandidate) (f : SelectedCandidate → Bool)
    (p : Nat) (hf : ∀ sc, sc.positionId = p → f sc = true) :
    (l.filter f).filter (fun sc => sc.positionId == p) = l.filter (fun sc => sc.positionId == p) := by
  rw [List.filter_filter]
  apply List.filter_congr
  intro sc _
  by_cases h : sc.positionId = p
  · simp [h, hf sc h]
  · simp [h]

theorem candidateClick_single_choice (st : VotingState) (data : ElectionData) (p c : Nat)
    (position : BallotPosition) (hs : st.isSubmittingVote = false)
    (hdata : st.electionData = some data)
    (hfind : data.positions.find? (fun q => q.id == p) = some position)
    (hmax : orOne position.maxSelections = 1) (hl : c ∈ position.candidates) :
    (candidateClick st p c).selectedCandidates.filter (fun sc => sc.positionId == p)
      = [⟨p, c⟩] := by
  have hs2 : ¬ st.isSubmittingVote = true := by simp [hs]
  have hl2 : position.candidates.contains c = true := by simpa using hl
  unfold candidateClick
  rw [if_neg hs2]
  simp only [hdata, hfind]
  rw [if_pos hmax, if_pos hl2, (updateSubmitButton_fields _).1]
  simp only [List.filter_append, List.filter_cons, beq_self_eq_true, if_true, List.filter_nil]
  have h0 : (st.selectedCandidates.filter (fun sc => sc.positionId != p)).filter
      (fun sc => sc.positionId == p) = [] := by
    rw [List.filter_eq_nil_iff]
    intro sc hsc
    simp only [List.mem_filter, bne_iff_ne, ne_eq] at hsc
    simpa using hsc.2
  rw [h0]
  rfl

theorem candidateClick_other_position (st : VotingState) (p q d : Nat) (hq : q ≠ p) :
    (candidateClick st q d).selectedCandidates.filter (fun sc => sc.positionId == p)
      = st.selectedCandidates.filter (fun sc => sc.positionId == p) := by
  have hqp : (q == p) = false := by simpa using hq
  have h1 : (st.selectedCandidates.filter (fun sc => sc.positionId != q)).filter
      (fun sc => sc.positionId == p) = st.selectedCandidates.filter (fun sc => sc.positionId == p) :=
    filter_position_of_filter _ _ p (fun sc h => by simp [h, Ne.symm hq])
  have h2 : (st.selectedCandidates.filter
      (fun sc => !(sc.positionId == q && sc.candidateId == d))).filter
      (fun sc => sc.positionId == p) = st.selectedCandidates.filter (fun sc => sc.positionId == p) :=
    filter_position_of_filter _ _ p (fun sc h => by simp [h, Ne.symm hq])
  unfold candidateClick
  by_cases hs : st.isSubmittingVote = true
  · rw [if_pos hs]
  · rw [if_neg hs]
    cases hdata : st.electionData with
    | none => rfl
    | some data =>
      dsimp only
      cases hfind : data.positions.find? (fun r => r.id == q) with
      | none => rfl
      | some position =>
        dsimp only
        split_ifs <;>
          simp only [(updateSubmitButton_fields _).1, List.filter_append, List.filter_cons, hqp,
            Bool.false_eq_true, if_false, List.filter_nil, List.append_nil, h1, h2]

/-- C23. Starting from the dialog as rendered with an empty `selectedCandidates`
list, after any sequence of clicks on candidate options no pair of a position and
a candidate occurs twice in `selectedCandidates`, and no position of the election
data has more entries than its `maxSelections || 1`; and when clicks are handled
(no submission in progress), the entries of a single-choice position are exactly
the candidate of the most recent click on an option of that position. -/
theorem click_selection_bound (st : VotingState) (data : ElectionData)
    (clicks : List (Nat × Nat)) (hdata : st.electionData = some data)
    (hsel : st.selectedCandidates = []) (hopt : st.selectedOptions = []) :
    (clickAll st clicks).selectedCandidates.Nodup ∧
    (∀ p position, data.positions.find? (fun q => q.id == p) = some position →
      selectionsForPosition (clickAll st clicks).selectedCandidates p
        ≤ orOne position.maxSelections) ∧
    (∀ before after p c position, clicks = before ++ (p, c) :: after →
      (∀ x ∈ after, x.1 ≠ p) → st.isSubmittingVote = false →
      data.positions.find? (fun q => q.id == p) = some position →
      orOne position.maxSelections = 1 → c ∈ position.candidates →
        (clickAll st clicks).selectedCandidates.filter (fun sc => sc.positionId == p)
          = [⟨p, c⟩]) := by
  have h0 : SelectionInvariant data st.selectedCandidates st.selectedOptions := by
    rw [hsel, hopt]
    exact ⟨List.nodup_nil, fun _ h => absurd h (List.not_mem_nil _),
      fun _ _ _ => Nat.zero_le _⟩
  obtain ⟨_, _, hinv⟩ := clickAll_invariant data clicks st hdata h0
  refine ⟨hinv.1, hinv.2.2, ?_⟩
  intro before after p c position hclicks hafter hs hfind hmax hl
  subst hclicks
  rw [clickAll_append]
  obtain ⟨hd1, hs1, _⟩ := clickAll_invariant data before st hdata h0
  simp only [clickAll]
  have hstep := candidateClick_single_choice (clickAll st before) data p c position
    (by rw [hs1]; exact hs) hd1 hfind hmax hl
  have hrest : ∀ (l : List (Nat × Nat)) (s : VotingState), (∀ x ∈ l, x.1 ≠ p) →
      (clickAll s l).selectedCandidates.filter (fun sc => sc.positionId == p)
        = s.selectedCandidates.filter (fun sc => sc.positionId == p) := by
    intro l
    induction l with
    | nil => intro s _; rfl
    | cons x rest ih =>
      intro s hx
      simp only [clickAll]
      rw [ih _ (fun y hy => hx y (List.mem_cons_of_mem _ hy)),
        candidateClick_other_position s p x.1 x.2 (hx x (List.mem_cons_self _ _))]
  rw [hrest after _ hafter, hstep]

theorem click_selection_bound_witness :
    sampleVotingState.electionData = some sampleElectionData ∧
    (clickAll sampleVotingState [(1, 1), (2, 3), (2, 4), (2, 5), (1, 2), (2, 3)]).selectedCandidates
      = [⟨2, 4⟩, ⟨1, 2⟩] ∧
    (clickAll sampleVotingState
      [(1, 1), (2, 3), (2, 4), (2, 5), (1, 2), (2, 3)]).selectedCandidates.Nodup :=
  ⟨rfl, by decide,
   (click_selection_bound sampleVotingState sampleElectionData
      [(1, 1), (2, 3), (2, 4), (2, 5), (1, 2), (2, 3)] rfl rfl rfl).1⟩


theorem openVotingModal_voted (st : VotingState) (u : ClientUser) (e : Nat)
    (loaded : Option ElectionData) (faceShown : Bool) (hu : st.currentUser = some u)
    (hv : u.hasVoted = true) :
    openVotingModal st e loaded faceShown
      = (some ⟨"You have already voted in this election.", "warning"⟩, st) := by
  unfold openVotingModal
  simp only [hu]
  rw [if_pos hv]

theorem runModalOps_voted (u : ClientUser) (hv : u.hasVoted = true) :
    ∀ (ops : List ModalOp) (st : VotingState), st.currentUser = some u →
      (runModalOps st ops).currentUser = some u ∧
      (ModalOp.closeModal ∈ ops ∨ st.voteInProgress = false →
        (runModalOps st ops).voteInProgress = false)
  | [], st, hu => ⟨hu, fun h => h.elim (fun hm => absurd hm (List.not_mem_nil _)) id⟩
  | .openModal e loaded faceShown :: rest, st, hu => by
    simp only [runModalOps, openVotingModal_voted st u e loaded faceShown hu hv]
    refine ⟨(runModalOps_voted u hv rest st hu).1, fun h => ?_⟩
    apply (runModalOps_voted u hv rest st hu).2
    rcases h with h | h
    · rcases List.mem_cons.mp h with h1 | h1
      · cases h1
      · exact Or.inl h1
    · exact Or.inr h
  | .closeModal :: rest, st, hu => by
    simp only [runModalOps]
    exact ⟨(runModalOps_voted u hv rest (closeVotingModal st) hu).1,
      fun _ => (runModalOps_voted u hv rest (closeVotingModal st) hu).2 (Or.inr rfl)⟩

theorem submitVote_confirmed_user (st st2 : VotingState) (confirmed : Bool)
    (apiResult : Except String ApiResult)
    (h : submitVote st confirmed apiResult = (SubmitOutcome.confirmed, st2)) :
    ∃ u, st2.currentUser = some u ∧ u.hasVoted = true := by
  unfold submitVote at h
  by_cases hs : st.isSubmittingVote = true
  · rw [if_pos hs] at h
    cases h
  · rw [if_neg hs] at h
    cases hdata : st.electionData with
    | none =>
      simp only [hdata] at h
      cases h
    | some data =>
      simp only [hdata] at h
      split_ifs at h with h1 h2
      · cases h
      · cases h
      · cases huser : st.currentUser with
        | none =>
          simp only [huser] at h
          cases h
        | some user =>
          simp only [huser] at h
          cases apiResult with
          | error message =>
            simp only at h
            cases h
          | ok result =>
            simp only at h
            by_cases h3 : result.success = true
            · rw [if_pos h3] at h
              simp only [Prod.mk.injEq, true_and] at h
              subst h
              exact ⟨_, rfl, rfl⟩
            · rw [if_neg h3] at h
              cases h

/-- C21. After a call of `submitVote` that ends with the confirmation, the stored
current user has `hasVoted = true`; from then on, after any sequence of requests to
open or close the dialog, `openVotingModal` for every election id shows the warning
"You have already voted in this election." and changes nothing, so it never sets
`voteInProgress`, which is `false` once the dialog has been closed. -/
theorem has_voted_blocks_every_election (st st2 : VotingState) (confirmed : Bool)
    (apiResult : Except String ApiResult)
    (h : submitVote st confirmed apiResult = (SubmitOutcome.confirmed, st2)) :
    (∃ u, st2.currentUser = some u ∧ u.hasVoted = true) ∧
    ∀ (ops : List ModalOp) (electionId : Nat) (loaded : Option ElectionData)
      (faceShown : Bool),
      openVotingModal (runModalOps st2 ops) electionId loaded faceShown
        = (some ⟨"You have already voted in this election.", "warning"⟩,
            runModalOps st2 ops) ∧
      (ModalOp.closeModal ∈ ops →
        (openVotingModal (runModalOps st2 ops) electionId loaded
          faceShown).2.voteInProgress = false) := by
  obtain ⟨u, hu, hv⟩ := submitVote_confirmed_user st st2 confirmed apiResult h
  refine ⟨⟨u, hu, hv⟩, fun ops e loaded faceShown => ?_⟩
  have hops := runModalOps_voted u hv ops st2 hu
  have hopen := openVotingModal_voted (runModalOps st2 ops) u e loaded faceShown hops.1 hv
  refine ⟨hopen, fun hm => ?_⟩
  rw [hopen]
  exact hops.2 (Or.inl hm)

theorem has_voted_blocks_every_election_witness :
    (submitVote (clickAll sampleVotingState [(1, 1), (2, 3)]) true
        (.ok ⟨true, "Vote cast successfully"⟩)).1 = SubmitOutcome.confirmed ∧
    (submitVote (clickAll sampleVotingState [(1, 1), (2, 3)]) true
        (.ok ⟨true, "Vote cast successfully"⟩)).2.currentUser
      = some ⟨"ANN01", "Ann Lee", true⟩ ∧
    openVotingModal
        (runModalOps
          (submitVote (clickAll sampleVotingState [(1, 1), (2, 3)]) true
            (.ok ⟨true, "Vote cast successfully"⟩)).2
          [.closeModal, .openModal 7 (some sampleElectionData) true])
        8 (some sampleElectionData) true
      = (some ⟨"You have already voted in this election.", "warning"⟩,
          runModalOps
            (submitVote (clickAll sampleVotingState [(1, 1), (2, 3)]) true
              (.ok ⟨true, "Vote cast successfully"⟩)).2
            [.closeModal, .openModal 7 (some sampleElectionData) true]) :=
  ⟨rfl, rfl,
   ((has_voted_blocks_every_election (clickAll sampleVotingState [(1, 1), (2, 3)])
      (submitVote (clickAll sampleVotingState [(1, 1), (2, 3)]) true
        (.ok ⟨true, "Vote cast successfully"⟩)).2 true
      (.ok ⟨true, "Vote cast successfully"⟩) rfl).2
      [.closeModal, .openModal 7 (some sampleElectionData) true] 8
      (some sampleElectionData) true).1⟩

/-! ## The handler on bodies with `null` identifiers -/

theorem sqlEq_eq_true {α : Type} [DecidableEq α] (a b : Option α) :
    sqlEq a b = true ↔ ∃ x, a = some x ∧ b = some x := by
  cases a <;> cases b <;> simp [sqlEq, eq_comm]

theorem sqlEq_none_right {α : Type} [DecidableEq α] (a : Option α) : sqlEq a none = false := by
  cases a <;> rfl

theorem sqlEq_some_some {α : Type} [DecidableEq α] (x y : α) :
    sqlEq (some x) (some y) = decide (x = y) := rfl

theorem insertRecord_ok_eq {db db1 : Database} {row : VoteRecord}
    (h : insertRecord db row = .ok db1) : db1 = { db with votes := db.votes ++ [row] } := by
  unfold insertRecord at h
  split at h
  · cases h
  · split at h
    · cases h
    · cases h; rfl

theorem insertRecord_ok_iff (db : Database) (row : VoteRecord) :
    (∃ db1, insertRecord db row = .ok db1) ↔
      foreignKeysHold db row = true ∧ uniqueVoteViolated db row = false := by
  unfold insertRecord
  cases hfk : foreignKeysHold db row <;> cases hu : uniqueVoteViolated db row <;> simp

theorem selectBallots_length_pos_iff (db : Database) (userId : Option String)
    (electionId : Option Nat) :
    0 < (selectBallots db userId electionId).length ↔
      ∃ u e, userId = some u ∧ electionId = some e ∧
        ∃ v ∈ db.votes, v.user_id = some u ∧ v.election_id = some e := by
  simp only [selectBallots, List.length_pos, ne_eq, List.filter_eq_nil_iff, Bool.and_eq_true,
    sqlEq_eq_true, not_forall, Classical.not_not, exists_prop]
  constructor
  · rintro ⟨v, hv, ⟨u, h1, h2⟩, ⟨e, h3, h4⟩⟩
    exact ⟨u, e, h2, h4, v, hv, h1, h3⟩
  · rintro ⟨u, e, h2, h4, v, hv, h1, h3⟩
    exact ⟨v, hv, ⟨u, h1, h2⟩, ⟨e, h3, h4⟩⟩

theorem recordedPrefix_nil (u : Option String) (e : Option Nat) (db : Database) :
    recordedPrefix u e db [] = db := by
  cases db
  simp [recordedPrefix]

theorem recordedPrefix_step (u : Option String) (e : Option Nat) (db : Database)
    (v : VoteEntry) (rest : List VoteEntry) :
    recordedPrefix u e
        (creditCandidate { db with votes := db.votes ++ [recordOf u e v] } v.candidateId) rest
      = recordedPrefix u e db (v :: rest) := by
  simp only [recordedPrefix, creditCandidate, List.map_cons, List.append_assoc,
    List.singleton_append, List.map_map, List.countP_cons]
  congr 1
  apply List.map_congr_left
  intro c _
  simp only [Function.comp]
  by_cases hc : sqlEq (some c.id) v.candidateId = true
  · simp [hc]
    omega
  · simp [hc]

theorem recordEntries_ok_eq (u : Option String) (e : Option Nat) :
    ∀ (vs : List VoteEntry) (db db1 : Database),
      recordEntries u e db vs = .ok db1 → db1 = recordedPrefix u e db vs
  | [], db, db1, h => by
    simp only [recordEntries, Except.ok.injEq] at h
    rw [recordedPrefix_nil]; exact h.symm
  | v :: rest, db, db1, h => by
    simp only [recordEntries] at h
    cases hi : insertRecord db (recordOf u e v) with
    | error err => rw [hi] at h; cases h
    | ok db2 =>
      rw [hi] at h
      have h2 := insertRecord_ok_eq hi
      subst h2
      have ih := recordEntries_ok_eq u e rest _ _ h
      rw [recordedPrefix_step] at ih
      exact ih

theorem recordEntries_error_eq (u : Option String) (e : Option Nat) :
    ∀ (vs : List VoteEntry) (db db1 : Database) (err : DbError),
      recordEntries u e db vs = .error (err, db1) →
        ∃ k, k < vs.length ∧ db1 = recordedPrefix u e db (vs.take k)
  | [], db, db1, err, h => by simp [recordEntries] at h
  | v :: rest, db, db1, err, h => by
    simp only [recordEntries] at h
    cases hi : insertRecord db (recordOf u e v) with
    | error err2 =>
      rw [hi] at h
      simp only [Except.error.injEq, Prod.mk.injEq] at h
      obtain ⟨_, h2⟩ := h
      subst h2
      exact ⟨0, by simp, by simp [recordedPrefix_nil]⟩
    | ok db2 =>
      rw [hi] at h
      have h2 := insertRecord_ok_eq hi
      subst h2
      obtain ⟨k, hk, hs⟩ := recordEntries_error_eq u e rest _ _ _ h
      refine ⟨k + 1, by simp [hk], ?_⟩
      rw [List.take_succ_cons, ← recordedPrefix_step]; exact hs

/-- Outcome analysis of `postCast`: refused by the pre-check with the database
untouched; or a failing `INSERT`, the entries before it recorded; or success with
all entries recorded and both flags updated. -/
theorem postCast_cases (db : Database) (body : CastBody) :
    (0 < (selectBallots db body.userId body.electionId).length ∧
      postCast db body = (.error 400 "You have already voted in this election", db)) ∨
    (¬ 0 < (selectBallots db body.userId body.electionId).length ∧
      (¬ ∃ db1, recordEntries body.userId body.electionId db body.votes = .ok db1) ∧
      ∃ k, k < body.votes.length ∧
        postCast db body = (.error 500 "Failed to cast vote",
          recordedPrefix body.userId body.electionId db (body.votes.take k))) ∨
    (¬ 0 < (selectBallots db body.userId body.electionId).length ∧
      (∃ db1, recordEntries body.userId body.electionId db body.votes = .ok db1) ∧
      postCast db body =
        (.success "Vote cast successfully",
          countVoteCast
            (markVoted (recordedPrefix body.userId body.electionId db body.votes) body.userId)
            body.electionId)) := by
  by_cases h : 0 < (selectBallots db body.userId body.electionId).length
  · exact Or.inl ⟨h, by simp [postCast, h]⟩
  · cases hr : recordEntries body.userId body.electionId db body.votes with
    | error p =>
      obtain ⟨err, db1⟩ := p
      obtain ⟨k, hk, hs⟩ := recordEntries_error_eq _ _ _ _ _ _ hr
      refine Or.inr (Or.inl ⟨h, by simp, k, hk, ?_⟩)
      simp only [postCast, gt_iff_lt, h, if_false, hr, hs]
    | ok db1 =>
      have h1 := recordEntries_ok_eq _ _ _ _ _ hr
      subst h1
      refine Or.inr (Or.inr ⟨h, ⟨_, rfl⟩, ?_⟩)
      simp only [postCast, gt_iff_lt, h, if_false, hr]

theorem postCast_status_200_iff (db : Database) (body : CastBody) :
    (postCast db body).1.status = 200 ↔
      ¬ 0 < (selectBallots db body.userId body.electionId).length ∧
      ∃ db1, recordEntries body.userId body.electionId db body.votes = .ok db1 := by
  rcases postCast_cases db body with ⟨h, hc⟩ | ⟨h, hno, k, hk, hc⟩ | ⟨h, hok, hc⟩
  · rw [hc]; simp [Response.status, h]
  · rw [hc]; simp only [Response.status]; simp [hno]
  · rw [hc]; simp only [Response.status]; simp [h, hok]

/-- C2, as stated, fails: a body with `userId: null` is accepted in the scenario
database and its row is stored with `user_id` NULL; the same body is accepted again
although the table now holds a row with the user_id and the election_id of the
request, and a second such row is stored. -/
theorem null_voter_is_accepted_again :
    (postCast scenarioStore.toDatabase ⟨none, some 1, [⟨some 1, some 1⟩]⟩).1.status = 200 ∧
    (postCast scenarioStore.toDatabase ⟨none, some 1, [⟨some 1, some 1⟩]⟩).2.votes
      = [⟨none, some 1, some 1, some 1⟩] ∧
    (postCast (postCast scenarioStore.toDatabase ⟨none, some 1, [⟨some 1, some 1⟩]⟩).2
      ⟨none, some 1, [⟨some 1, some 1⟩]⟩).1.status = 200 ∧
    (postCast (postCast scenarioStore.toDatabase ⟨none, some 1, [⟨some 1, some 1⟩]⟩).2
      ⟨none, some 1, [⟨some 1, some 1⟩]⟩).2.votes
      = [⟨none, some 1, some 1, some 1⟩, ⟨none, some 1, some 1, some 1⟩] := by
  decide

/-- C2, amended. The handler answers with status 400 exactly when the userId and
the electionId of the body are not `null` and the `votes` table already holds a row
with that user_id and election_id; in that case the database after the call is the
database before it.  With a `null` userId or electionId it never answers 400. -/
theorem postCast_already_voted_iff (db : Database) (body : CastBody) :
    ((postCast db body).1.status = 400 ↔
      ∃ u e, body.userId = some u ∧ body.electionId = some e ∧
        ∃ v ∈ db.votes, v.user_id = some u ∧ v.election_id = some e) ∧
    ((postCast db body).1.status = 400 → (postCast db body).2 = db) ∧
    ((body.userId = none ∨ body.electionId = none) → (postCast db body).1.status ≠ 400) := by
  have hiff : (postCast db body).1.status = 400 ↔
      0 < (selectBallots db body.userId body.electionId).length := by
    rcases postCast_cases db body with ⟨h, hc⟩ | ⟨h, _, k, _, hc⟩ | ⟨h, _, hc⟩
    · rw [hc]; simp [Response.status, h]
    · rw [hc]; simp [Response.status, h]
    · rw [hc]; simp [Response.status, h]
  refine ⟨hiff.trans (selectBallots_length_pos_iff _ _ _), ?_, ?_⟩
  · intro h
    rcases postCast_cases db body with ⟨_, hc⟩ | ⟨h0, _, k, _, hc⟩ | ⟨h0, _, hc⟩
    · rw [hc]
    · exact absurd (hiff.mp h) h0
    · exact absurd (hiff.mp h) h0
  · intro hnull h
    obtain ⟨u, e, hu, he, _⟩ := (hiff.trans (selectBallots_length_pos_iff _ _ _)).mp h
    rcases hnull with h1 | h1
    · rw [h1] at hu; cases hu
    · rw [h1] at he; cases he

theorem postCast_already_voted_iff_witness :
    (postCast (postCast scenarioStore.toDatabase ⟨some "V1", some 1, [⟨some 1, some 1⟩]⟩).2
      ⟨some "V1", some 1, [⟨some 1, some 2⟩]⟩).1.status = 400 ∧
    (postCast (postCast scenarioStore.toDatabase ⟨some "V1", some 1, [⟨some 1, some 1⟩]⟩).2
      ⟨some "V1", some 1, [⟨some 1, some 2⟩]⟩).2
      = (postCast scenarioStore.toDatabase ⟨some "V1", some 1, [⟨some 1, some 1⟩]⟩).2 ∧
    (postCast (postCast scenarioStore.toDatabase ⟨some "V1", some 1, [⟨some 1, some 1⟩]⟩).2
      ⟨none, some 1, [⟨some 1, some 2⟩]⟩).1.status ≠ 400 :=
  ⟨(postCast_already_voted_iff _ ⟨some "V1", some 1, [⟨some 1, some 2⟩]⟩).1.2
      ⟨"V1", 1, rfl, rfl, ⟨some "V1", some 1, some 1, some 1⟩, by decide, rfl, rfl⟩,
   (postCast_already_voted_iff _ ⟨some "V1", some 1, [⟨some 1, some 2⟩]⟩).2.1 (by decide),
   (postCast_already_voted_iff _ ⟨none, some 1, [⟨some 1, some 2⟩]⟩).2.2 (Or.inl rfl)⟩

/-! ## Bodies without `null`: the two models agree -/

theorem selectBallots_toDatabase (s : Store) (u : String) (e : Nat) :
    selectBallots s.toDatabase (some u) (some e) = (selectVotes s u e).map Vote.toRecord := by
  simp only [selectBallots, Store.toDatabase, selectVotes, List.filter_map]
  rfl

theorem foreignKeysHold_toDatabase (s : Store) (row : Vote) :
    foreignKeysHold s.toDatabase row.toRecord = foreignKeysOk s row := by
  have h : ∀ {α β : Type} [DecidableEq β] (l : List α) (f : α → β) (x : β),
      (l.map f).contains x = l.any (fun a => decide (f a = x)) := by
    intro α β _ l f x
    induction l with
    | nil => rfl
    | cons a l ih =>
      simp only [List.map_cons, List.contains_cons, List.any_cons, ih]
      congr 1
      by_cases hx : f a = x
      · simp [hx]
      · have hx2 : ¬ x = f a := fun h2 => hx h2.symm
        simp [hx, hx2]
  simp only [foreignKeysHold, foreignKeysOk, Store.toDatabase, Vote.toRecord, referenceOk, h]

theorem uniqueVoteViolated_toDatabase (s : Store) (row : Vote) :
    uniqueVoteViolated s.toDatabase row.toRecord = uniqueVoteTaken s row := by
  simp only [uniqueVoteViolated, uniqueVoteTaken, Store.toDatabase]
  induction s.votes with
  | nil => rfl
  | cons a l ih =>
    simp only [List.map_cons, List.any_cons, ih]
    rfl

theorem insertRecord_toDatabase (s : Store) (row : Vote) :
    insertRecord s.toDatabase row.toRecord =
      match insertVote s row with
      | .ok s1 => .ok s1.toDatabase
      | .error err => .error err := by
  unfold insertRecord insertVote
  rw [foreignKeysHold_toDatabase, uniqueVoteViolated_toDatabase]
  cases foreignKeysOk s row <;> cases uniqueVoteTaken s row <;>
    simp [Store.toDatabase]

theorem creditCandidate_toDatabase (s : Store) (c : Nat) :
    creditCandidate s.toDatabase (some c) = (updateCandidateVotes s c).toDatabase := by
  simp [creditCandidate, updateCandidateVotes, Store.toDatabase, sqlEq_some_some]

theorem recordEntries_toDatabase (u : String) (e : Nat) :
    ∀ (vs : List Selection) (s : Store),
      recordEntries (some u) (some e) s.toDatabase (vs.map Selection.toEntry) =
        match recordVotes u e s vs with
        | .ok s1 => .ok s1.toDatabase
        | .error (err, s1) => .error (err, s1.toDatabase)
  | [], s => rfl
  | v :: rest, s => by
    have hrow : recordOf (some u) (some e) v.toEntry = (ballotRow u e v).toRecord := rfl
    simp only [List.map_cons, recordEntries, recordVotes, hrow, insertRecord_toDatabase]
    cases hi : insertVote s (ballotRow u e v) with
    | error err => rfl
    | ok s2 =>
      simp only []
      have hc : (v.toEntry).candidateId = some v.candidateId := rfl
      rw [hc, creditCandidate_toDatabase]
      exact recordEntries_toDatabase u e rest _

/-- On a body without `null`, `postCast` is `castVote`: the same response, and the
same tables with the ballot rows read as rows without NULL. -/
theorem postCast_toDatabase (s : Store) (r : CastRequest) :
    postCast s.toDatabase r.toBody
      = ((castVote s r.userId r.electionId r.votes).1,
         (castVote s r.userId r.electionId r.votes).2.toDatabase) := by
  unfold postCast castVote
  simp only [CastRequest.toBody, selectBallots_toDatabase, List.length_map,
    recordEntries_toDatabase]
  split
  · rfl
  · cases hr : recordVotes r.userId r.electionId s r.votes with
    | error p => rfl
    | ok s1 =>
      simp [markVoted, countVoteCast, updateUserHasVoted, updateElectionVotesCast,
        Store.toDatabase, sqlEq_some_some]

/-! ## Selection bounds are never read -/

theorem foreignKeysHold_boundsReplaced (f : Nat → Nat × Nat) (db : Database) (row : VoteRecord) :
    foreignKeysHold (boundsReplaced f db) row = foreignKeysHold db row := by
  simp only [foreignKeysHold, boundsReplaced, List.map_map]
  rfl

theorem insertRecord_boundsReplaced (f : Nat → Nat × Nat) (db : Database) (row : VoteRecord) :
    insertRecord (boundsReplaced f db) row =
      match insertRecord db row with
      | .ok db1 => .ok (boundsReplaced f db1)
      | .error err => .error err := by
  unfold insertRecord
  rw [foreignKeysHold_boundsReplaced]
  have hu : uniqueVoteViolated (boundsReplaced f db) row = uniqueVoteViolated db row := rfl
  rw [hu]
  cases foreignKeysHold db row <;> cases uniqueVoteViolated db row <;> rfl

theorem recordEntries_boundsReplaced (f : Nat → Nat × Nat) (u : Option String) (e : Option Nat) :
    ∀ (vs : List VoteEntry) (db : Database),
      recordEntries u e (boundsReplaced f db) vs =
        match recordEntries u e db vs with
        | .ok db1 => .ok (boundsReplaced f db1)
        | .error (err, db1) => .error (err, boundsReplaced f db1)
  | [], db => rfl
  | v :: rest, db => by
    simp only [recordEntries]
    rw [insertRecord_boundsReplaced]
    cases hi : insertRecord db (recordOf u e v) with
    | error err => rfl
    | ok db2 =>
      simp only []
      exact recordEntries_boundsReplaced f u e rest (creditCandidate db2 v.candidateId)

theorem postCast_boundsReplaced (f : Nat → Nat × Nat) (db : Database) (body : CastBody) :
    postCast (boundsReplaced f db) body
      = ((postCast db body).1, boundsReplaced f (postCast db body).2) := by
  have hsel : selectBallots (boundsReplaced f db) body.userId body.electionId
      = selectBallots db body.userId body.electionId := rfl
  unfold postCast
  simp only [hsel]
  split
  · rfl
  · rw [recordEntries_boundsReplaced]
    cases hr : recordEntries body.userId body.electionId db body.votes with
    | error p => rfl
    | ok db1 => rfl

theorem postCast_positions (db : Database) (body : CastBody) :
    (postCast db body).2.positions = db.positions := by
  rcases postCast_cases db body with ⟨_, hc⟩ | ⟨_, _, k, _, hc⟩ | ⟨_, _, hc⟩ <;> rw [hc] <;> rfl

/-- C9, amended. The handler never compares the list of the body with
`min_selections` or `max_selections`: for every database and every body, `null`
identifiers included, its response and its writes are the same whatever the bounds
of the positions are, and it never writes the `positions` table. -/
theorem postCast_ignores_selection_bounds (db : Database) (body : CastBody) :
    (∀ f : Nat → Nat × Nat,
      postCast (boundsReplaced f db) body
        = ((postCast db body).1, boundsReplaced f (postCast db body).2)) ∧
    (postCast db body).2.positions = db.positions :=
  ⟨fun f => postCast_boundsReplaced f db body, postCast_positions db body⟩

theorem postCast_ignores_selection_bounds_witness :
    (boundsReplaced (fun _ => (1, 1)) twoSeatStore.toDatabase).positions
      = [⟨1, 1, "Council", 1, 1⟩] ∧
    (postCast twoSeatStore.toDatabase ⟨some "V2", some 1, [⟨some 1, some 1⟩]⟩).1.status = 200 ∧
    postCast (boundsReplaced (fun _ => (1, 1)) twoSeatStore.toDatabase)
        ⟨some "V2", some 1, [⟨some 1, some 1⟩]⟩
      = ((postCast twoSeatStore.toDatabase ⟨some "V2", some 1, [⟨some 1, some 1⟩]⟩).1,
         boundsReplaced (fun _ => (1, 1))
          (postCast twoSeatStore.toDatabase ⟨some "V2", some 1, [⟨some 1, some 1⟩]⟩).2) :=
  ⟨by decide, by decide,
   (postCast_ignores_selection_bounds twoSeatStore.toDatabase
      ⟨some "V2", some 1, [⟨some 1, some 1⟩]⟩).1 (fun _ => (1, 1))⟩

/-! ## The unique key of the ballot rows -/

theorem ballotKeysDistinct_insertRecord {db db1 : Database} {row : VoteRecord}
    (h : ballotKeysDistinct db) (hi : insertRecord db row = .ok db1) :
    ballotKeysDistinct db1 := by
  have hok : ∃ db2, insertRecord db row = .ok db2 := ⟨db1, hi⟩
  rw [insertRecord_ok_iff] at hok
  have h1 := insertRecord_ok_eq hi
  subst h1
  unfold ballotKeysDistinct at h ⊢
  rw [List.pairwise_append]
  refine ⟨h, List.pairwise_singleton _ _, ?_⟩
  intro a ha b hb
  simp only [List.mem_singleton] at hb
  subst hb
  rintro ⟨h1, h2, h3⟩
  have hu := hok.2
  simp only [uniqueVoteViolated, List.any_eq_false, Bool.and_eq_true, not_and] at hu
  exact hu a ha ⟨h1, h2⟩ h3

theorem ballotKeysDistinct_recordEntries (u : Option String) (e : Option Nat) :
    ∀ (vs : List VoteEntry) (db : Database), ballotKeysDistinct db →
      match recordEntries u e db vs with
      | .ok db1 => ballotKeysDistinct db1
      | .error (_, db1) => ballotKeysDistinct db1
  | [], db, h => by simpa [recordEntries] using h
  | v :: rest, db, h => by
    simp only [recordEntries]
    cases hi : insertRecord db (recordOf u e v) with
    | error err => exact h
    | ok db2 =>
      have h2 : ballotKeysDistinct (creditCandidate db2 v.candidateId) :=
        show ballotKeysDistinct db2 from ballotKeysDistinct_insertRecord h hi
      exact ballotKeysDistinct_recordEntries u e rest _ h2

theorem ballotKeysDistinct_postCast (db : Database) (body : CastBody)
    (h : ballotKeysDistinct db) : ballotKeysDistinct (postCast db body).2 := by
  have hr := ballotKeysDistinct_recordEntries body.userId body.electionId body.votes db h
  unfold postCast
  simp only
  split
  · exact h
  · cases hrec : recordEntries body.userId body.electionId db body.votes with
    | error p => rw [hrec] at hr; exact hr
    | ok db1 => rw [hrec] at hr; exact hr

theorem ballotKeysDistinct_runPosts :
    ∀ (bodies : List CastBody) (db : Database),
      ballotKeysDistinct db → ballotKeysDistinct (runPosts db bodies)
  | [], _, h => h
  | body :: rest, db, h =>
    ballotKeysDistinct_runPosts rest _ (ballotKeysDistinct_postCast db body h)

/-- C15, as stated, fails: from the scenario database, which has no ballot rows, one
body with two entries whose positionId is `null` is accepted, and the table then
holds two rows with the same (user_id, election_id, position_id), the position
being NULL in both. -/
theorem null_position_rows_share_key :
    scenarioStore.toDatabase.votes = [] ∧
    (runPosts scenarioStore.toDatabase
        [⟨some "V1", some 1, [⟨none, some 1⟩, ⟨none, some 2⟩]⟩]).votes
      = [⟨some "V1", some 1, none, some 1⟩, ⟨some "V1", some 1, none, some 2⟩] ∧
    ¬ (runPosts scenarioStore.toDatabase
        [⟨some "V1", some 1, [⟨none, some 1⟩, ⟨none, some 2⟩]⟩]).votes.Pairwise
      (fun a b => ¬ (a.user_id = b.user_id ∧ a.election_id = b.election_id ∧
          a.position_id = b.position_id)) := by
  decide

/-- C15, amended. In every database reached from a database without ballot rows by
any sequence of calls, accepted or rejected, `null` identifiers included, no two
ballot rows have the same (user_id, election_id, position_id) with all three
values non-NULL. -/
theorem ballot_keys_stay_distinct (db : Database) (bodies : List CastBody)
    (h0 : db.votes = []) :
    (runPosts db bodies).votes.Pairwise (fun a b =>
      ¬ ∃ u e p, (a.user_id = some u ∧ a.election_id = some e ∧ a.position_id = some p) ∧
        (b.user_id = some u ∧ b.election_id = some e ∧ b.position_id = some p)) := by
  have h : ballotKeysDistinct db := by
    unfold ballotKeysDistinct
    rw [h0]
    exact List.Pairwise.nil
  have h1 := ballotKeysDistinct_runPosts bodies db h
  unfold ballotKeysDistinct at h1
  refine List.Pairwise.imp ?_ h1
  intro a b hab
  rintro ⟨u, e, p, ⟨ha1, ha2, ha3⟩, hb1, hb2, hb3⟩
  apply hab
  simp only [sameBallotKey, sqlEq_eq_true]
  exact ⟨⟨u, ha1, hb1⟩, ⟨e, ha2, hb2⟩, ⟨p, ha3, hb3⟩⟩

theorem ballot_keys_stay_distinct_witness :
    scenarioStore.toDatabase.votes = [] ∧
    (runPosts scenarioStore.toDatabase
        [⟨some "V1", some 1, [⟨some 1, some 1⟩, ⟨some 1, some 2⟩]⟩,
         ⟨some "V1", some 1, [⟨some 1, some 2⟩]⟩,
         ⟨some "V2", some 1, [⟨none, some 2⟩, ⟨some 1, some 2⟩]⟩]).votes
      = [⟨some "V1", some 1, some 1, some 1⟩, ⟨some "V2", some 1, none, some 2⟩,
         ⟨some "V2", some 1, some 1, some 2⟩] ∧
    (runPosts scenarioStore.toDatabase
        [⟨some "V1", some 1, [⟨some 1, some 1⟩, ⟨some 1, some 2⟩]⟩,
         ⟨some "V1", some 1, [⟨some 1, some 2⟩]⟩,
         ⟨some "V2", some 1, [⟨none, some 2⟩, ⟨some 1, some 2⟩]⟩]).votes.Pairwise
      (fun a b =>
        ¬ ∃ u e p, (a.user_id = some u ∧ a.election_id = some e ∧ a.position_id = some p) ∧
          (b.user_id = some u ∧ b.election_id = some e ∧ b.position_id = some p)) :=
  ⟨rfl, by decide, ballot_keys_stay_distinct scenarioStore.toDatabase
    [⟨some "V1", some 1, [⟨some 1, some 1⟩, ⟨some 1, some 2⟩]⟩,
     ⟨some "V1", some 1, [⟨some 1, some 2⟩]⟩,
     ⟨some "V2", some 1, [⟨none, some 2⟩, ⟨some 1, some 2⟩]⟩] rfl⟩

/-! ## Two entries for one position -/

theorem recordEntries_ok_key_free (u : String) (e p : Nat) :
    ∀ (vs : List VoteEntry) (db db1 : Database),
      recordEntries (some u) (some e) db vs = .ok db1 →
      (∃ v ∈ vs, v.positionId = some p) →
        ¬ ∃ row ∈ db.votes,
          row.user_id = some u ∧ row.election_id = some e ∧ row.position_id = some p
  | [], _, _, _, hv => by simp at hv
  | v :: rest, db, db1, h, hv => by
    simp only [recordEntries] at h
    cases hi : insertRecord db (recordOf (some u) (some e) v) with
    | error err => rw [hi] at h; cases h
    | ok db2 =>
      rw [hi] at h
      have hok : ∃ db3, insertRecord db (recordOf (some u) (some e) v) = .ok db3 := ⟨db2, hi⟩
      rw [insertRecord_ok_iff] at hok
      have h2 := insertRecord_ok_eq hi
      subst h2
      obtain ⟨w, hw, hwp⟩ := hv
      rcases List.mem_cons.mp hw with rfl | hrest
      · rintro ⟨row, hrow, h1, h2, h3⟩
        have hu := hok.2
        simp only [uniqueVoteViolated, List.any_eq_false, Bool.and_eq_true, not_and,
          sqlEq_eq_true, recordOf] at hu
        exact hu row hrow ⟨⟨u, h1, rfl⟩, ⟨e, h2, rfl⟩⟩ ⟨p, h3, hwp⟩
      · have ih := recordEntries_ok_key_free u e p rest _ _ h ⟨w, hrest, hwp⟩
        rintro ⟨row, hrow, hkey⟩
        apply ih
        refine ⟨row, ?_, hkey⟩
        simp only [creditCandidate, List.mem_append]
        exact Or.inl hrow

theorem recordEntries_ok_countP (u : String) (e p : Nat) :
    ∀ (vs : List VoteEntry) (db db1 : Database),
      recordEntries (some u) (some e) db vs = .ok db1 →
        vs.countP (fun v => decide (v.positionId = some p)) ≤ 1
  | [], _, _, _ => by simp
  | v :: rest, db, db1, h => by
    have h0 := h
    simp only [recordEntries] at h
    cases hi : insertRecord db (recordOf (some u) (some e) v) with
    | error err => rw [hi] at h; cases h
    | ok db2 =>
      rw [hi] at h
      have h2 := insertRecord_ok_eq hi
      subst h2
      have ih := recordEntries_ok_countP u e p rest _ _ h
      by_cases hv : v.positionId = some p
      · have hfree : ¬ ∃ w ∈ rest, w.positionId = some p := by
          intro hex
          apply recordEntries_ok_key_free u e p rest _ _ h hex
          refine ⟨recordOf (some u) (some e) v, ?_, rfl, rfl, hv⟩
          simp [creditCandidate]
        have hz : rest.countP (fun v => decide (v.positionId = some p)) = 0 := by
          rw [List.countP_eq_zero]
          intro w hw
          simp only [decide_eq_true_eq]
          exact fun hwp => hfree ⟨w, hw, hwp⟩
        simp [List.countP_cons, hv, hz]
      · simp only [List.countP_cons, hv, decide_False, Bool.false_eq_true, if_false,
          Nat.add_zero]
        exact ih

/-- C20, amended. Whatever `max_selections` is, a call with a userId and an
electionId that are not `null` whose list names one position, not `null`, more
than once is never accepted: it is answered 400 or 500, and no election counter
and no `has_voted` flag changes. -/
theorem postCast_repeated_position_rejected (db : Database) (body : CastBody)
    (u : String) (e p : Nat) (hu : body.userId = some u) (he : body.electionId = some e)
    (hrep : 2 ≤ body.votes.countP (fun v => decide (v.positionId = some p))) :
    ((postCast db body).1.status = 400 ∨ (postCast db body).1.status = 500) ∧
    (postCast db body).2.elections = db.elections ∧
    (postCast db body).2.users = db.users := by
  rcases postCast_cases db body with ⟨_, hc⟩ | ⟨_, _, k, _, hc⟩ | ⟨_, ⟨db1, hok⟩, _⟩
  · rw [hc]; exact ⟨Or.inl rfl, rfl, rfl⟩
  · rw [hc]; exact ⟨Or.inr rfl, rfl, rfl⟩
  · rw [hu, he] at hok
    have := recordEntries_ok_countP u e p _ _ _ hok
    omega

theorem postCast_repeated_position_rejected_witness :
    2 ≤ ([⟨some 1, some 1⟩, ⟨some 1, some 2⟩] : List VoteEntry).countP
      (fun v => decide (v.positionId = some 1)) ∧
    ((postCast twoSeatStore.toDatabase
        ⟨some "V2", some 1, [⟨some 1, some 1⟩, ⟨some 1, some 2⟩]⟩).1.status = 400 ∨
      (postCast twoSeatStore.toDatabase
        ⟨some "V2", some 1, [⟨some 1, some 1⟩, ⟨some 1, some 2⟩]⟩).1.status = 500) ∧
    (postCast twoSeatStore.toDatabase
        ⟨some "V2", some 1, [⟨some 1, some 1⟩, ⟨some 1, some 2⟩]⟩).2.votes
      = [⟨some "V2", some 1, some 1, some 1⟩] :=
  ⟨by decide,
   (postCast_repeated_position_rejected twoSeatStore.toDatabase
      ⟨some "V2", some 1, [⟨some 1, some 1⟩, ⟨some 1, some 2⟩]⟩ "V2" 1 1 rfl rfl
      (by decide)).1,
   by decide⟩

/-! ## Handlers running at the same time -/

theorem Call.run_answered (r : Response) :
    ∀ (fuel : Nat) (db : Database) (c : Call), c.stage = .answered r →
      Call.run fuel db c = (db, c)
  | 0, _, _, _ => rfl
  | fuel + 1, db, c, h => by
    have hs : c.step db = (db, c) := by
      unfold Call.step
      rw [h]
    simp only [Call.run, hs]
    exact Call.run_answered r fuel db c h

theorem Call.run_loop (body : CastBody) (extra : Nat) :
    ∀ (pending recorded : List VoteEntry) (db : Database),
      ((Call.run (2 * pending.length + 2 + extra) db ⟨body, recorded, pending, .loop⟩).1,
        (Call.run (2 * pending.length + 2 + extra) db ⟨body, recorded, pending, .loop⟩).2.stage)
      = match recordEntries body.userId body.electionId db pending with
        | .ok db1 =>
          (countVoteCast (markVoted db1 body.userId) body.electionId,
            Stage.answered (.success "Vote cast successfully"))
        | .error (_, db1) => (db1, Stage.answered (.error 500 "Failed to cast vote"))
  | [], recorded, db => by
    have h2 : 2 * ([] : List VoteEntry).length + 2 + extra = extra + 1 + 1 := by
      simp only [List.length_nil]; omega
    rw [h2]
    simp only [Call.run, Call.step, recordEntries]
    rw [Call.run_answered (.success "Vote cast successfully") extra _ _ rfl]
  | v :: rest, recorded, db => by
    have h2 : 2 * (v :: rest).length + 2 + extra = (2 * rest.length + 2 + extra) + 1 + 1 := by
      simp only [List.length_cons]; omega
    rw [h2]
    simp only [Call.run, Call.step, recordEntries]
    cases hi : insertRecord db (recordOf body.userId body.electionId v) with
    | error err =>
      simp only []
      rw [Call.run_answered (.error 500 "Failed to cast vote") _ _ _ rfl]
    | ok db1 =>
      simp only []
      exact Call.run_loop body extra rest (recorded ++ [v]) (creditCandidate db1 v.candidateId)

/-- A handler that runs alone for at least `2 * n + 3` statements, `n` being the
number of entries of its body, answers what `postCast` answers and leaves the
database that `postCast` leaves. -/
theorem Call.run_start (db : Database) (body : CastBody) (extra : Nat) :
    (Call.run (2 * body.votes.length + 3 + extra) db (Call.start body)).1
      = (postCast db body).2 ∧
    (Call.run (2 * body.votes.length + 3 + extra) db (Call.start body)).2.stage
      = .answered (postCast db body).1 := by
  have h2 : 2 * body.votes.length + 3 + extra = (2 * body.votes.length + 2 + extra) + 1 := by
    omega
  rw [h2]
  simp only [Call.run, Call.step, Call.start]
  by_cases h : 0 < (selectBallots db body.userId body.electionId).length
  · simp only [gt_iff_lt, h, if_true]
    rw [Call.run_answered (.error 400 "You have already voted in this election") _ _ _ rfl]
    simp [postCast, h]
  · simp only [gt_iff_lt, h, if_false]
    have hl := Call.run_loop body extra body.votes [] db
    rw [Prod.ext_iff] at hl
    simp only at hl
    rw [hl.1, hl.2]
    cases hr : recordEntries body.userId body.electionId db body.votes with
    | error p => simp [postCast, h, hr]
    | ok db1 => simp [postCast, h, hr]

theorem Call.succeeded_iff (c : Call) :
    c.succeeded = true ↔ ∃ m, c.stage = .answered (.success m) := by
  unfold Call.succeeded
  cases hs : c.stage with
  | answered r => cases r <;> simp
  | select => simp
  | loop => simp
  | credit v => simp
  | countVote => simp

/-- What one statement of a call does to the call and to the ballot rows: the body
stays; the pending entries stay those left of the body; and either the rows and the
recorded entries stay as they are, or the `INSERT` of an entry has passed
`unique_vote` and its row and the entry are appended. -/
theorem Call.step_facts (db : Database) (c : Call) :
    (c.step db).2.body = c.body ∧
    (c.body.votes = c.recorded ++ c.pending →
      (c.step db).2.body.votes = (c.step db).2.recorded ++ (c.step db).2.pending) ∧
    (((c.stage = .countVote ∨ c.succeeded = true) → c.pending = []) →
      (((c.step db).2.stage = .countVote ∨ (c.step db).2.succeeded = true) →
        (c.step db).2.pending = [])) ∧
    (((c.step db).1.votes = db.votes ∧ (c.step db).2.recorded = c.recorded) ∨
      ∃ v, uniqueVoteViolated db (recordOf c.body.userId c.body.electionId v) = false ∧
        (c.step db).1.votes = db.votes ++ [recordOf c.body.userId c.body.electionId v] ∧
        (c.step db).2.recorded = c.recorded ++ [v]) ∧
    (∀ r, (c.step db).2.stage = .answered r →
      c.stage = .answered r ∨
      r = .success "Vote cast successfully" ∨
      r = .error 400 "You have already voted in this election" ∨
      r = .error 500 "Failed to cast vote") := by
  obtain ⟨body, recorded, pending, stage⟩ := c
  cases stage with
  | select =>
    simp only [Call.step]
    split_ifs <;> simp [Call.succeeded]
  | loop =>
    cases pending with
    | nil => simp [Call.step, markVoted]
    | cons v rest =>
      simp only [Call.step]
      cases hi : insertRecord db (recordOf body.userId body.electionId v) with
      | error err => simp [Call.succeeded]
      | ok db1 =>
        have hok : ∃ db2, insertRecord db (recordOf body.userId body.electionId v) = .ok db2 :=
          ⟨db1, hi⟩
        rw [insertRecord_ok_iff] at hok
        have h2 := insertRecord_ok_eq hi
        subst h2
        refine ⟨rfl, ?_, ?_, Or.inr ⟨v, hok.2, rfl, rfl⟩, ?_⟩
        · intro h
          simp only at h ⊢
          rw [h]
          simp
        · intro _ h
          rcases h with h | h
          · cases h
          · simp [Call.succeeded] at h
        · intro r h
          cases h
  | credit v => simp [Call.step, creditCandidate, Call.succeeded]
  | countVote => simp [Call.step, countVoteCast, Call.succeeded]
  | answered r => simp [Call.step]

theorem getElem?_set_cases {α : Type} (l : List α) (i j : Nat) (a b : α)
    (h : (l.set i a)[j]? = some b) : (j = i ∧ b = a) ∨ (j ≠ i ∧ l[j]? = some b) := by
  by_cases hij : i = j
  · subst hij
    rw [List.getElem?_set] at h
    simp only [if_true] at h
    split at h
    · exact Or.inl ⟨rfl, (Option.some.inj h).symm⟩
    · cases h
  · rw [List.getElem?_set_ne hij] at h
    exact Or.inr ⟨fun h2 => hij h2.symm, h⟩

theorem raceInvariant_step (u : String) (e p : Nat) (srv : Server) (i : Nat)
    (h : RaceInvariant u e p srv) : RaceInvariant u e p (srv.step i) := by
  unfold Server.step
  cases hci : srv.calls[i]? with
  | none => exact h
  | some ci =>
    simp only
    obtain ⟨h1, h2, h3⟩ := h
    have hmem : ci ∈ srv.calls := List.getElem?_mem hci
    obtain ⟨hb, hv, hst, hrec, hresp⟩ := Call.step_facts srv.db ci
    obtain ⟨hu, he, hpos, hvotes, hpend, hans⟩ := h1 ci hmem
    have hsub : ∀ row ∈ srv.db.votes, row ∈ (ci.step srv.db).1.votes := by
      rcases hrec with ⟨hA, _⟩ | ⟨v, _, hB, _⟩
      · intro row hr; rw [hA]; exact hr
      · intro row hr; rw [hB]; exact List.mem_append_left _ hr
    have hnew : (ci.step srv.db).2.holds p →
        (ci.holds p ∨ ∀ c ∈ srv.calls, ¬ c.holds p) ∧
        ∃ row ∈ (ci.step srv.db).1.votes,
          row.user_id = some u ∧ row.election_id = some e ∧ row.position_id = some p := by
      intro hh
      rcases hrec with ⟨_, hA⟩ | ⟨v, hun, hB, hrecd⟩
      · have hold : ci.holds p := by
          unfold Call.holds at hh ⊢
          rw [hA] at hh
          exact hh
        obtain ⟨row, hr, hk⟩ := h3 ci hmem hold
        exact ⟨Or.inl hold, row, hsub row hr, hk⟩
      · unfold Call.holds at hh
        rw [hrecd] at hh
        obtain ⟨w, hw, hwp⟩ := hh
        rcases List.mem_append.mp hw with hw1 | hw1
        · have hold : ci.holds p := ⟨w, hw1, hwp⟩
          obtain ⟨row, hr, hk⟩ := h3 ci hmem hold
          exact ⟨Or.inl hold, row, hsub row hr, hk⟩
        · simp only [List.mem_singleton] at hw1
          subst hw1
          refine ⟨Or.inr ?_, recordOf ci.body.userId ci.body.electionId w, ?_, ?_⟩
          · intro c hc hch
            obtain ⟨row, hr, hk1, hk2, hk3⟩ := h3 c hc hch
            simp only [uniqueVoteViolated, List.any_eq_false, Bool.and_eq_true, not_and,
              sqlEq_eq_true, recordOf] at hun
            exact hun row hr ⟨⟨u, hk1, hu⟩, ⟨e, hk2, he⟩⟩ ⟨p, hk3, hwp⟩
          · rw [hB]; simp
          · exact ⟨hu, he, hwp⟩
    refine ⟨?_, ?_, ?_⟩
    · intro c hc
      rcases List.mem_or_eq_of_mem_set hc with hc1 | hc1
      · exact h1 c hc1
      · subst hc1
        refine ⟨?_, ?_, ?_, hv hvotes, hst hpend, ?_⟩
        · rw [hb]; exact hu
        · rw [hb]; exact he
        · rw [hb]; exact hpos
        · intro r hr
          rcases hresp r hr with h4 | h4
          · exact hans r h4
          · exact h4
    · intro j k cj ck hj hk hhj hhk
      rcases getElem?_set_cases _ _ _ _ _ hj with ⟨hji, hcj⟩ | ⟨hji, hjold⟩
      · rcases getElem?_set_cases _ _ _ _ _ hk with ⟨hki, hck⟩ | ⟨hki, hkold⟩
        · rw [hji, hki]
        · subst hcj
          rcases (hnew hhj).1 with hold | hnone
          · rw [hji]
            exact h2 i k ci ck hci hkold hold hhk
          · exact absurd hhk (hnone ck (List.getElem?_mem hkold))
      · rcases getElem?_set_cases _ _ _ _ _ hk with ⟨hki, hck⟩ | ⟨hki, hkold⟩
        · subst hck
          rcases (hnew hhk).1 with hold | hnone
          · rw [hki]
            exact h2 j i cj ci hjold hci hhj hold
          · exact absurd hhj (hnone cj (List.getElem?_mem hjold))
        · exact h2 j k cj ck hjold hkold hhj hhk
    · intro c hc hch
      rcases List.mem_or_eq_of_mem_set hc with hc1 | hc1
      · obtain ⟨row, hr, hk⟩ := h3 c hc1 hch
        exact ⟨row, hsub row hr, hk⟩
      · subst hc1
        exact (hnew hch).2

theorem raceInvariant_runSchedule (u : String) (e p : Nat) :
    ∀ (schedule : List Nat) (srv : Server), RaceInvariant u e p srv →
      RaceInvariant u e p (runSchedule srv schedule)
  | [], _, h => h
  | i :: rest, srv, h =>
    raceInvariant_runSchedule u e p rest _ (raceInvariant_step u e p srv i h)

theorem raceInvariant_start (u : String) (e p : Nat) (db : Database) (bodies : List CastBody)
    (hb : ∀ b ∈ bodies, b.userId = some u ∧ b.electionId = some e ∧
      ∃ v ∈ b.votes, v.positionId = some p) :
    RaceInvariant u e p ⟨db, bodies.map Call.start⟩ := by
  refine ⟨?_, ?_, ?_⟩
  · intro c hc
    simp only [List.mem_map] at hc
    obtain ⟨b, hbm, rfl⟩ := hc
    obtain ⟨h1, h2, h3⟩ := hb b hbm
    refine ⟨h1, h2, h3, by simp [Call.start], ?_, ?_⟩
    · intro h
      rcases h with h | h
      · cases h
      · simp [Call.succeeded, Call.start] at h
    · intro r hr
      cases hr
  · intro i j ci cj hi _ hh _
    have hc := List.getElem?_mem hi
    simp only [List.mem_map] at hc
    obtain ⟨b, _, rfl⟩ := hc
    simp [Call.holds, Call.start] at hh
  · intro c hc hh
    simp only [List.mem_map] at hc
    obtain ⟨b, _, rfl⟩ := hc
    simp [Call.holds, Call.start] at hh

theorem Server.step_bodies (srv : Server) (i : Nat) :
    (srv.step i).calls.map Call.body = srv.calls.map Call.body := by
  unfold Server.step
  cases hci : srv.calls[i]? with
  | none => rfl
  | some ci =>
    simp only [List.map_set, (Call.step_facts srv.db ci).1]
    apply List.ext_getElem?
    intro j
    by_cases hij : i = j
    · subst hij
      rw [List.getElem?_set]
      simp only [if_true, List.length_map, List.getElem?_map, hci, Option.map_some']
      have hlt : i < srv.calls.length := (List.getElem?_eq_some_iff.mp hci).1
      simp [hlt]
    · rw [List.getElem?_set_ne hij]

theorem runSchedule_bodies :
    ∀ (schedule : List Nat) (srv : Server),
      (runSchedule srv schedule).calls.map Call.body = srv.calls.map Call.body
  | [], _ => rfl
  | i :: rest, srv => by
    simp only [runSchedule]
    rw [runSchedule_bodies rest, Server.step_bodies]

/-- C19, as stated, fails.  Voter V1 sends two bodies for election 1, one for
position 1 and one for position 2, and both pre-checks run before either handler
writes: both calls are answered with success, two ballot rows are stored and
`votes_cast` is raised twice.  When both bodies name position 1 instead, the second
`INSERT` is refused by `unique_vote` and that call is answered 500, not 400. -/
theorem interleaved_calls_both_succeed :
    (runSchedule ⟨twoPositionStore.toDatabase,
        [Call.start ⟨some "V1", some 1, [⟨some 1, some 1⟩]⟩,
         Call.start ⟨some "V1", some 1, [⟨some 2, some 2⟩]⟩]⟩
        [0, 1, 0, 0, 0, 0, 1, 1, 1, 1]).calls.map Call.stage
      = [.answered (.success "Vote cast successfully"),
         .answered (.success "Vote cast successfully")] ∧
    (runSchedule ⟨twoPositionStore.toDatabase,
        [Call.start ⟨some "V1", some 1, [⟨some 1, some 1⟩]⟩,
         Call.start ⟨some "V1", some 1, [⟨some 2, some 2⟩]⟩]⟩
        [0, 1, 0, 0, 0, 0, 1, 1, 1, 1]).db.votes
      = [⟨some "V1", some 1, some 1, some 1⟩, ⟨some "V1", some 1, some 2, some 2⟩] ∧
    (runSchedule ⟨twoPositionStore.toDatabase,
        [Call.start ⟨some "V1", some 1, [⟨some 1, some 1⟩]⟩,
         Call.start ⟨some "V1", some 1, [⟨some 2, some 2⟩]⟩]⟩
        [0, 1, 0, 0, 0, 0, 1, 1, 1, 1]).db.elections
      = [⟨1, "E1", .active, 10, 2⟩] ∧
    (runSchedule ⟨scenarioStore.toDatabase,
        [Call.start ⟨some "V1", some 1, [⟨some 1, some 1⟩]⟩,
         Call.start ⟨some "V1", some 1, [⟨some 1, some 2⟩]⟩]⟩
        [0, 1, 0, 0, 0, 0, 1, 1, 1, 1]).calls.map Call.stage
      = [.answered (.success "Vote cast successfully"),
         .answered (.error 500 "Failed to cast vote")] := by
  decide

/-- C19, amended. For any number of handlers of one voter and one election, neither
`null`, that run at the same time on bodies which all name one position, and
under every interleaving of their statements, at most one handler answers with
success: `unique_vote` refuses every later `INSERT` for the position.  Every
handler that has answered has answered with the success response or with status
400 or 500, and the i-th call stays the handler of the i-th body. -/
theorem concurrent_calls_one_winner (db : Database) (bodies : List CastBody) (u : String)
    (e p : Nat)
    (hb : ∀ b ∈ bodies, b.userId = some u ∧ b.electionId = some e ∧
      ∃ v ∈ b.votes, v.positionId = some p)
    (schedule : List Nat) :
    (runSchedule ⟨db, bodies.map Call.start⟩ schedule).calls.map Call.body = bodies ∧
    (∀ (i j : Nat) (ci cj : Call) (mi mj : String),
      (runSchedule ⟨db, bodies.map Call.start⟩ schedule).calls[i]? = some ci →
      (runSchedule ⟨db, bodies.map Call.start⟩ schedule).calls[j]? = some cj →
      ci.stage = .answered (.success mi) → cj.stage = .answered (.success mj) → i = j) ∧
    (∀ c ∈ (runSchedule ⟨db, bodies.map Call.start⟩ schedule).calls, ∀ r,
      c.stage = .answered r →
        r = .success "Vote cast successfully" ∨
        r = .error 400 "You have already voted in this election" ∨
        r = .error 500 "Failed to cast vote") := by
  have hinv := raceInvariant_runSchedule u e p schedule _ (raceInvariant_start u e p db bodies hb)
  refine ⟨?_, ?_, ?_⟩
  · rw [runSchedule_bodies]
    simp only [List.map_map]
    have : (Call.body ∘ Call.start) = id := rfl
    rw [this, List.map_id]
  rotate_left
  · intro c hc r hr
    obtain ⟨_, _, _, _, _, hans⟩ := hinv.1 c hc
    exact hans r hr
  · obtain ⟨h1, h2, _⟩ := hinv
    have hholds : ∀ c ∈ (runSchedule ⟨db, bodies.map Call.start⟩ schedule).calls,
        ∀ m, c.stage = .answered (.success m) → c.holds p := by
      intro c hc m hs
      obtain ⟨_, _, hpos, hvotes, hpend, _⟩ := h1 c hc
      have hp0 := hpend (Or.inr ((Call.succeeded_iff c).mpr ⟨m, hs⟩))
      rw [hp0, List.append_nil] at hvotes
      unfold Call.holds
      rw [← hvotes]
      exact hpos
    intro i j ci cj mi mj hi hj hsi hsj
    exact h2 i j ci cj hi hj (hholds ci (List.getElem?_mem hi) mi hsi)
      (hholds cj (List.getElem?_mem hj) mj hsj)

theorem concurrent_calls_one_winner_witness :
    (∀ b ∈ [(⟨some "V1", some 1, [⟨some 1, some 1⟩]⟩ : CastBody),
        ⟨some "V1", some 1, [⟨some 1, some 2⟩]⟩],
      b.userId = some "V1" ∧ b.electionId = some 1 ∧ ∃ v ∈ b.votes, v.positionId = some 1) ∧
    (runSchedule ⟨scenarioStore.toDatabase,
        [(⟨some "V1", some 1, [⟨some 1, some 1⟩]⟩ : CastBody),
          ⟨some "V1", some 1, [⟨some 1, some 2⟩]⟩].map Call.start⟩
        [0, 1, 1, 1, 1, 1, 0]).calls.map Call.stage
      = [.answered (.error 500 "Failed to cast vote"),
         .answered (.success "Vote cast successfully")] ∧
    (runSchedule ⟨scenarioStore.toDatabase,
        [(⟨some "V1", some 1, [⟨some 1, some 1⟩]⟩ : CastBody),
          ⟨some "V1", some 1, [⟨some 1, some 2⟩]⟩].map Call.start⟩
        [0, 1, 1, 1, 1, 1, 0]).calls.map Call.body
      = [⟨some "V1", some 1, [⟨some 1, some 1⟩]⟩, ⟨some "V1", some 1, [⟨some 1, some 2⟩]⟩] :=
  ⟨by decide, by decide,
   (concurrent_calls_one_winner scenarioStore.toDatabase
      [⟨some "V1", some 1, [⟨some 1, some 1⟩]⟩, ⟨some "V1", some 1, [⟨some 1, some 2⟩]⟩]
      "V1" 1 1 (by decide) [0, 1, 1, 1, 1, 1, 0]).1⟩

end OnlineVoting
